import Mathlib

/-!
Verification development for the nanotar TAR codec (src/src/parse.ts,
src/src/item-types.ts).

Modelling conventions (shallow embedding of the JavaScript source):
- A byte buffer (ArrayBuffer / Uint8Array) is a List Nat of byte values.
- A JavaScript string is a List Nat of Unicode code points.
- TextEncoder / TextDecoder are modelled by an explicit UTF-8 codec
  (WHATWG semantics: lone surrogates encode to U+FFFD; malformed byte
  sequences decode to U+FFFD).
- JavaScript NaN results of parseInt are modelled by Option Int
  (none = NaN); Math.trunc division on integers is Int.div (truncation
  toward zero) and the JS remainder operator is Int.mod.
- A thrown RangeError (out-of-range TypedArray construction) is modelled
  by Except JsErr.
-/

set_option maxRecDepth 8192

namespace Nanotar

abbrev Bytes := List Nat

abbrev JSStr := List Nat

/-- Embed a Lean string literal as a JS string (list of code points). -/
def js (s : String) : JSStr := s.data.map Char.toNat

/-! ## UTF-8 codec (TextEncoder / TextDecoder) -/

/-- A Unicode scalar value: representable code point that is not a surrogate. -/
def Scalar (c : Nat) : Prop := c < 0x110000 ∧ ¬(0xD800 ≤ c ∧ c < 0xE000)

instance (c : Nat) : Decidable (Scalar c) := by unfold Scalar; infer_instance

/-- UTF-8 encoding of one code point, as produced by TextEncoder
(a lone surrogate encodes as U+FFFD = EF BF BD). -/
def utf8EncodeChar (c : Nat) : Bytes :=
  if c < 0x80 then [c]
  else if c < 0x800 then [0xC0 + c / 0x40, 0x80 + c % 0x40]
  else if c < 0x10000 then
    if 0xD800 ≤ c ∧ c < 0xE000 then [0xEF, 0xBF, 0xBD]
    else [0xE0 + c / 0x1000, 0x80 + c / 0x40 % 0x40, 0x80 + c % 0x40]
  else [0xF0 + c / 0x40000, 0x80 + c / 0x1000 % 0x40, 0x80 + c / 0x40 % 0x40,
        0x80 + c % 0x40]

/-- TextEncoder.encode: UTF-8 encoding of a string. -/
def utf8Encode (s : JSStr) : Bytes := (s.map utf8EncodeChar).flatten

/-- Number of UTF-8 bytes of a string. -/
def utf8Len (s : JSStr) : Nat := (utf8Encode s).length

/-- Classification of a byte read in the initial decoder state:
an ASCII byte, a lead byte (continuations still needed, code point bits so
far, valid range of the next continuation byte), or an invalid byte. -/
inductive LeadClass where
  | ascii
  | lead (needed cp lo hi : Nat)
  | bad

/-- The WHATWG lead-byte classification. -/
def classifyLead (b : Nat) : LeadClass :=
  if b < 0x80 then .ascii
  else if 0xC2 ≤ b ∧ b ≤ 0xDF then .lead 1 (b - 0xC0) 0x80 0xBF
  else if b = 0xE0 then .lead 2 0 0xA0 0xBF
  else if b = 0xED then .lead 2 (0xED - 0xE0) 0x80 0x9F
  else if 0xE1 ≤ b ∧ b ≤ 0xEF then .lead 2 (b - 0xE0) 0x80 0xBF
  else if b = 0xF0 then .lead 3 0 0x90 0xBF
  else if b = 0xF4 then .lead 3 (0xF4 - 0xF0) 0x80 0x8F
  else if 0xF1 ≤ b ∧ b ≤ 0xF3 then .lead 3 (b - 0xF0) 0x80 0xBF
  else .bad

/-- One step of the WHATWG UTF-8 decoder state machine.
State: needed = continuation bytes still expected, cp = code point so far,
lo/hi = valid range for the next continuation byte. On an invalid
continuation byte the decoder emits U+FFFD and reconsumes the byte in the
initial state (inlined through classifyLead to keep the recursion
structural on the byte list). -/
def utf8DecodeLoop : Nat → Nat → Nat → Nat → Bytes → JSStr
  | 0, _, _, _, [] => []
  | 0, _, _, _, b :: bs =>
    (match classifyLead b with
     | .ascii => b :: utf8DecodeLoop 0 0 0 0 bs
     | .lead n2 cp2 lo2 hi2 => utf8DecodeLoop n2 cp2 lo2 hi2 bs
     | .bad => 0xFFFD :: utf8DecodeLoop 0 0 0 0 bs)
  | _ + 1, _, _, _, [] => [0xFFFD]
  | n + 1, cp, lo, hi, b :: bs =>
    if lo ≤ b ∧ b ≤ hi then
      if n = 0 then (cp * 0x40 + (b - 0x80)) :: utf8DecodeLoop 0 0 0 0 bs
      else utf8DecodeLoop n (cp * 0x40 + (b - 0x80)) 0x80 0xBF bs
    else 0xFFFD ::
      (match classifyLead b with
       | .ascii => b :: utf8DecodeLoop 0 0 0 0 bs
       | .lead n2 cp2 lo2 hi2 => utf8DecodeLoop n2 cp2 lo2 hi2 bs
       | .bad => 0xFFFD :: utf8DecodeLoop 0 0 0 0 bs)

/-- TextDecoder.decode. -/
def utf8Decode (bs : Bytes) : JSStr := utf8DecodeLoop 0 0 0 0 bs

/-- TextEncoder.encodeInto into a view of the given byte size: encodes the
longest prefix of code points whose encodings fit entirely. -/
def encodeIntoBytes : JSStr → Nat → Bytes
  | [], _ => []
  | c :: cs, size =>
    let e := utf8EncodeChar c
    if e.length ≤ size then e ++ encodeIntoBytes cs (size - e.length) else []

theorem encodeIntoBytes_length_le (s : JSStr) (size : Nat) :
    (encodeIntoBytes s size).length ≤ size := by
  induction s generalizing size with
  | nil => simp [encodeIntoBytes]
  | cons c cs ih =>
    simp only [encodeIntoBytes]
    split
    · rename_i h
      have := ih (size - (utf8EncodeChar c).length)
      simp only [List.length_append]
      omega
    · simp

theorem encodeIntoBytes_of_fits (s : JSStr) (size : Nat)
    (h : utf8Len s ≤ size) : encodeIntoBytes s size = utf8Encode s := by
  induction s generalizing size with
  | nil => simp [encodeIntoBytes, utf8Encode]
  | cons c cs ih =>
    have hlen : utf8Len (c :: cs) = (utf8EncodeChar c).length + utf8Len cs := by
      simp [utf8Len, utf8Encode]
    simp only [encodeIntoBytes]
    rw [if_pos (by omega)]
    rw [ih _ (by omega)]
    simp [utf8Encode]

/-! Step lemmas for the decoder state machine. -/

theorem classifyLead_ascii (b : Nat) (h : b < 0x80) :
    classifyLead b = .ascii := by
  rw [classifyLead, if_pos h]

theorem classifyLead_lead2 (b : Nat) (h : 0xC2 ≤ b ∧ b ≤ 0xDF) :
    classifyLead b = .lead 1 (b - 0xC0) 0x80 0xBF := by
  rw [classifyLead, if_neg (by omega), if_pos h]

theorem classifyLead_leadE0 : classifyLead 0xE0 = .lead 2 0 0xA0 0xBF := by
  rw [classifyLead, if_neg (by omega), if_neg (by omega), if_pos rfl]

theorem classifyLead_leadED :
    classifyLead 0xED = .lead 2 (0xED - 0xE0) 0x80 0x9F := by
  rw [classifyLead, if_neg (by omega), if_neg (by omega), if_neg (by omega),
    if_pos rfl]

theorem classifyLead_lead3 (b : Nat) (h : 0xE1 ≤ b ∧ b ≤ 0xEF) (hd : b ≠ 0xED) :
    classifyLead b = .lead 2 (b - 0xE0) 0x80 0xBF := by
  rw [classifyLead, if_neg (by omega), if_neg (by omega), if_neg (by omega),
    if_neg hd, if_pos h]

theorem classifyLead_leadF0 : classifyLead 0xF0 = .lead 3 0 0x90 0xBF := by
  rw [classifyLead, if_neg (by omega), if_neg (by omega), if_neg (by omega),
    if_neg (by omega), if_neg (by omega), if_pos rfl]

theorem classifyLead_leadF4 :
    classifyLead 0xF4 = .lead 3 (0xF4 - 0xF0) 0x80 0x8F := by
  rw [classifyLead, if_neg (by omega), if_neg (by omega), if_neg (by omega),
    if_neg (by omega), if_neg (by omega), if_neg (by omega), if_pos rfl]

theorem classifyLead_lead4 (b : Nat) (h : 0xF1 ≤ b ∧ b ≤ 0xF3) :
    classifyLead b = .lead 3 (b - 0xF0) 0x80 0xBF := by
  rw [classifyLead, if_neg (by omega), if_neg (by omega), if_neg (by omega),
    if_neg (by omega), if_neg (by omega), if_neg (by omega), if_neg (by omega),
    if_pos h]

theorem decLoop_ascii (b : Nat) (bs : Bytes) (h : b < 0x80) :
    utf8DecodeLoop 0 0 0 0 (b :: bs) = b :: utf8DecodeLoop 0 0 0 0 bs := by
  rw [utf8DecodeLoop]
  simp only [classifyLead_ascii b h]

theorem decLoop_lead2 (b : Nat) (bs : Bytes) (h : 0xC2 ≤ b ∧ b ≤ 0xDF) :
    utf8DecodeLoop 0 0 0 0 (b :: bs) =
      utf8DecodeLoop 1 (b - 0xC0) 0x80 0xBF bs := by
  rw [utf8DecodeLoop]
  simp only [classifyLead_lead2 b h]

theorem decLoop_leadE0 (bs : Bytes) :
    utf8DecodeLoop 0 0 0 0 (0xE0 :: bs) =
      utf8DecodeLoop 2 0 0xA0 0xBF bs := by
  rw [utf8DecodeLoop]
  simp only [classifyLead_leadE0]

theorem decLoop_leadED (bs : Bytes) :
    utf8DecodeLoop 0 0 0 0 (0xED :: bs) =
      utf8DecodeLoop 2 (0xED - 0xE0) 0x80 0x9F bs := by
  rw [utf8DecodeLoop]
  simp only [classifyLead_leadED]

theorem decLoop_lead3 (b : Nat) (bs : Bytes)
    (h : 0xE1 ≤ b ∧ b ≤ 0xEF) (hd : b ≠ 0xED) :
    utf8DecodeLoop 0 0 0 0 (b :: bs) =
      utf8DecodeLoop 2 (b - 0xE0) 0x80 0xBF bs := by
  rw [utf8DecodeLoop]
  simp only [classifyLead_lead3 b h hd]

theorem decLoop_leadF0 (bs : Bytes) :
    utf8DecodeLoop 0 0 0 0 (0xF0 :: bs) =
      utf8DecodeLoop 3 0 0x90 0xBF bs := by
  rw [utf8DecodeLoop]
  simp only [classifyLead_leadF0]

theorem decLoop_leadF4 (bs : Bytes) :
    utf8DecodeLoop 0 0 0 0 (0xF4 :: bs) =
      utf8DecodeLoop 3 (0xF4 - 0xF0) 0x80 0x8F bs := by
  rw [utf8DecodeLoop]
  simp only [classifyLead_leadF4]

theorem decLoop_lead4 (b : Nat) (bs : Bytes)
    (h : 0xF1 ≤ b ∧ b ≤ 0xF3) :
    utf8DecodeLoop 0 0 0 0 (b :: bs) =
      utf8DecodeLoop 3 (b - 0xF0) 0x80 0xBF bs := by
  rw [utf8DecodeLoop]
  simp only [classifyLead_lead4 b h]

theorem decLoop_contLast (cp lo hi b : Nat) (bs : Bytes)
    (h : lo ≤ b ∧ b ≤ hi) :
    utf8DecodeLoop 1 cp lo hi (b :: bs) =
      (cp * 0x40 + (b - 0x80)) :: utf8DecodeLoop 0 0 0 0 bs := by
  rw [utf8DecodeLoop, if_pos h, if_pos rfl]

theorem decLoop_contMid (n cp lo hi b : Nat) (bs : Bytes)
    (h : lo ≤ b ∧ b ≤ hi) (hn : n ≠ 0) :
    utf8DecodeLoop (n + 1) cp lo hi (b :: bs) =
      utf8DecodeLoop n (cp * 0x40 + (b - 0x80)) 0x80 0xBF bs := by
  rw [utf8DecodeLoop, if_pos h, if_neg hn]

/-- Decoding the encoding of one scalar code point consumes exactly its
bytes and emits the code point. -/
theorem utf8DecodeLoop_encodeChar (c : Nat) (h : Scalar c) (bs : Bytes) :
    utf8DecodeLoop 0 0 0 0 (utf8EncodeChar c ++ bs) =
      c :: utf8DecodeLoop 0 0 0 0 bs := by
  obtain ⟨hlt, hsur⟩ := h
  by_cases h1 : c < 0x80
  · have hc : utf8EncodeChar c = [c] := by simp [utf8EncodeChar, h1]
    rw [hc, List.cons_append, List.nil_append, decLoop_ascii c bs h1]
  · by_cases h2 : c < 0x800
    · have hc : utf8EncodeChar c = [0xC0 + c / 0x40, 0x80 + c % 0x40] := by
        simp [utf8EncodeChar, h1, h2]
      rw [hc, List.cons_append, List.cons_append, List.nil_append,
        decLoop_lead2 _ _ (by omega), decLoop_contLast _ _ _ _ _ (by omega)]
      congr 1
      omega
    · by_cases h3 : c < 0x10000
      · have hc : utf8EncodeChar c =
            [0xE0 + c / 0x1000, 0x80 + c / 0x40 % 0x40, 0x80 + c % 0x40] := by
          simp [utf8EncodeChar, h1, h2, h3, hsur]
        rw [hc]
        simp only [List.cons_append, List.nil_append]
        by_cases g0 : c < 0x1000
        · rw [show 0xE0 + c / 0x1000 = 0xE0 by omega, decLoop_leadE0,
            decLoop_contMid _ _ _ _ _ _ (by omega) (by omega),
            decLoop_contLast _ _ _ _ _ (by omega)]
          congr 1
          omega
        · by_cases gd : 0xD000 ≤ c ∧ c < 0xD800
          · rw [show 0xE0 + c / 0x1000 = 0xED by omega, decLoop_leadED,
              decLoop_contMid _ _ _ _ _ _ (by omega) (by omega),
              decLoop_contLast _ _ _ _ _ (by omega)]
            congr 1
            omega
          · rw [decLoop_lead3 _ _ (by omega) (by omega),
              decLoop_contMid _ _ _ _ _ _ (by omega) (by omega),
              decLoop_contLast _ _ _ _ _ (by omega)]
            congr 1
            omega
      · have hc : utf8EncodeChar c =
            [0xF0 + c / 0x40000, 0x80 + c / 0x1000 % 0x40,
             0x80 + c / 0x40 % 0x40, 0x80 + c % 0x40] := by
          simp [utf8EncodeChar, h1, h2, h3]
        rw [hc]
        simp only [List.cons_append, List.nil_append]
        by_cases g0 : c < 0x40000
        · rw [show 0xF0 + c / 0x40000 = 0xF0 by omega, decLoop_leadF0,
            decLoop_contMid _ _ _ _ _ _ (by omega) (by omega),
            decLoop_contMid _ _ _ _ _ _ (by omega) (by omega),
            decLoop_contLast _ _ _ _ _ (by omega)]
          congr 1
          omega
        · by_cases g4 : 0x100000 ≤ c
          · rw [show 0xF0 + c / 0x40000 = 0xF4 by omega, decLoop_leadF4,
              decLoop_contMid _ _ _ _ _ _ (by omega) (by omega),
              decLoop_contMid _ _ _ _ _ _ (by omega) (by omega),
              decLoop_contLast _ _ _ _ _ (by omega)]
            congr 1
            omega
          · rw [decLoop_lead4 _ _ (by omega),
              decLoop_contMid _ _ _ _ _ _ (by omega) (by omega),
              decLoop_contMid _ _ _ _ _ _ (by omega) (by omega),
              decLoop_contLast _ _ _ _ _ (by omega)]
            congr 1
            omega

/-- Decoding an encoded scalar string prepended to any byte tail. -/
theorem utf8DecodeLoop_encode (s : JSStr) (h : ∀ c ∈ s, Scalar c) (bs : Bytes) :
    utf8DecodeLoop 0 0 0 0 (utf8Encode s ++ bs) =
      s ++ utf8DecodeLoop 0 0 0 0 bs := by
  induction s with
  | nil => simp [utf8Encode]
  | cons c cs ih =>
    have hc : Scalar c := h c (by simp)
    have hcs : ∀ x ∈ cs, Scalar x := fun x hx => h x (by simp [hx])
    simp only [utf8Encode, List.map_cons, List.flatten_cons, List.append_assoc]
    rw [show (cs.map utf8EncodeChar).flatten = utf8Encode cs from rfl]
    rw [utf8DecodeLoop_encodeChar c hc, ih hcs]
    simp

/-- TextDecoder inverts TextEncoder on strings of Unicode scalar values. -/
theorem utf8Decode_encode (s : JSStr) (h : ∀ c ∈ s, Scalar c) :
    utf8Decode (utf8Encode s) = s := by
  have := utf8DecodeLoop_encode s h []
  simpa [utf8Decode, utf8DecodeLoop] using this

theorem utf8EncodeChar_ascii (c : Nat) (h : c < 0x80) :
    utf8EncodeChar c = [c] := by simp [utf8EncodeChar, h]

theorem utf8Encode_ascii (s : JSStr) (h : ∀ c ∈ s, c < 0x80) :
    utf8Encode s = s := by
  induction s with
  | nil => simp [utf8Encode]
  | cons c cs ih =>
    simp only [utf8Encode, List.map_cons, List.flatten_cons]
    rw [utf8EncodeChar_ascii c (h c (by simp))]
    rw [show (cs.map utf8EncodeChar).flatten = utf8Encode cs from rfl]
    rw [ih (fun x hx => h x (by simp [hx]))]
    rfl

/-! ## JavaScript number and string primitives -/

/-- ECMAScript whitespace and line terminators (as used by parseInt and
String.prototype.trim). -/
def isJsWs (c : Nat) : Bool :=
  c = 0x09 || c = 0x0A || c = 0x0B || c = 0x0C || c = 0x0D || c = 0x20 ||
  c = 0xA0 || c = 0x1680 || (0x2000 ≤ c && c ≤ 0x200A) || c = 0x2028 ||
  c = 0x2029 || c = 0x202F || c = 0x205F || c = 0x3000 || c = 0xFEFF

/-- Value of one digit character; 99 marks an invalid digit character. -/
def digitVal (c : Nat) : Nat :=
  if 48 ≤ c ∧ c ≤ 57 then c - 48
  else if 97 ≤ c ∧ c ≤ 122 then c - 87
  else if 65 ≤ c ∧ c ≤ 90 then c - 55
  else 99

def isRadixDigit (r c : Nat) : Bool := digitVal c < r

/-- Value of a digit string in radix r. -/
def digitsVal (r : Nat) (ds : List Nat) : Nat :=
  ds.foldl (fun a d => a * r + digitVal d) 0

/-- Core of ECMAScript parseInt once whitespace and sign are consumed:
longest digit run in radix r, none (NaN) when empty. -/
def parseIntDigits (r : Nat) (s : JSStr) : Option Nat :=
  let ds := s.takeWhile (isRadixDigit r)
  if ds = [] then none else some (digitsVal r ds)

/-- ECMAScript parseInt(string, radix) for an explicit radix other than 16
(no 0x-stripping). Returns none for NaN. -/
def jsParseIntRadix (r : Nat) (s : JSStr) : Option Int :=
  let t := s.dropWhile (fun c => isJsWs c)
  if t.head? = some 45 then (parseIntDigits r t.tail).map (fun n => -(n : Int))
  else if t.head? = some 43 then
    (parseIntDigits r t.tail).map (fun n => (n : Int))
  else (parseIntDigits r t).map (fun n => (n : Int))

/-- ECMAScript parseInt(string) without a radix argument: radix 10, but a
leading 0x/0X switches to hexadecimal. -/
def jsParseInt (s : JSStr) : Option Int :=
  let t := s.dropWhile (fun c => isJsWs c)
  let t1 := if t.head? = some 45 ∨ t.head? = some 43 then t.tail else t
  let t2 :=
    if t1.head? = some 48 ∧ (t1.tail.head? = some 120 ∨ t1.tail.head? = some 88)
    then t1.tail.tail else t1
  let r :=
    if t1.head? = some 48 ∧ (t1.tail.head? = some 120 ∨ t1.tail.head? = some 88)
    then 16 else 10
  (parseIntDigits r t2).map
    (fun n => if t.head? = some 45 then -(n : Int) else (n : Int))

/-- Fueled digit extraction (structural, so it reduces in the kernel). -/
def natDigitsAux (r : Nat) : Nat → Nat → List Nat
  | 0, _ => []
  | fuel + 1, n =>
    if n < r ∨ r < 2 then [if n < 10 then 48 + n else 87 + n]
    else natDigitsAux r fuel (n / r) ++
      [if n % r < 10 then 48 + n % r else 87 + n % r]

/-- Digit characters of n in radix r (lowercase letters above 9), most
significant first; mirrors Number.prototype.toString(radix). -/
def natDigits (r : Nat) (n : Nat) : List Nat := natDigitsAux r (n + 1) n

theorem natDigitsAux_congr (r : Nat) (f1 f2 n : Nat) (h1 : n < f1)
    (h2 : n < f2) : natDigitsAux r f1 n = natDigitsAux r f2 n := by
  induction n using Nat.strong_induction_on generalizing f1 f2 with
  | _ n ih =>
    match f1, f2 with
    | fa + 1, fb + 1 =>
      rw [natDigitsAux, natDigitsAux]
      split
      · rfl
      · rename_i h
        simp only [not_or, not_lt] at h
        have hlt : n / r < n := Nat.div_lt_self (by omega) (by omega)
        rw [ih (n / r) hlt fa fb (by omega) (by omega)]

/-- The unfolding rule of natDigits. -/
theorem natDigits_eq (r n : Nat) :
    natDigits r n = if n < r ∨ r < 2 then [if n < 10 then 48 + n else 87 + n]
      else natDigits r (n / r) ++
        [if n % r < 10 then 48 + n % r else 87 + n % r] := by
  show natDigitsAux r (n + 1) n = _
  rw [natDigitsAux]
  split
  · rfl
  · rename_i h
    simp only [not_or, not_lt] at h
    have hlt : n / r < n := Nat.div_lt_self (by omega) (by omega)
    rw [natDigitsAux_congr r n (n / r + 1) (n / r) (by omega) (by omega)]
    rfl

/-- Number.prototype.toString(radix) on a possibly negative integer. -/
def intToStringRadix (r : Nat) (i : Int) : JSStr :=
  if i < 0 then 45 :: natDigits r i.natAbs else natDigits r i.natAbs

/-- String(x).padStart(targetLength, "0") as used by the encoder. -/
def _leftPad (s : JSStr) (target : Nat) : JSStr :=
  if target ≤ s.length then s else List.replicate (target - s.length) 48 ++ s

/-- String.prototype.trim. -/
def jsTrim (s : JSStr) : JSStr :=
  ((s.dropWhile (fun c => isJsWs c)).reverse.dropWhile (fun c => isJsWs c)).reverse

/-- String.prototype.split with a single-character separator. -/
def jsSplit (sep : Nat) : JSStr → List JSStr
  | [] => [[]]
  | c :: rest =>
    let r := jsSplit sep rest
    if c = sep then [] :: r
    else
      match r with
      | h :: t => (c :: h) :: t
      | [] => [[c]]

/-! ## Path sanitizer (src/src/parse.ts, _sanitizePath) -/

/-- Sanitizes a file path to prevent path traversal attacks; direct
translation of _sanitizePath. -/
def _sanitizePath (path : JSStr) : JSStr :=
  -- path.replace(/\\/g, "/")
  let normalized0 := path.map (fun c => if c = 92 then 47 else c)
  -- .replace(/^[a-zA-Z]:\//, "")
  let normalized1 :=
    match normalized0 with
    | c0 :: 58 :: 47 :: rest =>
      if (65 ≤ c0 ∧ c0 ≤ 90) ∨ (97 ≤ c0 ∧ c0 ≤ 122) then rest else normalized0
    | _ => normalized0
  -- .replace(/^\/+/, "")
  let normalized2 := normalized1.dropWhile (fun c => c = 47)
  let hasLeadingDotSlash := normalized2.take 2 = js "./"
  let parts := jsSplit 47 normalized2
  let resolved := parts.foldl
    (fun acc part =>
      if part = js ".." then acc.dropLast
      else if part ≠ js "." ∧ part ≠ [] then acc ++ [part]
      else acc) []
  let result0 := List.intercalate (js "/") resolved
  let result1 :=
    if hasLeadingDotSlash ∧ ¬(result0.take 2 = js "./") then js "./" ++ result0
    else result0
  if path.getLast? = some 47 ∧ ¬(result1.getLast? = some 47) then
    result1 ++ [47]
  else result1

/-! ## Type-flag table (src/src/item-types.ts, tarItemTypeMap) -/

/-- tarItemTypeMap as a lookup from the one-character type string. -/
def tarItemTypeMap (t : JSStr) : Option JSStr :=
  if t = js "0" then some (js "file")
  else if t = js "1" then some (js "hardLink")
  else if t = js "2" then some (js "symbolicLink")
  else if t = js "3" then some (js "characterDevice")
  else if t = js "4" then some (js "blockDevice")
  else if t = js "5" then some (js "directory")
  else if t = js "6" then some (js "fifo")
  else if t = js "7" then some (js "contiguousFile")
  else if t = js "g" then some (js "globalExtendedHeader")
  else if t = js "x" then some (js "extendedHeader")
  else if t = js "D" then some (js "gnuDirectory")
  else if t = js "I" then some (js "gnuInodeMetadata")
  else if t = js "K" then some (js "gnuLongLinkName")
  else if t = js "L" then some (js "gnuLongFileName")
  else if t = js "N" then some (js "gnuOldLongFileName")
  else if t = js "M" then some (js "gnuMultiVolume")
  else if t = js "S" then some (js "gnuSparseFile")
  else if t = js "E" then some (js "gnuExtendedSparse")
  else if t = js "A" then some (js "solarisAcl")
  else if t = js "V" then some (js "solarisVolumeLabel")
  else if t = js "X" then some (js "solarisOldExtendedHeader")
  else none

/-! ## JS objects, TypedArray views, and low-level reads -/

/-- A JS record of string keys to string-or-undefined values, kept as an
assignment log: later entries shadow earlier ones, so appending two logs
models the spread of two objects in that order. -/
abbrev JsRec := List (JSStr × Option JSStr)

/-- Property lookup: last assignment wins; none = key absent. -/
def recGet (r : JsRec) (k : JSStr) : Option (Option JSStr) :=
  (r.reverse.find? (fun p => p.1 == k)).map (fun p => p.2)

/-- Truthiness of a string property: present, defined, and non-empty. -/
def extTruthy (r : JsRec) (k : JSStr) : Option JSStr :=
  match recGet r k with
  | some (some s) => if s = [] then none else some s
  | _ => none

/-- A JS property value as observed on the parsed attrs object. -/
inductive JsVal where
  | str (s : JSStr)
  | num (n : Option Int)
  | undefv
deriving DecidableEq

/-- Errors of the embedded parser: range = a thrown RangeError from an
out-of-range TypedArray construction; stuck = fuel exhaustion (the JS
loop would not have terminated within buffer-length many iterations). -/
inductive JsErr where
  | range
  | stuck
deriving DecidableEq

/-- ECMAScript ToIndex on a number (none = NaN, which converts to 0);
negative values throw. -/
def toIndex (v : Option Int) : Option Nat :=
  match v with
  | none => some 0
  | some i => if i < 0 then none else some i.toNat

/-- new Uint8Array(buffer, byteOffset, length): none models a thrown
RangeError. -/
def jsSubarray (buf : Bytes) (off len : Option Int) : Option Bytes :=
  match toIndex off, toIndex len with
  | some o, some l => if o + l ≤ buf.length then some ((buf.drop o).take l)
                      else none
  | _, _ => none

/-- _readString: view of size bytes at offset, cut at the first NUL,
UTF-8-decoded. -/
def _readString (buf : Bytes) (off : Int) (size : Option Int) : Option JSStr :=
  (jsSubarray buf (some off) size).map
    (fun view => utf8Decode (view.takeWhile (fun b => b != 0)))

/-- _readNumber: view of size bytes at offset taken as raw code points,
parsed as octal by parseInt(str, 8); inner none = NaN. -/
def _readNumber (buf : Bytes) (off : Int) (size : Int) : Option (Option Int) :=
  (jsSubarray buf (some off) (some size)).map (fun view => jsParseIntRadix 8 view)

/-- _parseExtendedHeaders: newline-separated lines, each contributing
line.split(" ")[1]?.split("=") as a key / possibly-undefined value. -/
def _parseExtendedHeaders (data : Bytes) : JsRec :=
  let dataStr := utf8Decode data
  (jsSplit 10 dataStr).foldl
    (fun hs line =>
      match (jsSplit 32 line)[1]? with
      | none => hs
      | some second =>
        let s := jsSplit 61 second
        hs ++ [(s.headD [], s[1]?)])
    []

/-! ## Parsed entries (src/src/parse.ts) -/

/-- The attrs object of a parsed entry: the spread
of globalExtendedHeader, nextExtendedHeader, and then the base-header
fields (which, being written last, shadow same-named extended keys). -/
structure ParsedAttrs where
  ext : JsRec
  mode : JSStr
  uid : Option Int
  gid : Option Int
  mtime : Option Int
  user : Option JSStr
  group : Option JSStr
deriving DecidableEq

/-- Property access on the merged attrs object. -/
def attrGet (a : ParsedAttrs) (k : JSStr) : JsVal :=
  if k = js "mode" then .str a.mode
  else if k = js "uid" then .num a.uid
  else if k = js "gid" then .num a.gid
  else if k = js "mtime" then .num a.mtime
  else if k = js "user" then
    match a.user with | some s => .str s | none => .undefv
  else if k = js "group" then
    match a.group with | some s => .str s | none => .undefv
  else
    match recGet a.ext k with
    | some (some v) => .str v
    | _ => .undefv

/-- Header-derived metadata of a parsed entry (what the filter sees). -/
structure TarMeta where
  name : JSStr
  type : JSStr
  size : Option Int
  attrs : ParsedAttrs
deriving DecidableEq

/-- A parsed entry; data = none models an undefined data property (a
directory / zero-size entry, or meta-only mode). -/
structure ParsedTarItem where
  meta : TarMeta
  data : Option Bytes
deriving DecidableEq

/-- The lazily decoded text property: TextDecoder decode of data
(decode of undefined is the empty string). -/
def ParsedTarItem.text (e : ParsedTarItem) : JSStr :=
  utf8Decode (e.data.getD [])

structure ParseTarOptions where
  filter : Option (TarMeta → Bool) := none
  metaOnly : Bool := false

instance {ε α} [DecidableEq ε] [DecidableEq α] : DecidableEq (Except ε α) :=
  fun a b =>
    match a, b with
    | .ok x, .ok y =>
      if h : x = y then isTrue (by rw [h]) else isFalse (by simp [h])
    | .error x, .error y =>
      if h : x = y then isTrue (by rw [h]) else isFalse (by simp [h])
    | .ok _, .error _ => isFalse (by simp)
    | .error _, .ok _ => isFalse (by simp)

/-- The body of the while loop of parseTar, one constructor-visible
iteration per fuel unit. offset is an Int (it becomes NaN only together
with an immediate loop exit, which is inlined at the seek = none points). -/
def parseTarLoop (buf : Bytes) (opts : ParseTarOptions) :
    Nat → Int → Option JsRec → Option JsRec → List ParsedTarItem →
    Except JsErr (List ParsedTarItem)
  | 0, _, _, _, _ => .error .stuck
  | fuel + 1, offset, nextExt, globalExt, files =>
    if offset < (buf.length : Int) - 512 then
      -- File name (offset: 0 - length: 100)
      match _readString buf offset (some 100) with
      | none => .error .range
      | some name0 =>
      if name0 = [] then .ok files else
      -- Long file-name handling
      let name1 :=
        match nextExt with
        | some n =>
          match extTruthy n (js "path") with
          | some ln => ln
          | none =>
            match extTruthy n (js "linkpath") with
            | some ln => ln
            | none => name0
        | none => name0
      -- File mode (offset: 100 - length: 8), trimmed
      match _readString buf (offset + 100) (some 8) with
      | none => .error .range
      | some modeRaw =>
      let mode := jsTrim modeRaw
      -- File uid (offset: 108 - length: 8), Number.parseInt (decimal!)
      match _readString buf (offset + 108) (some 8) with
      | none => .error .range
      | some uidStr =>
      let uid := jsParseInt uidStr
      -- File gid (offset: 116 - length: 8)
      match _readString buf (offset + 116) (some 8) with
      | none => .error .range
      | some gidStr =>
      let gid := jsParseInt gidStr
      -- File size (offset: 124 - length: 12)
      match _readNumber buf (offset + 124) 12 with
      | none => .error .range
      | some size =>
      -- seek = 512 + 512 * trunc(size / 512) + (size % 512 ? 512 : 0)
      let seek : Option Int := size.map (fun s =>
        512 + 512 * Int.tdiv s 512 + (if Int.tmod s 512 ≠ 0 then 512 else 0))
      -- File mtime (offset: 136 - length: 12)
      match _readNumber buf (offset + 136) 12 with
      | none => .error .range
      | some mtime =>
      -- File type (offset: 156 - length: 1)
      match _readString buf (offset + 156) (some 1) with
      | none => .error .range
      | some typeRaw =>
      let _type := if typeRaw = [] then js "0" else typeRaw
      let type := (tarItemTypeMap _type).getD _type
      if type = js "extendedHeader" ∨ type = js "globalExtendedHeader" then
        match jsSubarray buf (some (offset + 512)) size with
        | none => .error .range
        | some payload =>
          let headers := _parseExtendedHeaders payload
          let nextExt' : Option JsRec :=
            if type = js "extendedHeader" then some headers else none
          let globalExt' : Option JsRec :=
            if type = js "extendedHeader" then globalExt
            else some ((globalExt.getD []) ++ headers)
          match seek with
          | none => .ok files
          | some sk =>
            parseTarLoop buf opts fuel (offset + sk) nextExt' globalExt' files
      else if type = js "gnuLongFileName" ∨ type = js "gnuOldLongFileName" ∨
          type = js "gnuLongLinkName" then
        match _readString buf (offset + 512) size with
        | none => .error .range
        | some s =>
          match seek with
          | none => .ok files
          | some sk =>
            parseTarLoop buf opts fuel (offset + sk)
              (some [(js "path", some s)]) globalExt files
      else
      -- Ustar indicator (offset: 257 - length: 6)
      match _readString buf (offset + 257) (some 6) with
      | none => .error .range
      | some ustarM =>
      match (if ustarM = js "ustar" then
              -- user (265, 32), group (297, 32), then the name prefix (345, 155)
              match _readString buf (offset + 265) (some 32),
                    _readString buf (offset + 297) (some 32),
                    _readString buf (offset + 345) (some 155) with
              | some user, some group, some pfx =>
                some (some user, some group,
                  if pfx = [] then name1
                  else
                    if pfx.getLast? = some 47 ∧ name1.head? = some 47 then
                      pfx ++ name1.drop 1
                    else if pfx.getLast? = some 47 ∨ name1.head? = some 47 then
                      pfx ++ name1
                    else pfx ++ [47] ++ name1)
              | _, _, _ => none
            else some ((none : Option JSStr), (none : Option JSStr), name1)) with
      | none => .error .range
      | some ugn =>
      -- Sanitize name to prevent path traversal
      let name3 := _sanitizePath ugn.2.2
      let meta : TarMeta :=
        { name := name3, type := type, size := size,
          attrs :=
            { ext := (globalExt.getD []) ++ (nextExt.getD []),
              mode := mode, uid := uid, gid := gid, mtime := mtime,
              user := ugn.1, group := ugn.2.1 } }
      -- nextExtendedHeader is reset before the filter runs
      if (match opts.filter with | some f => !(f meta) | none => false) then
        match seek with
        | none => .ok files
        | some sk => parseTarLoop buf opts fuel (offset + sk) none globalExt files
      else if opts.metaOnly then
        match seek with
        | none => .ok (files ++ [⟨meta, none⟩])
        | some sk =>
          parseTarLoop buf opts fuel (offset + sk) none globalExt
            (files ++ [⟨meta, none⟩])
      else
        match (if size = some 0 then some (none : Option Bytes)
               else (jsSubarray buf (some (offset + 512)) size).map some) with
        | none => .error .range
        | some data =>
          match seek with
          | none => .ok (files ++ [⟨meta, data⟩])
          | some sk =>
            parseTarLoop buf opts fuel (offset + sk) none globalExt
              (files ++ [⟨meta, data⟩])
    else .ok files

/-- parseTar (src/src/parse.ts). The fuel bound buf.length + 1 dominates
the iteration count of every terminating run of the JS loop. -/
def parseTar (data : Bytes) (opts : ParseTarOptions := {}) :
    Except JsErr (List ParsedTarItem) :=
  parseTarLoop data opts (data.length + 1) 0 none none []

/-! ## Encoder (src/src/item-types.ts, createTar) -/

structure TarFileAttrs where
  mode : Option JSStr := none
  uid : Option Int := none
  gid : Option Int := none
  mtime : Option Int := none
  user : Option JSStr := none
  group : Option JSStr := none
deriving DecidableEq

/-- Input data: a string, or raw bytes (Uint8Array / ArrayBuffer). -/
inductive TarData where
  | str (s : JSStr)
  | bytes (b : Bytes)
deriving DecidableEq

structure TarFileInput where
  name : JSStr
  data : Option TarData := none
  attrs : Option TarFileAttrs := none
deriving DecidableEq

structure CreateTarOptions where
  attrs : Option TarFileAttrs := none
deriving DecidableEq

/-- _normalizeData: strings UTF-8-encoded, buffers taken as-is,
null / undefined kept as undefined. -/
def _normalizeData : Option TarData → Option Bytes
  | none => none
  | some (.str s) => some (utf8Encode s)
  | some (.bytes b) => some b

/-- An entry of the normalized _files array. -/
structure NormFile where
  name : JSStr
  data : Option Bytes
  attrs : Option TarFileAttrs
deriving DecidableEq

def normFile (f : TarFileInput) : NormFile :=
  { name := f.name, data := _normalizeData f.data, attrs := f.attrs }

/-- size: data?.length || 0. -/
def NormFile.size (f : NormFile) : Nat := (f.data.map List.length).getD 0

/-- isDir = !file.data (the normalized data; an empty Uint8Array is truthy). -/
def NormFile.isDir (f : NormFile) : Bool := f.data = none

/-- file.attrs?.x ?? opts.attrs?.x ?? default. -/
def resolveAttr {α} (f : NormFile) (opts : CreateTarOptions)
    (get : TarFileAttrs → Option α) (dflt : α) : α :=
  (((f.attrs.bind get).orElse (fun _ => opts.attrs.bind get))).getD dflt

def resMode (f : NormFile) (opts : CreateTarOptions) : JSStr :=
  resolveAttr f opts (fun a => a.mode) (if f.isDir then js "775" else js "664")

def resUid (f : NormFile) (opts : CreateTarOptions) : Int :=
  resolveAttr f opts (fun a => a.uid) 1000

def resGid (f : NormFile) (opts : CreateTarOptions) : Int :=
  resolveAttr f opts (fun a => a.gid) 1000

/-- The mtime default is Date.now(); the wall clock is passed in as now. -/
def resMtime (now : Int) (f : NormFile) (opts : CreateTarOptions) : Int :=
  resolveAttr f opts (fun a => a.mtime) now

def resUser (f : NormFile) (opts : CreateTarOptions) : JSStr :=
  resolveAttr f opts (fun a => a.user) []

def resGroup (f : NormFile) (opts : CreateTarOptions) : JSStr :=
  resolveAttr f opts (fun a => a.group) []

/-- One header field as written by _writeString into a zero region:
encodeInto the string, remaining bytes NUL. -/
def headerField (s : JSStr) (size : Nat) : Bytes :=
  let e := encodeIntoBytes s size
  e ++ List.replicate (size - e.length) 0

/-- The 512-byte header with a given 8-byte checksum region. The source
writes each field at its fixed offset into a zeroed buffer; unwritten
gaps remain zero, so the header is the concatenation
name(0,100) mode(100,8) uid(108,8) gid(116,8) size(124,12) mtime(136,12)
checksum(148,8) type(156,1) zeros(157,100) magic(257,6) version(263,2)
user(265,32) group(297,32) zeros(329,183). -/
def tarHeaderPre (now : Int) (opts : CreateTarOptions) (f : NormFile)
    (ck : Bytes) : Bytes :=
  headerField f.name 100 ++
  headerField (_leftPad (resMode f opts) 7) 8 ++
  headerField (_leftPad (intToStringRadix 8 (resUid f opts)) 7) 8 ++
  headerField (_leftPad (intToStringRadix 8 (resGid f opts)) 7) 8 ++
  headerField (_leftPad (natDigits 8 f.size) 11) 12 ++
  headerField
    (_leftPad (intToStringRadix 8 (Int.tdiv (resMtime now f opts) 1000)) 11)
    12 ++
  ck ++
  headerField (if f.isDir then js "5" else js "0") 1 ++
  List.replicate 100 0 ++
  headerField (js "ustar") 6 ++
  headerField (js "00") 2 ++
  headerField (resUser f opts) 32 ++
  headerField (resGroup f opts) 32 ++
  List.replicate 183 0

/-- The final header: checksum field blanked to eight spaces, all 512
bytes summed, the octal digit string of the sum written (NUL-padded). -/
def tarHeader (now : Int) (opts : CreateTarOptions) (f : NormFile) : Bytes :=
  let ck := (tarHeaderPre now opts f (List.replicate 8 32)).sum
  tarHeaderPre now opts f (headerField (natDigits 8 ck) 8)

/-- 512 * trunc(size / 512) + (size % 512 ? 512 : 0): the padded payload
span of an entry. -/
def align512 (n : Nat) : Nat := 512 * (n / 512) + (if n % 512 ≠ 0 then 512 else 0)

/-- Header plus padded payload: the region of the output buffer one entry
occupies. -/
def entryBlock (now : Int) (opts : CreateTarOptions) (f : NormFile) : Bytes :=
  tarHeader now opts f ++
  (match f.data with
   | none => []
   | some d => d ++ List.replicate (align512 d.length - d.length) 0)

/-- Sum of 512 + aligned payload size over all entries (tarDataSize). -/
def tarDataSize (files : List NormFile) : Nat :=
  (files.map (fun f => 512 + align512 f.size)).sum

/-- tarDataSize rounded up to the next 10240-byte multiple (bufSize). -/
def tarBufSize (tds : Nat) : Nat :=
  10240 * (tds / 10240) + (if tds % 10240 ≠ 0 then 10240 else 0)

/-- createTar: the source allocates a zeroed bufSize-byte buffer and writes
each entry at its running offset; disjoint regions make the result the
concatenation of the entry blocks followed by the remaining zero padding.
now stands for the Date.now() read inside the function. -/
def createTar (now : Int) (files : List TarFileInput)
    (opts : CreateTarOptions := {}) : Bytes :=
  let nfiles := files.map normFile
  let tds := tarDataSize nfiles
  (nfiles.map (entryBlock now opts)).flatten ++
    List.replicate (tarBufSize tds - tds) 0

/-! ## Constructors for test input buffers

These build arbitrary 512-byte headers laid out per the USTAR offset
table; they construct inputs handed to the parser (they are data, not
part of the embedded program). -/

/-- A 512-byte header with the given field strings (each NUL-padded into
its fixed-offset slot) and zeros elsewhere. -/
def mkTestHeader (name mode uid gid size mtime type magic user group
    pfx : JSStr) : Bytes :=
  headerField name 100 ++ headerField mode 8 ++ headerField uid 8 ++
  headerField gid 8 ++ headerField size 12 ++ headerField mtime 12 ++
  List.replicate 8 0 ++ headerField type 1 ++ List.replicate 100 0 ++
  headerField magic 6 ++ List.replicate 2 0 ++ headerField user 32 ++
  headerField group 32 ++ List.replicate 16 0 ++ headerField pfx 155 ++
  List.replicate 12 0

/-- A header followed by its 512-aligned payload. -/
def mkTestBlock (hdr payload : Bytes) : Bytes :=
  hdr ++ payload ++ List.replicate (align512 payload.length - payload.length) 0

/-! ## List slicing utilities -/

/-- The n bytes at offset off. -/
def sliceAt (buf : Bytes) (off n : Nat) : Bytes := (buf.drop off).take n

theorem sliceAt_here (a b : Bytes) (n : Nat) (ha : a.length = n) :
    sliceAt (a ++ b) 0 n = a := by
  simp [sliceAt, ← ha, List.take_left]

theorem sliceAt_skip (a b : Bytes) (off n : Nat) (ha : a.length ≤ off) :
    sliceAt (a ++ b) off n = sliceAt b (off - a.length) n := by
  unfold sliceAt
  rw [show off = a.length + (off - a.length) by omega, List.drop_append]
  congr 2
  omega

theorem sliceAt_within (a b : Bytes) (off n : Nat) (h : off + n ≤ a.length) :
    sliceAt (a ++ b) off n = sliceAt a off n := by
  unfold sliceAt
  rw [List.drop_append_of_le_length (by omega), List.take_append_of_le_length]
  simp only [List.length_drop]
  omega

theorem sliceAt_full (a : Bytes) (n : Nat) (h : a.length = n) :
    sliceAt a 0 n = a := by
  simp [sliceAt, ← h]

theorem takeWhile_append_all {p : Nat → Bool} (a b : Bytes)
    (ha : ∀ x ∈ a, p x = true) :
    (a ++ b).takeWhile p = a ++ b.takeWhile p := by
  induction a with
  | nil => simp
  | cons x xs ih =>
    simp only [List.cons_append, List.takeWhile_cons, ha x (by simp), if_true]
    rw [ih (fun y hy => ha y (by simp [hy]))]

theorem takeWhile_zero_stop {p : Nat → Bool} (b : Bytes) (k : Nat)
    (hp : p 0 = false) :
    (List.replicate (k + 1) 0 ++ b).takeWhile p = [] := by
  simp [List.replicate_succ, List.takeWhile_cons, hp]

theorem takeWhile_ne_zero_replicate (k : Nat) :
    (List.replicate k 0).takeWhile (fun b => b != 0) = [] := by
  cases k with
  | zero => simp
  | succ n => simp [List.replicate_succ]

/-! ## Arithmetic facts about digit strings -/

theorem natDigits_nonempty (r n : Nat) : natDigits r n ≠ [] := by
  rw [natDigits_eq]
  split
  · simp
  · simp

theorem natDigits_octal_bounds (n : Nat) :
    ∀ d ∈ natDigits 8 n, 48 ≤ d ∧ d ≤ 55 := by
  induction n using Nat.strong_induction_on with
  | _ n ih =>
    rw [natDigits_eq]
    split
    · rename_i h
      intro d hd
      simp only [List.mem_singleton] at hd
      subst hd
      rcases h with h | h
      · rw [if_pos (by omega)]
        omega
      · omega
    · rename_i h
      simp only [not_or, not_lt] at h
      intro d hd
      rcases List.mem_append.mp hd with h1 | h1
      · exact ih (n / 8) (Nat.div_lt_self (by omega) (by omega)) d h1
      · simp only [List.mem_singleton] at h1
        subst h1
        rw [if_pos (by omega)]
        omega

theorem natDigits_length_le (n k : Nat) (hk : 0 < k) (h : n < 8 ^ k) :
    (natDigits 8 n).length ≤ k := by
  induction k generalizing n with
  | zero => omega
  | succ k ih =>
    rw [natDigits_eq]
    split
    · simp
    · rename_i hn
      simp only [not_or, not_lt] at hn
      have hk0 : 0 < k := by
        by_contra hc
        have : k = 0 := by omega
        subst this
        simp at h
        omega
      have := ih (n / 8) hk0 (by
        have : n < 8 * 8 ^ k := by
          calc n < 8 ^ (k + 1) := h
          _ = 8 * 8 ^ k := by ring
        omega)
      simp only [List.length_append, List.length_singleton]
      omega

theorem digitVal_digitChar (m : Nat) (h : m ≤ 9) :
    digitVal (48 + m) = m := by
  simp only [digitVal]
  rw [if_pos (by omega)]
  omega

/-- foldl characterization: value of ds continued from accumulator a. -/
theorem digitsVal_foldl (r a : Nat) (ds : List Nat) :
    ds.foldl (fun x d => x * r + digitVal d) a =
      a * r ^ ds.length + digitsVal r ds := by
  induction ds generalizing a with
  | nil => simp [digitsVal]
  | cons d ds ih =>
    simp only [List.foldl_cons, digitsVal]
    rw [ih (a * r + digitVal d), ih (0 * r + digitVal d)]
    simp only [List.length_cons, pow_succ]
    ring

theorem digitsVal_append (r : Nat) (a b : List Nat) :
    digitsVal r (a ++ b) = digitsVal r a * r ^ b.length + digitsVal r b := by
  unfold digitsVal
  rw [List.foldl_append, digitsVal_foldl]
  rfl

theorem digitsVal_natDigits (n : Nat) : digitsVal 8 (natDigits 8 n) = n := by
  induction n using Nat.strong_induction_on with
  | _ n ih =>
    rw [natDigits_eq]
    split
    · rename_i h
      have hn : n ≤ 9 := by omega
      rw [if_pos (by omega)]
      simp [digitsVal, digitVal_digitChar n hn]
    · rename_i h
      simp only [not_or, not_lt] at h
      rw [digitsVal_append, ih (n / 8) (Nat.div_lt_self (by omega) (by omega))]
      have hm : n % 8 ≤ 9 := by omega
      rw [if_pos (by omega)]
      simp only [List.length_singleton, pow_one]
      simp [digitsVal, digitVal_digitChar (n % 8) hm]
      omega

/-- What Number.parseInt with radix 10 makes of an octal digit string:
the digits reinterpreted in base 10. -/
def octalReparse (n : Nat) : Nat := digitsVal 10 (natDigits 8 n)

/-! ## Reading back encoded header fields -/

theorem headerField_length (s : JSStr) (n : Nat) :
    (headerField s n).length = n := by
  have := encodeIntoBytes_length_le s n
  simp only [headerField, List.length_append, List.length_replicate]
  omega

theorem headerField_of_fits (s : JSStr) (n : Nat) (h : utf8Len s ≤ n) :
    headerField s n = utf8Encode s ++ List.replicate (n - utf8Len s) 0 := by
  simp only [headerField, encodeIntoBytes_of_fits s n h]
  rfl

/-- A string that survives a NUL-padded field of width n: scalar
code points, no NUL, and a UTF-8 length of at most n. -/
def GoodStr (s : JSStr) (n : Nat) : Prop :=
  (∀ c ∈ s, Scalar c ∧ c ≠ 0) ∧ utf8Len s ≤ n

instance (s : JSStr) (n : Nat) : Decidable (GoodStr s n) := by
  unfold GoodStr; infer_instance

theorem utf8EncodeChar_ne_zero (c : Nat) (hc : c ≠ 0) :
    ∀ b ∈ utf8EncodeChar c, b ≠ 0 := by
  intro b hb
  unfold utf8EncodeChar at hb
  split at hb
  · simp at hb; omega
  · split at hb
    · simp at hb; rcases hb with h | h <;> omega
    · split at hb
      · split at hb
        · simp at hb; rcases hb with h | h | h <;> omega
        · simp at hb; rcases hb with h | h | h <;> omega
      · simp at hb; rcases hb with h | h | h | h <;> omega

theorem utf8Encode_ne_zero (s : JSStr) (h : ∀ c ∈ s, c ≠ 0) :
    ∀ b ∈ utf8Encode s, b ≠ 0 := by
  intro b hb
  simp only [utf8Encode, List.mem_flatten] at hb
  obtain ⟨l, hl, hbl⟩ := hb
  simp only [List.mem_map] at hl
  obtain ⟨c, hc, rfl⟩ := hl
  exact utf8EncodeChar_ne_zero c (h c hc) b hbl

/-- Reading a NUL-padded field back: cut at the first NUL and decode. -/
theorem read_headerField (s : JSStr) (n : Nat) (h : GoodStr s n) :
    utf8Decode ((headerField s n).takeWhile (fun b => b != 0)) = s := by
  obtain ⟨hs, hlen⟩ := h
  rw [headerField_of_fits s n hlen]
  rw [takeWhile_append_all _ _ (fun x hx => by
    simp only [bne_iff_ne, ne_eq]
    exact utf8Encode_ne_zero s (fun c hc => (hs c hc).2) x hx)]
  rw [takeWhile_ne_zero_replicate, List.append_nil]
  exact utf8Decode_encode s (fun c hc => (hs c hc).1)

theorem isJsWs_digit (c : Nat) (h1 : 43 ≤ c) (h2 : c ≤ 122) :
    isJsWs c = false := by
  simp only [isJsWs, Bool.or_eq_false_iff, Bool.and_eq_false_iff,
    decide_eq_false_iff_not, not_le]
  omega

theorem isJsWs_printable (c : Nat) (h1 : 32 < c) (h2 : c < 127) :
    isJsWs c = false := by
  simp only [isJsWs, Bool.or_eq_false_iff, Bool.and_eq_false_iff,
    decide_eq_false_iff_not, not_le]
  omega

theorem dropWhile_not_ws (s : JSStr) (h : ∀ c ∈ s, isJsWs c = false) :
    s.dropWhile (fun c => isJsWs c) = s := by
  cases s with
  | nil => rfl
  | cons c cs => simp [List.dropWhile_cons, h c (by simp)]

theorem jsTrim_no_ws (s : JSStr) (h : ∀ c ∈ s, isJsWs c = false) :
    jsTrim s = s := by
  unfold jsTrim
  rw [dropWhile_not_ws s h, dropWhile_not_ws _ (fun c hc => h c (by
    simpa using hc))]
  simp

theorem digitVal_lt_of_octal (d : Nat) (h : 48 ≤ d ∧ d ≤ 55) :
    digitVal d < 8 := by
  simp only [digitVal]
  rw [if_pos (by omega)]
  omega

/-- parseInt(s, 8) on a pure octal-digit string. -/
theorem jsParseIntRadix8_digits (s : JSStr) (hne : s ≠ [])
    (hall : ∀ d ∈ s, 48 ≤ d ∧ d ≤ 55) :
    jsParseIntRadix 8 s = some ((digitsVal 8 s : Nat) : Int) := by
  obtain ⟨d, rest, rfl⟩ := List.exists_cons_of_ne_nil hne
  have hd := hall d (by simp)
  unfold jsParseIntRadix
  rw [dropWhile_not_ws _ (fun c hc => isJsWs_digit c (by
    have := hall c hc; omega) (by have := hall c hc; omega))]
  simp only [List.head?_cons]
  have h45 : ¬ (some d = some 45) := by simp only [Option.some.injEq]; omega
  have h43 : ¬ (some d = some 43) := by simp only [Option.some.injEq]; omega
  rw [if_neg h45, if_neg h43]
  unfold parseIntDigits
  rw [List.takeWhile_eq_self_iff.mpr (fun x hx => by
    simp only [isRadixDigit, decide_eq_true_eq]
    exact digitVal_lt_of_octal x (hall x hx))]
  rw [if_neg (by simp)]
  rfl

/-- parseInt(s) (radix 10 with hex detection) on an octal-digit string:
the digits reinterpreted in base 10. -/
theorem jsParseInt_digits (s : JSStr) (hne : s ≠ [])
    (hall : ∀ d ∈ s, 48 ≤ d ∧ d ≤ 55) :
    jsParseInt s = some ((digitsVal 10 s : Nat) : Int) := by
  obtain ⟨d, rest, rfl⟩ := List.exists_cons_of_ne_nil hne
  have hd := hall d (by simp)
  unfold jsParseInt
  rw [dropWhile_not_ws _ (fun c hc => isJsWs_digit c (by
    have := hall c hc; omega) (by have := hall c hc; omega))]
  simp only [List.head?_cons, List.tail_cons]
  have h45 : ¬ (some d = some 45) := by simp only [Option.some.injEq]; omega
  have h4543 : ¬ (some d = some 45 ∨ some d = some 43) := by
    simp only [Option.some.injEq, not_or]
    omega
  have hhex : ¬ ((d :: rest).head? = some 48 ∧
      ((d :: rest).tail.head? = some 120 ∨ (d :: rest).tail.head? = some 88)) := by
    simp only [List.head?_cons, List.tail_cons, not_and]
    intro _
    cases rest with
    | nil => simp
    | cons e es =>
      have he := hall e (by simp)
      simp only [List.head?_cons, not_or, Option.some.injEq]
      omega
  simp only [eq_false h4543, if_false, List.head?_cons, List.tail_cons] at hhex ⊢
  simp only [eq_false hhex, if_false]
  unfold parseIntDigits
  rw [List.takeWhile_eq_self_iff.mpr (fun x hx => by
    simp only [isRadixDigit, decide_eq_true_eq, digitVal]
    rw [if_pos (by have := hall x hx; omega)]
    have := hall x hx
    omega)]
  rw [if_neg (by simp)]
  simp only [Option.map_some, Option.some.injEq, eq_false h45, if_false]
  rfl

theorem digitsVal_replicate_zero (r k : Nat) :
    digitsVal r (List.replicate k 48) = 0 := by
  induction k with
  | zero => simp [digitsVal]
  | succ m ihm =>
    rw [List.replicate_succ]
    show List.foldl (fun x d => x * r + digitVal d) (0 * r + digitVal 48)
      (List.replicate m 48) = 0
    have h48 : digitVal 48 = 0 := by simp [digitVal]
    rw [h48]
    simpa [digitsVal] using ihm

theorem digitsVal_replicate_zero_append (r k : Nat) (ds : List Nat) :
    digitsVal r (List.replicate k 48 ++ ds) = digitsVal r ds := by
  rw [digitsVal_append, digitsVal_replicate_zero]
  ring_nf

/-! ## Reads at positive in-bounds offsets -/

theorem jsSubarray_pos (buf : Bytes) (i len : Int) (h0 : 0 ≤ i)
    (hlen : 0 ≤ len) (hb : i.toNat + len.toNat ≤ buf.length) :
    jsSubarray buf (some i) (some len) =
      some (sliceAt buf i.toNat len.toNat) := by
  simp only [jsSubarray, toIndex]
  rw [if_neg (by omega), if_neg (by omega)]
  simp only [if_pos hb]
  rfl

theorem jsSubarray_overflow (buf : Bytes) (i len : Int) (h0 : 0 ≤ i)
    (hlen : 0 ≤ len) (hb : buf.length < i.toNat + len.toNat) :
    jsSubarray buf (some i) (some len) = none := by
  simp only [jsSubarray, toIndex]
  rw [if_neg (by omega), if_neg (by omega)]
  simp only [if_neg (by omega : ¬ (i.toNat + len.toNat ≤ buf.length))]

theorem _readString_pos (buf : Bytes) (i len : Int) (h0 : 0 ≤ i)
    (hlen : 0 ≤ len) (hb : i.toNat + len.toNat ≤ buf.length) :
    _readString buf i (some len) =
      some (utf8Decode ((sliceAt buf i.toNat len.toNat).takeWhile
        (fun b => b != 0))) := by
  simp only [_readString, jsSubarray_pos buf i len h0 hlen hb, Option.map_some]
  rfl

theorem _readNumber_pos (buf : Bytes) (i len : Int) (h0 : 0 ≤ i)
    (hlen : 0 ≤ len) (hb : i.toNat + len.toNat ≤ buf.length) :
    _readNumber buf i len =
      some (jsParseIntRadix 8 (sliceAt buf i.toNat len.toNat)) := by
  simp only [_readNumber, jsSubarray_pos buf i len h0 hlen hb, Option.map_some]
  rfl

/-! ## Helper forms of one loop iteration -/

/-- The three-way prefix join of the ustar branch. -/
def joinPfx (pfx name1 : JSStr) : JSStr :=
  if pfx = [] then name1
  else if pfx.getLast? = some 47 ∧ name1.head? = some 47 then
    pfx ++ name1.drop 1
  else if pfx.getLast? = some 47 ∨ name1.head? = some 47 then pfx ++ name1
  else pfx ++ [47] ++ name1

/-- The pending-long-name resolution at the top of an ordinary entry. -/
def resolveLongName (nextE : Option JsRec) (name0 : JSStr) : JSStr :=
  match nextE with
  | some n =>
    match extTruthy n (js "path") with
    | some ln => ln
    | none =>
      match extTruthy n (js "linkpath") with
      | some ln => ln
      | none => name0
  | none => name0

/-- The parsed item an ordinary-entry iteration pushes, given the decoded
header fields. -/
def mkOrdItem (nextE globalE : Option JsRec)
    (name0 mode0 uid0 gid0 : JSStr) (sz : Int) (mt : Option Int)
    (tyv magic0 user0 group0 pfx0 : JSStr) (dataSlice : Bytes) :
    ParsedTarItem :=
  let name1 := resolveLongName nextE name0
  let ugn : Option JSStr × Option JSStr × JSStr :=
    if magic0 = js "ustar" then (some user0, some group0, joinPfx pfx0 name1)
    else (none, none, name1)
  ⟨{ name := _sanitizePath ugn.2.2, type := tyv, size := some sz,
     attrs :=
      { ext := (globalE.getD []) ++ (nextE.getD []), mode := jsTrim mode0,
        uid := jsParseInt uid0, gid := jsParseInt gid0, mtime := mt,
        user := ugn.1, group := ugn.2.1 } },
   if sz = 0 then none else some dataSlice⟩

/-- The seek expression of the loop for a successfully parsed size. -/
def seekOf (sz : Int) : Int :=
  512 + 512 * Int.tdiv sz 512 + (if Int.tmod sz 512 ≠ 0 then 512 else 0)

theorem seekOf_nonneg_eq (sz : Int) (h : 0 ≤ sz) :
    seekOf sz = ((512 + align512 sz.toNat : Nat) : Int) := by
  obtain ⟨n, rfl⟩ := Int.eq_ofNat_of_zero_le h
  unfold seekOf align512
  have hdiv : ((n : Int)).tdiv 512 = ((n / 512 : Nat) : Int) := rfl
  have hmod : ((n : Int)).tmod 512 = ((n % 512 : Nat) : Int) := rfl
  rw [hdiv, hmod]
  simp only [Int.toNat_natCast]
  by_cases h0 : n % 512 = 0
  · rw [if_neg (show ¬ (((n % 512 : Nat) : Int) ≠ 0) by
      simp only [ne_eq, Nat.cast_eq_zero, not_not]; exact h0),
      if_neg (show ¬ (n % 512 ≠ 0) by simpa using h0)]
    push_cast
    ring
  · rw [if_pos (show ((n % 512 : Nat) : Int) ≠ 0 by
      simp only [ne_eq, Nat.cast_eq_zero]; exact h0), if_pos h0]
    push_cast
    ring


set_option maxHeartbeats 1000000

theorem parseLoop_ordStep
    (buf : Bytes) (fl : Nat) (off : Nat) (nextE globalE : Option JsRec)
    (acc : List ParsedTarItem)
    (name0 mode0 uid0 gid0 ty0 magic0 user0 group0 pfx0 : JSStr)
    (sz : Int) (mt : Option Int) (tyv : JSStr)
    (hb : off + 512 < buf.length)
    (hname : utf8Decode ((sliceAt buf off 100).takeWhile (fun b => b != 0)) = name0)
    (hname0 : name0 ≠ [])
    (hmode : utf8Decode ((sliceAt buf (off + 100) 8).takeWhile (fun b => b != 0)) = mode0)
    (huid : utf8Decode ((sliceAt buf (off + 108) 8).takeWhile (fun b => b != 0)) = uid0)
    (hgid : utf8Decode ((sliceAt buf (off + 116) 8).takeWhile (fun b => b != 0)) = gid0)
    (hsize : jsParseIntRadix 8 (sliceAt buf (off + 124) 12) = some sz)
    (hsz : 0 ≤ sz)
    (hmtime : jsParseIntRadix 8 (sliceAt buf (off + 136) 12) = mt)
    (hty : utf8Decode ((sliceAt buf (off + 156) 1).takeWhile (fun b => b != 0)) = ty0)
    (htyv : (tarItemTypeMap (if ty0 = [] then js "0" else ty0)).getD
      (if ty0 = [] then js "0" else ty0) = tyv)
    (hord : tyv ≠ js "extendedHeader" ∧ tyv ≠ js "globalExtendedHeader" ∧
      tyv ≠ js "gnuLongFileName" ∧ tyv ≠ js "gnuOldLongFileName" ∧
      tyv ≠ js "gnuLongLinkName")
    (hmagic : utf8Decode ((sliceAt buf (off + 257) 6).takeWhile (fun b => b != 0)) = magic0)
    (huser : utf8Decode ((sliceAt buf (off + 265) 32).takeWhile (fun b => b != 0)) = user0)
    (hgroup : utf8Decode ((sliceAt buf (off + 297) 32).takeWhile (fun b => b != 0)) = group0)
    (hpfx : utf8Decode ((sliceAt buf (off + 345) 155).takeWhile (fun b => b != 0)) = pfx0)
    (hdata : off + 512 + sz.toNat ≤ buf.length) :
    parseTarLoop buf {} (fl + 1) (off : Int) nextE globalE acc =
      parseTarLoop buf {} fl ((off + 512 + align512 sz.toNat : Nat) : Int)
        none globalE
        (acc ++ [mkOrdItem nextE globalE name0 mode0 uid0 gid0 sz mt tyv
          magic0 user0 group0 pfx0 (sliceAt buf (off + 512) sz.toNat)]) := by
  rw [parseTarLoop]
  rw [if_pos (show (off : Int) < (buf.length : Int) - 512 by omega)]
  rw [_readString_pos buf (off : Int) 100 (by omega) (by norm_num) (by omega)]
  rw [show ((off : Int)).toNat = off by omega, show ((100:Int)).toNat = 100 by rfl]
  rw [hname]
  simp only [if_neg hname0]
  rw [_readString_pos buf ((off : Int) + 100) 8 (by omega) (by norm_num) (by omega),
    show ((off : Int) + 100).toNat = off + 100 by omega,
    show ((8:Int)).toNat = 8 by rfl, hmode]
  rw [_readString_pos buf ((off : Int) + 108) 8 (by omega) (by norm_num) (by omega),
    show ((off : Int) + 108).toNat = off + 108 by omega,
    show ((8:Int)).toNat = 8 by rfl, huid]
  rw [_readString_pos buf ((off : Int) + 116) 8 (by omega) (by norm_num) (by omega),
    show ((off : Int) + 116).toNat = off + 116 by omega,
    show ((8:Int)).toNat = 8 by rfl, hgid]
  rw [_readNumber_pos buf ((off : Int) + 124) 12 (by omega) (by norm_num) (by omega),
    show ((off : Int) + 124).toNat = off + 124 by omega,
    show ((12:Int)).toNat = 12 by rfl, hsize]
  rw [_readNumber_pos buf ((off : Int) + 136) 12 (by omega) (by norm_num) (by omega),
    show ((off : Int) + 136).toNat = off + 136 by omega,
    show ((12:Int)).toNat = 12 by rfl, hmtime]
  rw [_readString_pos buf ((off : Int) + 156) 1 (by omega) (by norm_num) (by omega),
    show ((off : Int) + 156).toNat = off + 156 by omega,
    show ((1:Int)).toNat = 1 by rfl, hty]
  rw [_readString_pos buf ((off : Int) + 257) 6 (by omega) (by norm_num) (by omega),
    show ((off : Int) + 257).toNat = off + 257 by omega,
    show ((6:Int)).toNat = 6 by rfl, hmagic]
  rw [_readString_pos buf ((off : Int) + 265) 32 (by omega) (by norm_num) (by omega),
    show ((off : Int) + 265).toNat = off + 265 by omega,
    show ((32:Int)).toNat = 32 by rfl, huser]
  rw [_readString_pos buf ((off : Int) + 297) 32 (by omega) (by norm_num) (by omega),
    show ((off : Int) + 297).toNat = off + 297 by omega,
    show ((32:Int)).toNat = 32 by rfl, hgroup]
  rw [_readString_pos buf ((off : Int) + 345) 155 (by omega) (by norm_num) (by omega),
    show ((off : Int) + 345).toNat = off + 345 by omega,
    show ((155:Int)).toNat = 155 by rfl, hpfx]
  simp only [htyv]
  obtain ⟨ho1, ho2, ho3, ho4, ho5⟩ := hord
  rw [if_neg (not_or.mpr ⟨ho1, ho2⟩)]
  rw [if_neg (show ¬ _ by simp only [not_or]; exact ⟨ho3, ho4, ho5⟩)]
  have hseek := seekOf_nonneg_eq sz hsz
  rw [seekOf] at hseek
  have hoffseek : ((off : Int) + ((512 + align512 sz.toNat : Nat) : Int)) =
      ((off + 512 + align512 sz.toNat : Nat) : Int) := by push_cast; ring
  have hdataeq : (if some sz = some 0 then some (none : Option Bytes)
      else Option.map some (jsSubarray buf (some ((off : Int) + 512)) (some sz)))
      = some (if sz = 0 then none else some (sliceAt buf (off + 512) sz.toNat)) := by
    by_cases hz : sz = 0
    · rw [if_pos (by rw [hz]), if_pos hz]
    · rw [if_neg (by simp only [Option.some.injEq]; exact hz), if_neg hz,
        jsSubarray_pos buf ((off : Int) + 512) sz (by omega) hsz (by omega),
        show ((off : Int) + 512).toNat = off + 512 by omega]
      rfl
  by_cases hm : magic0 = js "ustar"
  · rw [if_pos hm, hdataeq]
    simp only [Bool.false_eq_true, if_false, Option.map_some, Option.map_some']
    rw [hseek, hoffseek]
    simp only [mkOrdItem, resolveLongName, joinPfx, hm, reduceIte]
  · rw [if_neg hm, hdataeq]
    simp only [Bool.false_eq_true, if_false, Option.map_some, Option.map_some']
    rw [hseek, hoffseek]
    simp only [mkOrdItem, resolveLongName, joinPfx, eq_false hm, if_false]


theorem parseLoop_stop (buf : Bytes) (popts : ParseTarOptions) (fl : Nat)
    (offI : Int) (nextE globalE : Option JsRec) (acc : List ParsedTarItem)
    (h : ¬ (offI < (buf.length : Int) - 512)) :
    parseTarLoop buf popts (fl + 1) offI nextE globalE acc = .ok acc := by
  rw [parseTarLoop, if_neg h]

theorem parseLoop_stopName (buf : Bytes) (popts : ParseTarOptions) (fl : Nat)
    (off : Nat) (nextE globalE : Option JsRec) (acc : List ParsedTarItem)
    (hb : off + 512 < buf.length)
    (hname : utf8Decode ((sliceAt buf off 100).takeWhile (fun b => b != 0)) = []) :
    parseTarLoop buf popts (fl + 1) (off : Int) nextE globalE acc = .ok acc := by
  rw [parseTarLoop]
  rw [if_pos (show (off : Int) < (buf.length : Int) - 512 by omega)]
  rw [_readString_pos buf (off : Int) 100 (by omega) (by norm_num) (by omega)]
  rw [show ((off : Int)).toNat = off by omega, show ((100:Int)).toNat = 100 by rfl]
  rw [hname]
  simp only [if_true]

theorem parseLoop_extStep (buf : Bytes) (popts : ParseTarOptions) (fl : Nat)
    (off : Nat) (nextE globalE : Option JsRec) (acc : List ParsedTarItem)
    (ty0 tyv : JSStr) (sz : Int)
    (hb : off + 512 < buf.length)
    (hname0 : utf8Decode ((sliceAt buf off 100).takeWhile (fun b => b != 0)) ≠ [])
    (hsize : jsParseIntRadix 8 (sliceAt buf (off + 124) 12) = some sz)
    (hsz : 0 ≤ sz)
    (hty : utf8Decode ((sliceAt buf (off + 156) 1).takeWhile (fun b => b != 0)) = ty0)
    (htyv : (tarItemTypeMap (if ty0 = [] then js "0" else ty0)).getD
      (if ty0 = [] then js "0" else ty0) = tyv)
    (hxg : tyv = js "extendedHeader" ∨ tyv = js "globalExtendedHeader")
    (hpay : off + 512 + sz.toNat ≤ buf.length) :
    parseTarLoop buf popts (fl + 1) (off : Int) nextE globalE acc =
      parseTarLoop buf popts fl ((off + 512 + align512 sz.toNat : Nat) : Int)
        (if tyv = js "extendedHeader" then
          some (_parseExtendedHeaders (sliceAt buf (off + 512) sz.toNat))
         else none)
        (if tyv = js "extendedHeader" then globalE
         else some ((globalE.getD []) ++
           _parseExtendedHeaders (sliceAt buf (off + 512) sz.toNat)))
        acc := by
  rw [parseTarLoop]
  rw [if_pos (show (off : Int) < (buf.length : Int) - 512 by omega)]
  rw [_readString_pos buf (off : Int) 100 (by omega) (by norm_num) (by omega)]
  rw [show ((off : Int)).toNat = off by omega, show ((100:Int)).toNat = 100 by rfl]
  simp only [if_neg hname0]
  rw [_readString_pos buf ((off : Int) + 100) 8 (by omega) (by norm_num) (by omega),
    show ((off : Int) + 100).toNat = off + 100 by omega,
    show ((8:Int)).toNat = 8 by rfl]
  rw [_readString_pos buf ((off : Int) + 108) 8 (by omega) (by norm_num) (by omega),
    show ((off : Int) + 108).toNat = off + 108 by omega,
    show ((8:Int)).toNat = 8 by rfl]
  rw [_readString_pos buf ((off : Int) + 116) 8 (by omega) (by norm_num) (by omega),
    show ((off : Int) + 116).toNat = off + 116 by omega,
    show ((8:Int)).toNat = 8 by rfl]
  rw [_readNumber_pos buf ((off : Int) + 124) 12 (by omega) (by norm_num) (by omega),
    show ((off : Int) + 124).toNat = off + 124 by omega,
    show ((12:Int)).toNat = 12 by rfl, hsize]
  rw [_readNumber_pos buf ((off : Int) + 136) 12 (by omega) (by norm_num) (by omega),
    show ((off : Int) + 136).toNat = off + 136 by omega,
    show ((12:Int)).toNat = 12 by rfl]
  rw [_readString_pos buf ((off : Int) + 156) 1 (by omega) (by norm_num) (by omega),
    show ((off : Int) + 156).toNat = off + 156 by omega,
    show ((1:Int)).toNat = 1 by rfl, hty]
  simp only [htyv]
  rw [if_pos hxg]
  rw [jsSubarray_pos buf ((off : Int) + 512) sz (by omega) hsz (by omega),
    show ((off : Int) + 512).toNat = off + 512 by omega]
  have hseek := seekOf_nonneg_eq sz hsz
  rw [seekOf] at hseek
  have hoffseek : ((off : Int) + ((512 + align512 sz.toNat : Nat) : Int)) =
      ((off + 512 + align512 sz.toNat : Nat) : Int) := by push_cast; ring
  simp only [Option.map_some, Option.map_some']
  rw [hseek, hoffseek]

theorem parseLoop_gnuStep (buf : Bytes) (popts : ParseTarOptions) (fl : Nat)
    (off : Nat) (nextE globalE : Option JsRec) (acc : List ParsedTarItem)
    (ty0 tyv : JSStr) (sz : Int)
    (hb : off + 512 < buf.length)
    (hname0 : utf8Decode ((sliceAt buf off 100).takeWhile (fun b => b != 0)) ≠ [])
    (hsize : jsParseIntRadix 8 (sliceAt buf (off + 124) 12) = some sz)
    (hsz : 0 ≤ sz)
    (hty : utf8Decode ((sliceAt buf (off + 156) 1).takeWhile (fun b => b != 0)) = ty0)
    (htyv : (tarItemTypeMap (if ty0 = [] then js "0" else ty0)).getD
      (if ty0 = [] then js "0" else ty0) = tyv)
    (hLNK : tyv = js "gnuLongFileName" ∨ tyv = js "gnuOldLongFileName" ∨
      tyv = js "gnuLongLinkName")
    (hpay : off + 512 + sz.toNat ≤ buf.length) :
    parseTarLoop buf popts (fl + 1) (off : Int) nextE globalE acc =
      parseTarLoop buf popts fl ((off + 512 + align512 sz.toNat : Nat) : Int)
        (some [(js "path",
          some (utf8Decode ((sliceAt buf (off + 512) sz.toNat).takeWhile
            (fun b => b != 0))))])
        globalE acc := by
  have hxg : ¬ (tyv = js "extendedHeader" ∨ tyv = js "globalExtendedHeader") := by
    rcases hLNK with h | h | h <;> (subst h; decide)
  rw [parseTarLoop]
  rw [if_pos (show (off : Int) < (buf.length : Int) - 512 by omega)]
  rw [_readString_pos buf (off : Int) 100 (by omega) (by norm_num) (by omega)]
  rw [show ((off : Int)).toNat = off by omega, show ((100:Int)).toNat = 100 by rfl]
  simp only [if_neg hname0]
  rw [_readString_pos buf ((off : Int) + 100) 8 (by omega) (by norm_num) (by omega),
    show ((off : Int) + 100).toNat = off + 100 by omega,
    show ((8:Int)).toNat = 8 by rfl]
  rw [_readString_pos buf ((off : Int) + 108) 8 (by omega) (by norm_num) (by omega),
    show ((off : Int) + 108).toNat = off + 108 by omega,
    show ((8:Int)).toNat = 8 by rfl]
  rw [_readString_pos buf ((off : Int) + 116) 8 (by omega) (by norm_num) (by omega),
    show ((off : Int) + 116).toNat = off + 116 by omega,
    show ((8:Int)).toNat = 8 by rfl]
  rw [_readNumber_pos buf ((off : Int) + 124) 12 (by omega) (by norm_num) (by omega),
    show ((off : Int) + 124).toNat = off + 124 by omega,
    show ((12:Int)).toNat = 12 by rfl, hsize]
  rw [_readNumber_pos buf ((off : Int) + 136) 12 (by omega) (by norm_num) (by omega),
    show ((off : Int) + 136).toNat = off + 136 by omega,
    show ((12:Int)).toNat = 12 by rfl]
  rw [_readString_pos buf ((off : Int) + 156) 1 (by omega) (by norm_num) (by omega),
    show ((off : Int) + 156).toNat = off + 156 by omega,
    show ((1:Int)).toNat = 1 by rfl, hty]
  simp only [htyv]
  rw [if_neg hxg, if_pos hLNK]
  rw [_readString_pos buf ((off : Int) + 512) sz (by omega) hsz (by omega),
    show ((off : Int) + 512).toNat = off + 512 by omega]
  have hseek := seekOf_nonneg_eq sz hsz
  rw [seekOf] at hseek
  have hoffseek : ((off : Int) + ((512 + align512 sz.toNat : Nat) : Int)) =
      ((off + 512 + align512 sz.toNat : Nat) : Int) := by push_cast; ring
  simp only [Option.map_some, Option.map_some']
  rw [hseek, hoffseek]

theorem parseLoop_ordOverflow
    (buf : Bytes) (fl : Nat) (off : Nat) (nextE globalE : Option JsRec)
    (acc : List ParsedTarItem)
    (name0 ty0 : JSStr) (sz : Int) (tyv : JSStr)
    (hb : off + 512 < buf.length)
    (hname : utf8Decode ((sliceAt buf off 100).takeWhile (fun b => b != 0)) = name0)
    (hname0 : name0 ≠ [])
    (hsize : jsParseIntRadix 8 (sliceAt buf (off + 124) 12) = some sz)
    (hsz : 0 ≤ sz)
    (hty : utf8Decode ((sliceAt buf (off + 156) 1).takeWhile (fun b => b != 0)) = ty0)
    (htyv : (tarItemTypeMap (if ty0 = [] then js "0" else ty0)).getD
      (if ty0 = [] then js "0" else ty0) = tyv)
    (hord : tyv ≠ js "extendedHeader" ∧ tyv ≠ js "globalExtendedHeader" ∧
      tyv ≠ js "gnuLongFileName" ∧ tyv ≠ js "gnuOldLongFileName" ∧
      tyv ≠ js "gnuLongLinkName")
    (hover : buf.length < off + 512 + sz.toNat) :
    parseTarLoop buf {} (fl + 1) (off : Int) nextE globalE acc =
      .error .range := by
  obtain ⟨ho1, ho2, ho3, ho4, ho5⟩ := hord
  rw [parseTarLoop]
  rw [if_pos (show (off : Int) < (buf.length : Int) - 512 by omega)]
  rw [_readString_pos buf (off : Int) 100 (by omega) (by norm_num) (by omega)]
  rw [show ((off : Int)).toNat = off by omega, show ((100:Int)).toNat = 100 by rfl]
  rw [hname]
  simp only [if_neg hname0]
  rw [_readString_pos buf ((off : Int) + 100) 8 (by omega) (by norm_num) (by omega),
    show ((off : Int) + 100).toNat = off + 100 by omega,
    show ((8:Int)).toNat = 8 by rfl]
  rw [_readString_pos buf ((off : Int) + 108) 8 (by omega) (by norm_num) (by omega),
    show ((off : Int) + 108).toNat = off + 108 by omega,
    show ((8:Int)).toNat = 8 by rfl]
  rw [_readString_pos buf ((off : Int) + 116) 8 (by omega) (by norm_num) (by omega),
    show ((off : Int) + 116).toNat = off + 116 by omega,
    show ((8:Int)).toNat = 8 by rfl]
  rw [_readNumber_pos buf ((off : Int) + 124) 12 (by omega) (by norm_num) (by omega),
    show ((off : Int) + 124).toNat = off + 124 by omega,
    show ((12:Int)).toNat = 12 by rfl, hsize]
  rw [_readNumber_pos buf ((off : Int) + 136) 12 (by omega) (by norm_num) (by omega),
    show ((off : Int) + 136).toNat = off + 136 by omega,
    show ((12:Int)).toNat = 12 by rfl]
  rw [_readString_pos buf ((off : Int) + 156) 1 (by omega) (by norm_num) (by omega),
    show ((off : Int) + 156).toNat = off + 156 by omega,
    show ((1:Int)).toNat = 1 by rfl, hty]
  simp only [htyv]
  rw [if_neg (not_or.mpr ⟨ho1, ho2⟩)]
  rw [if_neg (show ¬ _ by simp only [not_or]; exact ⟨ho3, ho4, ho5⟩)]
  rw [_readString_pos buf ((off : Int) + 257) 6 (by omega) (by norm_num) (by omega),
    show ((off : Int) + 257).toNat = off + 257 by omega,
    show ((6:Int)).toNat = 6 by rfl]
  rw [_readString_pos buf ((off : Int) + 265) 32 (by omega) (by norm_num) (by omega),
    show ((off : Int) + 265).toNat = off + 265 by omega,
    show ((32:Int)).toNat = 32 by rfl]
  rw [_readString_pos buf ((off : Int) + 297) 32 (by omega) (by norm_num) (by omega),
    show ((off : Int) + 297).toNat = off + 297 by omega,
    show ((32:Int)).toNat = 32 by rfl]
  rw [_readString_pos buf ((off : Int) + 345) 155 (by omega) (by norm_num) (by omega),
    show ((off : Int) + 345).toNat = off + 345 by omega,
    show ((155:Int)).toNat = 155 by rfl]
  simp only []
  have hz : ¬ (some sz = some 0) := by
    simp only [Option.some.injEq]
    omega
  by_cases hm : utf8Decode ((sliceAt buf (off + 257) 6).takeWhile
      (fun b => b != 0)) = js "ustar"
  · rw [if_pos hm, if_neg hz]
    rw [jsSubarray_overflow buf ((off : Int) + 512) sz (by omega) hsz (by omega)]
    simp only [Bool.false_eq_true, if_false, Option.map_none, Option.map_none']
  · rw [if_neg hm, if_neg hz]
    rw [jsSubarray_overflow buf ((off : Int) + 512) sz (by omega) hsz (by omega)]
    simp only [Bool.false_eq_true, if_false, Option.map_none, Option.map_none']


theorem sliceAt_peel (a b : Bytes) (off n m : Nat) (ha : a.length = m)
    (h : m ≤ off) : sliceAt (a ++ b) off n = sliceAt b (off - m) n := by
  subst ha
  exact sliceAt_skip a b off n h

theorem hdrSlice_name (now : Int) (opts : CreateTarOptions) (f : NormFile)
    (ck rest : Bytes) (hck : ck.length = 8) :
    sliceAt (tarHeaderPre now opts f ck ++ rest) 0 100 =
      headerField f.name 100 := by
  rw [tarHeaderPre]
  simp only [List.append_assoc]
  exact sliceAt_here (headerField f.name 100) _ 100 (by simp [headerField_length])

theorem hdrSlice_mode (now : Int) (opts : CreateTarOptions) (f : NormFile)
    (ck rest : Bytes) (hck : ck.length = 8) :
    sliceAt (tarHeaderPre now opts f ck ++ rest) 100 8 =
      headerField (_leftPad (resMode f opts) 7) 8 := by
  rw [tarHeaderPre]
  simp only [List.append_assoc]
  rw [sliceAt_peel (headerField f.name 100) _ 100 8 100 (by simp [headerField_length]) (by norm_num)]
  rw [show (100 - 100 : Nat) = 0 from rfl]
  exact sliceAt_here (headerField (_leftPad (resMode f opts) 7) 8) _ 8 (by simp [headerField_length])

theorem hdrSlice_uid (now : Int) (opts : CreateTarOptions) (f : NormFile)
    (ck rest : Bytes) (hck : ck.length = 8) :
    sliceAt (tarHeaderPre now opts f ck ++ rest) 108 8 =
      headerField (_leftPad (intToStringRadix 8 (resUid f opts)) 7) 8 := by
  rw [tarHeaderPre]
  simp only [List.append_assoc]
  rw [sliceAt_peel (headerField f.name 100) _ 108 8 100 (by simp [headerField_length]) (by norm_num)]
  rw [show (108 - 100 : Nat) = 8 from rfl]
  rw [sliceAt_peel (headerField (_leftPad (resMode f opts) 7) 8) _ 8 8 8 (by simp [headerField_length]) (by norm_num)]
  rw [show (8 - 8 : Nat) = 0 from rfl]
  exact sliceAt_here (headerField (_leftPad (intToStringRadix 8 (resUid f opts)) 7) 8) _ 8 (by simp [headerField_length])

theorem hdrSlice_gid (now : Int) (opts : CreateTarOptions) (f : NormFile)
    (ck rest : Bytes) (hck : ck.length = 8) :
    sliceAt (tarHeaderPre now opts f ck ++ rest) 116 8 =
      headerField (_leftPad (intToStringRadix 8 (resGid f opts)) 7) 8 := by
  rw [tarHeaderPre]
  simp only [List.append_assoc]
  rw [sliceAt_peel (headerField f.name 100) _ 116 8 100 (by simp [headerField_length]) (by norm_num)]
  rw [show (116 - 100 : Nat) = 16 from rfl]
  rw [sliceAt_peel (headerField (_leftPad (resMode f opts) 7) 8) _ 16 8 8 (by simp [headerField_length]) (by norm_num)]
  rw [show (16 - 8 : Nat) = 8 from rfl]
  rw [sliceAt_peel (headerField (_leftPad (intToStringRadix 8 (resUid f opts)) 7) 8) _ 8 8 8 (by simp [headerField_length]) (by norm_num)]
  rw [show (8 - 8 : Nat) = 0 from rfl]
  exact sliceAt_here (headerField (_leftPad (intToStringRadix 8 (resGid f opts)) 7) 8) _ 8 (by simp [headerField_length])

theorem hdrSlice_size (now : Int) (opts : CreateTarOptions) (f : NormFile)
    (ck rest : Bytes) (hck : ck.length = 8) :
    sliceAt (tarHeaderPre now opts f ck ++ rest) 124 12 =
      headerField (_leftPad (natDigits 8 f.size) 11) 12 := by
  rw [tarHeaderPre]
  simp only [List.append_assoc]
  rw [sliceAt_peel (headerField f.name 100) _ 124 12 100 (by simp [headerField_length]) (by norm_num)]
  rw [show (124 - 100 : Nat) = 24 from rfl]
  rw [sliceAt_peel (headerField (_leftPad (resMode f opts) 7) 8) _ 24 12 8 (by simp [headerField_length]) (by norm_num)]
  rw [show (24 - 8 : Nat) = 16 from rfl]
  rw [sliceAt_peel (headerField (_leftPad (intToStringRadix 8 (resUid f opts)) 7) 8) _ 16 12 8 (by simp [headerField_length]) (by norm_num)]
  rw [show (16 - 8 : Nat) = 8 from rfl]
  rw [sliceAt_peel (headerField (_leftPad (intToStringRadix 8 (resGid f opts)) 7) 8) _ 8 12 8 (by simp [headerField_length]) (by norm_num)]
  rw [show (8 - 8 : Nat) = 0 from rfl]
  exact sliceAt_here (headerField (_leftPad (natDigits 8 f.size) 11) 12) _ 12 (by simp [headerField_length])

theorem hdrSlice_mtime (now : Int) (opts : CreateTarOptions) (f : NormFile)
    (ck rest : Bytes) (hck : ck.length = 8) :
    sliceAt (tarHeaderPre now opts f ck ++ rest) 136 12 =
      headerField (_leftPad (intToStringRadix 8 (Int.tdiv (resMtime now f opts) 1000)) 11) 12 := by
  rw [tarHeaderPre]
  simp only [List.append_assoc]
  rw [sliceAt_peel (headerField f.name 100) _ 136 12 100 (by simp [headerField_length]) (by norm_num)]
  rw [show (136 - 100 : Nat) = 36 from rfl]
  rw [sliceAt_peel (headerField (_leftPad (resMode f opts) 7) 8) _ 36 12 8 (by simp [headerField_length]) (by norm_num)]
  rw [show (36 - 8 : Nat) = 28 from rfl]
  rw [sliceAt_peel (headerField (_leftPad (intToStringRadix 8 (resUid f opts)) 7) 8) _ 28 12 8 (by simp [headerField_length]) (by norm_num)]
  rw [show (28 - 8 : Nat) = 20 from rfl]
  rw [sliceAt_peel (headerField (_leftPad (intToStringRadix 8 (resGid f opts)) 7) 8) _ 20 12 8 (by simp [headerField_length]) (by norm_num)]
  rw [show (20 - 8 : Nat) = 12 from rfl]
  rw [sliceAt_peel (headerField (_leftPad (natDigits 8 f.size) 11) 12) _ 12 12 12 (by simp [headerField_length]) (by norm_num)]
  rw [show (12 - 12 : Nat) = 0 from rfl]
  exact sliceAt_here (headerField (_leftPad (intToStringRadix 8 (Int.tdiv (resMtime now f opts) 1000)) 11) 12) _ 12 (by simp [headerField_length])

theorem hdrSlice_ck (now : Int) (opts : CreateTarOptions) (f : NormFile)
    (ck rest : Bytes) (hck : ck.length = 8) :
    sliceAt (tarHeaderPre now opts f ck ++ rest) 148 8 =
      ck := by
  rw [tarHeaderPre]
  simp only [List.append_assoc]
  rw [sliceAt_peel (headerField f.name 100) _ 148 8 100 (by simp [headerField_length]) (by norm_num)]
  rw [show (148 - 100 : Nat) = 48 from rfl]
  rw [sliceAt_peel (headerField (_leftPad (resMode f opts) 7) 8) _ 48 8 8 (by simp [headerField_length]) (by norm_num)]
  rw [show (48 - 8 : Nat) = 40 from rfl]
  rw [sliceAt_peel (headerField (_leftPad (intToStringRadix 8 (resUid f opts)) 7) 8) _ 40 8 8 (by simp [headerField_length]) (by norm_num)]
  rw [show (40 - 8 : Nat) = 32 from rfl]
  rw [sliceAt_peel (headerField (_leftPad (intToStringRadix 8 (resGid f opts)) 7) 8) _ 32 8 8 (by simp [headerField_length]) (by norm_num)]
  rw [show (32 - 8 : Nat) = 24 from rfl]
  rw [sliceAt_peel (headerField (_leftPad (natDigits 8 f.size) 11) 12) _ 24 8 12 (by simp [headerField_length]) (by norm_num)]
  rw [show (24 - 12 : Nat) = 12 from rfl]
  rw [sliceAt_peel (headerField (_leftPad (intToStringRadix 8 (Int.tdiv (resMtime now f opts) 1000)) 11) 12) _ 12 8 12 (by simp [headerField_length]) (by norm_num)]
  rw [show (12 - 12 : Nat) = 0 from rfl]
  exact sliceAt_here (ck) _ 8 hck

theorem hdrSlice_type (now : Int) (opts : CreateTarOptions) (f : NormFile)
    (ck rest : Bytes) (hck : ck.length = 8) :
    sliceAt (tarHeaderPre now opts f ck ++ rest) 156 1 =
      headerField (if f.isDir then js "5" else js "0") 1 := by
  rw [tarHeaderPre]
  simp only [List.append_assoc]
  rw [sliceAt_peel (headerField f.name 100) _ 156 1 100 (by simp [headerField_length]) (by norm_num)]
  rw [show (156 - 100 : Nat) = 56 from rfl]
  rw [sliceAt_peel (headerField (_leftPad (resMode f opts) 7) 8) _ 56 1 8 (by simp [headerField_length]) (by norm_num)]
  rw [show (56 - 8 : Nat) = 48 from rfl]
  rw [sliceAt_peel (headerField (_leftPad (intToStringRadix 8 (resUid f opts)) 7) 8) _ 48 1 8 (by simp [headerField_length]) (by norm_num)]
  rw [show (48 - 8 : Nat) = 40 from rfl]
  rw [sliceAt_peel (headerField (_leftPad (intToStringRadix 8 (resGid f opts)) 7) 8) _ 40 1 8 (by simp [headerField_length]) (by norm_num)]
  rw [show (40 - 8 : Nat) = 32 from rfl]
  rw [sliceAt_peel (headerField (_leftPad (natDigits 8 f.size) 11) 12) _ 32 1 12 (by simp [headerField_length]) (by norm_num)]
  rw [show (32 - 12 : Nat) = 20 from rfl]
  rw [sliceAt_peel (headerField (_leftPad (intToStringRadix 8 (Int.tdiv (resMtime now f opts) 1000)) 11) 12) _ 20 1 12 (by simp [headerField_length]) (by norm_num)]
  rw [show (20 - 12 : Nat) = 8 from rfl]
  rw [sliceAt_peel (ck) _ 8 1 8 hck (by norm_num)]
  rw [show (8 - 8 : Nat) = 0 from rfl]
  exact sliceAt_here (headerField (if f.isDir then js "5" else js "0") 1) _ 1 (by simp [headerField_length])

theorem hdrSlice_magic (now : Int) (opts : CreateTarOptions) (f : NormFile)
    (ck rest : Bytes) (hck : ck.length = 8) :
    sliceAt (tarHeaderPre now opts f ck ++ rest) 257 6 =
      headerField (js "ustar") 6 := by
  rw [tarHeaderPre]
  simp only [List.append_assoc]
  rw [sliceAt_peel (headerField f.name 100) _ 257 6 100 (by simp [headerField_length]) (by norm_num)]
  rw [show (257 - 100 : Nat) = 157 from rfl]
  rw [sliceAt_peel (headerField (_leftPad (resMode f opts) 7) 8) _ 157 6 8 (by simp [headerField_length]) (by norm_num)]
  rw [show (157 - 8 : Nat) = 149 from rfl]
  rw [sliceAt_peel (headerField (_leftPad (intToStringRadix 8 (resUid f opts)) 7) 8) _ 149 6 8 (by simp [headerField_length]) (by norm_num)]
  rw [show (149 - 8 : Nat) = 141 from rfl]
  rw [sliceAt_peel (headerField (_leftPad (intToStringRadix 8 (resGid f opts)) 7) 8) _ 141 6 8 (by simp [headerField_length]) (by norm_num)]
  rw [show (141 - 8 : Nat) = 133 from rfl]
  rw [sliceAt_peel (headerField (_leftPad (natDigits 8 f.size) 11) 12) _ 133 6 12 (by simp [headerField_length]) (by norm_num)]
  rw [show (133 - 12 : Nat) = 121 from rfl]
  rw [sliceAt_peel (headerField (_leftPad (intToStringRadix 8 (Int.tdiv (resMtime now f opts) 1000)) 11) 12) _ 121 6 12 (by simp [headerField_length]) (by norm_num)]
  rw [show (121 - 12 : Nat) = 109 from rfl]
  rw [sliceAt_peel (ck) _ 109 6 8 hck (by norm_num)]
  rw [show (109 - 8 : Nat) = 101 from rfl]
  rw [sliceAt_peel (headerField (if f.isDir then js "5" else js "0") 1) _ 101 6 1 (by simp [headerField_length]) (by norm_num)]
  rw [show (101 - 1 : Nat) = 100 from rfl]
  rw [sliceAt_peel (List.replicate 100 0) _ 100 6 100 (by simp [headerField_length]) (by norm_num)]
  rw [show (100 - 100 : Nat) = 0 from rfl]
  exact sliceAt_here (headerField (js "ustar") 6) _ 6 (by simp [headerField_length])

theorem hdrSlice_user (now : Int) (opts : CreateTarOptions) (f : NormFile)
    (ck rest : Bytes) (hck : ck.length = 8) :
    sliceAt (tarHeaderPre now opts f ck ++ rest) 265 32 =
      headerField (resUser f opts) 32 := by
  rw [tarHeaderPre]
  simp only [List.append_assoc]
  rw [sliceAt_peel (headerField f.name 100) _ 265 32 100 (by simp [headerField_length]) (by norm_num)]
  rw [show (265 - 100 : Nat) = 165 from rfl]
  rw [sliceAt_peel (headerField (_leftPad (resMode f opts) 7) 8) _ 165 32 8 (by simp [headerField_length]) (by norm_num)]
  rw [show (165 - 8 : Nat) = 157 from rfl]
  rw [sliceAt_peel (headerField (_leftPad (intToStringRadix 8 (resUid f opts)) 7) 8) _ 157 32 8 (by simp [headerField_length]) (by norm_num)]
  rw [show (157 - 8 : Nat) = 149 from rfl]
  rw [sliceAt_peel (headerField (_leftPad (intToStringRadix 8 (resGid f opts)) 7) 8) _ 149 32 8 (by simp [headerField_length]) (by norm_num)]
  rw [show (149 - 8 : Nat) = 141 from rfl]
  rw [sliceAt_peel (headerField (_leftPad (natDigits 8 f.size) 11) 12) _ 141 32 12 (by simp [headerField_length]) (by norm_num)]
  rw [show (141 - 12 : Nat) = 129 from rfl]
  rw [sliceAt_peel (headerField (_leftPad (intToStringRadix 8 (Int.tdiv (resMtime now f opts) 1000)) 11) 12) _ 129 32 12 (by simp [headerField_length]) (by norm_num)]
  rw [show (129 - 12 : Nat) = 117 from rfl]
  rw [sliceAt_peel (ck) _ 117 32 8 hck (by norm_num)]
  rw [show (117 - 8 : Nat) = 109 from rfl]
  rw [sliceAt_peel (headerField (if f.isDir then js "5" else js "0") 1) _ 109 32 1 (by simp [headerField_length]) (by norm_num)]
  rw [show (109 - 1 : Nat) = 108 from rfl]
  rw [sliceAt_peel (List.replicate 100 0) _ 108 32 100 (by simp [headerField_length]) (by norm_num)]
  rw [show (108 - 100 : Nat) = 8 from rfl]
  rw [sliceAt_peel (headerField (js "ustar") 6) _ 8 32 6 (by simp [headerField_length]) (by norm_num)]
  rw [show (8 - 6 : Nat) = 2 from rfl]
  rw [sliceAt_peel (headerField (js "00") 2) _ 2 32 2 (by simp [headerField_length]) (by norm_num)]
  rw [show (2 - 2 : Nat) = 0 from rfl]
  exact sliceAt_here (headerField (resUser f opts) 32) _ 32 (by simp [headerField_length])

theorem hdrSlice_group (now : Int) (opts : CreateTarOptions) (f : NormFile)
    (ck rest : Bytes) (hck : ck.length = 8) :
    sliceAt (tarHeaderPre now opts f ck ++ rest) 297 32 =
      headerField (resGroup f opts) 32 := by
  rw [tarHeaderPre]
  simp only [List.append_assoc]
  rw [sliceAt_peel (headerField f.name 100) _ 297 32 100 (by simp [headerField_length]) (by norm_num)]
  rw [show (297 - 100 : Nat) = 197 from rfl]
  rw [sliceAt_peel (headerField (_leftPad (resMode f opts) 7) 8) _ 197 32 8 (by simp [headerField_length]) (by norm_num)]
  rw [show (197 - 8 : Nat) = 189 from rfl]
  rw [sliceAt_peel (headerField (_leftPad (intToStringRadix 8 (resUid f opts)) 7) 8) _ 189 32 8 (by simp [headerField_length]) (by norm_num)]
  rw [show (189 - 8 : Nat) = 181 from rfl]
  rw [sliceAt_peel (headerField (_leftPad (intToStringRadix 8 (resGid f opts)) 7) 8) _ 181 32 8 (by simp [headerField_length]) (by norm_num)]
  rw [show (181 - 8 : Nat) = 173 from rfl]
  rw [sliceAt_peel (headerField (_leftPad (natDigits 8 f.size) 11) 12) _ 173 32 12 (by simp [headerField_length]) (by norm_num)]
  rw [show (173 - 12 : Nat) = 161 from rfl]
  rw [sliceAt_peel (headerField (_leftPad (intToStringRadix 8 (Int.tdiv (resMtime now f opts) 1000)) 11) 12) _ 161 32 12 (by simp [headerField_length]) (by norm_num)]
  rw [show (161 - 12 : Nat) = 149 from rfl]
  rw [sliceAt_peel (ck) _ 149 32 8 hck (by norm_num)]
  rw [show (149 - 8 : Nat) = 141 from rfl]
  rw [sliceAt_peel (headerField (if f.isDir then js "5" else js "0") 1) _ 141 32 1 (by simp [headerField_length]) (by norm_num)]
  rw [show (141 - 1 : Nat) = 140 from rfl]
  rw [sliceAt_peel (List.replicate 100 0) _ 140 32 100 (by simp [headerField_length]) (by norm_num)]
  rw [show (140 - 100 : Nat) = 40 from rfl]
  rw [sliceAt_peel (headerField (js "ustar") 6) _ 40 32 6 (by simp [headerField_length]) (by norm_num)]
  rw [show (40 - 6 : Nat) = 34 from rfl]
  rw [sliceAt_peel (headerField (js "00") 2) _ 34 32 2 (by simp [headerField_length]) (by norm_num)]
  rw [show (34 - 2 : Nat) = 32 from rfl]
  rw [sliceAt_peel (headerField (resUser f opts) 32) _ 32 32 32 (by simp [headerField_length]) (by norm_num)]
  rw [show (32 - 32 : Nat) = 0 from rfl]
  exact sliceAt_here (headerField (resGroup f opts) 32) _ 32 (by simp [headerField_length])

theorem hdrSlice_pfx (now : Int) (opts : CreateTarOptions) (f : NormFile)
    (ck rest : Bytes) (hck : ck.length = 8) :
    sliceAt (tarHeaderPre now opts f ck ++ rest) 345 155 = List.replicate 155 0 := by
  rw [tarHeaderPre]
  simp only [List.append_assoc]
  rw [sliceAt_peel (headerField f.name 100) _ 345 155 100 (by simp [headerField_length]) (by norm_num)]
  rw [show (345 - 100 : Nat) = 245 from rfl]
  rw [sliceAt_peel (headerField (_leftPad (resMode f opts) 7) 8) _ 245 155 8 (by simp [headerField_length]) (by norm_num)]
  rw [show (245 - 8 : Nat) = 237 from rfl]
  rw [sliceAt_peel (headerField (_leftPad (intToStringRadix 8 (resUid f opts)) 7) 8) _ 237 155 8 (by simp [headerField_length]) (by norm_num)]
  rw [show (237 - 8 : Nat) = 229 from rfl]
  rw [sliceAt_peel (headerField (_leftPad (intToStringRadix 8 (resGid f opts)) 7) 8) _ 229 155 8 (by simp [headerField_length]) (by norm_num)]
  rw [show (229 - 8 : Nat) = 221 from rfl]
  rw [sliceAt_peel (headerField (_leftPad (natDigits 8 f.size) 11) 12) _ 221 155 12 (by simp [headerField_length]) (by norm_num)]
  rw [show (221 - 12 : Nat) = 209 from rfl]
  rw [sliceAt_peel (headerField (_leftPad (intToStringRadix 8 (Int.tdiv (resMtime now f opts) 1000)) 11) 12) _ 209 155 12 (by simp [headerField_length]) (by norm_num)]
  rw [show (209 - 12 : Nat) = 197 from rfl]
  rw [sliceAt_peel (ck) _ 197 155 8 hck (by norm_num)]
  rw [show (197 - 8 : Nat) = 189 from rfl]
  rw [sliceAt_peel (headerField (if f.isDir then js "5" else js "0") 1) _ 189 155 1 (by simp [headerField_length]) (by norm_num)]
  rw [show (189 - 1 : Nat) = 188 from rfl]
  rw [sliceAt_peel (List.replicate 100 0) _ 188 155 100 (by simp [headerField_length]) (by norm_num)]
  rw [show (188 - 100 : Nat) = 88 from rfl]
  rw [sliceAt_peel (headerField (js "ustar") 6) _ 88 155 6 (by simp [headerField_length]) (by norm_num)]
  rw [show (88 - 6 : Nat) = 82 from rfl]
  rw [sliceAt_peel (headerField (js "00") 2) _ 82 155 2 (by simp [headerField_length]) (by norm_num)]
  rw [show (82 - 2 : Nat) = 80 from rfl]
  rw [sliceAt_peel (headerField (resUser f opts) 32) _ 80 155 32 (by simp [headerField_length]) (by norm_num)]
  rw [show (80 - 32 : Nat) = 48 from rfl]
  rw [sliceAt_peel (headerField (resGroup f opts) 32) _ 48 155 32 (by simp [headerField_length]) (by norm_num)]
  rw [show (48 - 32 : Nat) = 16 from rfl]
  rw [sliceAt_within _ _ 16 155 (by simp)]
  simp [sliceAt, List.drop_replicate, List.take_replicate]


/-! ## Parsing back the encoded fields -/

theorem _leftPad_eq (s : JSStr) (t : Nat) :
    _leftPad s t = List.replicate (t - s.length) 48 ++ s := by
  unfold _leftPad
  split
  · rename_i h
    rw [show t - s.length = 0 by omega]
    simp
  · rfl

theorem _leftPad_length (s : JSStr) (t : Nat) (h : s.length ≤ t) :
    (_leftPad s t).length = t := by
  rw [_leftPad_eq]
  simp only [List.length_append, List.length_replicate]
  omega

theorem utf8Len_ascii (s : JSStr) (h : ∀ c ∈ s, c < 0x80) :
    utf8Len s = s.length := by
  unfold utf8Len
  rw [utf8Encode_ascii s h]

theorem utf8Decode_ascii (s : JSStr) (h : ∀ c ∈ s, c < 0x80) :
    utf8Decode s = s := by
  conv_lhs => rw [show s = utf8Encode s from (utf8Encode_ascii s h).symm]
  exact utf8Decode_encode s (fun c hc => ⟨by have := h c hc; omega, by
    have := h c hc; omega⟩)

theorem leftPad_digits_ascii (v t : Nat) :
    ∀ c ∈ _leftPad (natDigits 8 v) t, 48 ≤ c ∧ c ≤ 55 := by
  rw [_leftPad_eq]
  intro c hc
  rcases List.mem_append.mp hc with h | h
  · have := List.eq_of_mem_replicate h
    omega
  · exact natDigits_octal_bounds v c h

theorem takeWhile_radix8_replicate (k : Nat) :
    (List.replicate k 0).takeWhile (isRadixDigit 8) = [] := by
  cases k with
  | zero => simp
  | succ n =>
    rw [List.replicate_succ, List.takeWhile_cons]
    norm_num [isRadixDigit, digitVal]

/-- parseInt(s, 8) of an octal digit run NUL-padded to the right. -/
theorem jsParseIntRadix8_padded (ds : Bytes) (k : Nat) (hne : ds ≠ [])
    (hall : ∀ d ∈ ds, 48 ≤ d ∧ d ≤ 55) :
    jsParseIntRadix 8 (ds ++ List.replicate k 0) =
      some ((digitsVal 8 ds : Nat) : Int) := by
  obtain ⟨d, rest, rfl⟩ := List.exists_cons_of_ne_nil hne
  have hd := hall d (by simp)
  unfold jsParseIntRadix
  rw [List.cons_append]
  rw [dropWhile_not_ws _ (fun c hc => by
    rcases List.mem_cons.mp hc with h | h
    · subst h
      exact isJsWs_digit c (by omega) (by omega)
    · rcases List.mem_append.mp h with h1 | h1
      · have := hall c (by simp [h1])
        exact isJsWs_digit c (by omega) (by omega)
      · have := List.eq_of_mem_replicate h1
        subst this
        decide)]
  simp only [List.head?_cons]
  have h45 : ¬ (some d = some 45) := by simp only [Option.some.injEq]; omega
  have h43 : ¬ (some d = some 43) := by simp only [Option.some.injEq]; omega
  rw [if_neg h45, if_neg h43]
  unfold parseIntDigits
  rw [show d :: (rest ++ List.replicate k 0) = (d :: rest) ++ List.replicate k 0
    from rfl]
  rw [takeWhile_append_all (d :: rest) _ (fun x hx => by
    simp only [isRadixDigit, decide_eq_true_eq]
    exact digitVal_lt_of_octal x (hall x hx))]
  rw [takeWhile_radix8_replicate, List.append_nil]
  rw [if_neg (by simp)]
  rfl

/-- An 11-digit zero-padded octal field of width 12 parses back to its
value under parseInt(str, 8). -/
theorem parse_octalField (v : Nat) (hv : v < 8 ^ 11) :
    jsParseIntRadix 8 (headerField (_leftPad (natDigits 8 v) 11) 12) =
      some ((v : Nat) : Int) := by
  have hlen : (natDigits 8 v).length ≤ 11 :=
    natDigits_length_le v 11 (by norm_num) hv
  have hpadlen : (_leftPad (natDigits 8 v) 11).length = 11 :=
    _leftPad_length _ _ hlen
  have hascii : ∀ c ∈ _leftPad (natDigits 8 v) 11, c < 0x80 := by
    intro c hc
    have := leftPad_digits_ascii v 11 c hc
    omega
  have hfits : utf8Len (_leftPad (natDigits 8 v) 11) ≤ 12 := by
    rw [utf8Len_ascii _ hascii, hpadlen]
    norm_num
  rw [headerField_of_fits _ _ hfits, utf8Encode_ascii _ hascii]
  rw [jsParseIntRadix8_padded _ _ (by
      rw [_leftPad_eq]
      intro hcontra
      have := natDigits_nonempty 8 v
      simp only [List.append_eq_nil] at hcontra
      exact this hcontra.2)
    (leftPad_digits_ascii v 11)]
  rw [_leftPad_eq, digitsVal_replicate_zero_append, digitsVal_natDigits]

/-- The uid/gid field: written as 7 zero-padded octal digits plus NUL,
read back by _readString and re-parsed by Number.parseInt as decimal. -/
theorem parse_uidField (v : Nat) (hv : v < 8 ^ 7) :
    jsParseInt (utf8Decode ((headerField (_leftPad (natDigits 8 v) 7) 8).takeWhile
      (fun b => b != 0))) = some ((octalReparse v : Nat) : Int) := by
  have hlen : (natDigits 8 v).length ≤ 7 :=
    natDigits_length_le v 7 (by norm_num) hv
  have hpadlen : (_leftPad (natDigits 8 v) 7).length = 7 :=
    _leftPad_length _ _ hlen
  have hgood : GoodStr (_leftPad (natDigits 8 v) 7) 8 := by
    constructor
    · intro c hc
      have := leftPad_digits_ascii v 7 c hc
      exact ⟨⟨by omega, by omega⟩, by omega⟩
    · rw [utf8Len_ascii _ (fun c hc => by
        have := leftPad_digits_ascii v 7 c hc; omega), hpadlen]
      norm_num
  rw [read_headerField _ _ hgood]
  rw [jsParseInt_digits _ (by
      rw [_leftPad_eq]
      intro hcontra
      have := natDigits_nonempty 8 v
      simp only [List.append_eq_nil] at hcontra
      exact this hcontra.2)
    (leftPad_digits_ascii v 7)]
  rw [show digitsVal 10 (_leftPad (natDigits 8 v) 7) = octalReparse v by
    rw [_leftPad_eq, digitsVal_replicate_zero_append]
    rfl]

/-- The mode field: NUL-cut read plus trim gives the zero-padded string. -/
theorem parse_modeField (m : JSStr) (hm : ∀ c ∈ m, 32 < c ∧ c < 127)
    (hlen : m.length ≤ 7) :
    jsTrim (utf8Decode ((headerField (_leftPad m 7) 8).takeWhile
      (fun b => b != 0))) = _leftPad m 7 := by
  have hchars : ∀ c ∈ _leftPad m 7, 32 < c ∧ c < 127 := by
    rw [_leftPad_eq]
    intro c hc
    rcases List.mem_append.mp hc with h | h
    · have := List.eq_of_mem_replicate h
      omega
    · exact hm c h
  have hgood : GoodStr (_leftPad m 7) 8 := by
    constructor
    · intro c hc
      have := hchars c hc
      exact ⟨⟨by omega, by omega⟩, by omega⟩
    · rw [utf8Len_ascii _ (fun c hc => by have := hchars c hc; omega),
        _leftPad_length _ _ hlen]
      norm_num
  rw [read_headerField _ _ hgood]
  exact jsTrim_no_ws _ (fun c hc => by
    have := hchars c hc
    exact isJsWs_printable c (by omega) (by omega))


/-! ## Structure of the encoder output -/

theorem tarHeaderPre_length (now : Int) (opts : CreateTarOptions) (f : NormFile)
    (ck : Bytes) (hck : ck.length = 8) :
    (tarHeaderPre now opts f ck).length = 512 := by
  simp [tarHeaderPre, headerField_length, hck]

theorem tarHeader_eq (now : Int) (opts : CreateTarOptions) (f : NormFile) :
    tarHeader now opts f = tarHeaderPre now opts f
      (headerField (natDigits 8
        ((tarHeaderPre now opts f (List.replicate 8 32)).sum)) 8) := rfl

theorem tarHeader_length (now : Int) (opts : CreateTarOptions) (f : NormFile) :
    (tarHeader now opts f).length = 512 := by
  rw [tarHeader_eq]
  exact tarHeaderPre_length now opts f _ (headerField_length _ _)

theorem align512_ge (n : Nat) : n ≤ align512 n := by
  unfold align512
  by_cases h : n % 512 = 0
  · rw [if_neg (by omega)]
    omega
  · rw [if_pos h]
    omega

theorem align512_mod (n : Nat) : align512 n % 512 = 0 := by
  unfold align512
  by_cases h : n % 512 = 0
  · rw [if_neg (by omega)]
    omega
  · rw [if_pos h]
    omega

theorem entryBlock_length (now : Int) (opts : CreateTarOptions) (f : NormFile) :
    (entryBlock now opts f).length = 512 + align512 f.size := by
  cases hd : f.data with
  | none =>
    unfold entryBlock NormFile.size
    rw [hd]
    simp [tarHeader_length]
    decide
  | some d =>
    have h := align512_ge d.length
    unfold entryBlock NormFile.size
    rw [hd]
    simp [tarHeader_length]
    omega

theorem sliceAt_of_drop (buf L : Bytes) (off k n : Nat)
    (h : buf.drop off = L) : sliceAt buf (off + k) n = sliceAt L k n := by
  unfold sliceAt
  rw [← h, List.drop_drop]

theorem intToStringRadix_nonneg (r : Nat) (i : Int) (h : 0 ≤ i) :
    intToStringRadix r i = natDigits r i.toNat := by
  unfold intToStringRadix
  rw [if_neg (by omega)]
  congr 1
  omega

theorem read_replicate_zero (k : Nat) :
    utf8Decode ((List.replicate k 0).takeWhile (fun b => b != 0)) = [] := by
  rw [takeWhile_ne_zero_replicate]
  rfl

/-! ## Expected parsed entry of the round trip -/

/-- What parseTar reconstructs from one encoded entry: the same name, a
file/directory type, the size, the data bytes, and attrs transformed by
the codec (mode zero-padded to seven digits, uid/gid read back as decimal
reinterpretations of their octal digits, mtime truncated to seconds,
user/group verbatim, no extended headers). -/
def roundTripItem (now : Int) (copts : CreateTarOptions) (f : TarFileInput) :
    ParsedTarItem :=
  let nf := normFile f
  ⟨{ name := f.name,
     type := if nf.isDir then js "directory" else js "file",
     size := some ((nf.size : Nat) : Int),
     attrs :=
      { ext := [],
        mode := _leftPad (resMode nf copts) 7,
        uid := some ((octalReparse (resUid nf copts).toNat : Nat) : Int),
        gid := some ((octalReparse (resGid nf copts).toNat : Nat) : Int),
        mtime := some (Int.tdiv (resMtime now nf copts) 1000),
        user := some (resUser nf copts),
        group := some (resGroup nf copts) } },
   if nf.size = 0 then none else some (nf.data.getD [])⟩

/-- Hypotheses under which one encoded entry survives the codec. -/
structure GoodEntry (now : Int) (copts : CreateTarOptions) (f : TarFileInput) :
    Prop where
  name_good : GoodStr f.name 100
  name_ne : f.name ≠ []
  name_sane : _sanitizePath f.name = f.name
  mode_chars : ∀ c ∈ resMode (normFile f) copts, 32 < c ∧ c < 127
  mode_len : (resMode (normFile f) copts).length ≤ 7
  uid_range : 0 ≤ resUid (normFile f) copts ∧ resUid (normFile f) copts < 8 ^ 7
  gid_range : 0 ≤ resGid (normFile f) copts ∧ resGid (normFile f) copts < 8 ^ 7
  mtime_range : 0 ≤ resMtime now (normFile f) copts ∧
    Int.tdiv (resMtime now (normFile f) copts) 1000 < 8 ^ 11
  user_good : GoodStr (resUser (normFile f) copts) 32
  group_good : GoodStr (resGroup (normFile f) copts) 32
  size_range : (normFile f).size < 8 ^ 11

/-- One iteration of the parse loop across one encoded entry. -/
theorem parseLoop_entry (now : Int) (copts : CreateTarOptions)
    (f : TarFileInput) (buf : Bytes) (off : Nat) (rest : Bytes) (fl : Nat)
    (acc : List ParsedTarItem)
    (hg : GoodEntry now copts f)
    (hoffle : off ≤ buf.length)
    (hdrop : buf.drop off = entryBlock now copts (normFile f) ++ rest)
    (hrest : 0 < rest.length ∨ 0 < (normFile f).size) :
    parseTarLoop buf {} (fl + 1) (off : Int) none none acc =
      parseTarLoop buf {} fl
        ((off + 512 + align512 (normFile f).size : Nat) : Int) none none
        (acc ++ [roundTripItem now copts f]) := by
  obtain ⟨ck, tail, hckl, hdrop2, htail⟩ :
      ∃ ck tail, ck.length = 8 ∧
        buf.drop off = tarHeaderPre now copts (normFile f) ck ++ (tail ++ rest) ∧
        ((normFile f).data = none ∧ tail = [] ∨
         ∃ d, (normFile f).data = some d ∧
           tail = d ++ List.replicate (align512 d.length - d.length) 0) := by
    refine ⟨headerField (natDigits 8
        ((tarHeaderPre now copts (normFile f) (List.replicate 8 32)).sum)) 8,
      (match (normFile f).data with
        | none => []
        | some d => d ++ List.replicate (align512 d.length - d.length) 0),
      headerField_length _ _, ?_, ?_⟩
    · rw [hdrop]
      unfold entryBlock
      rw [tarHeader_eq, List.append_assoc]
    · cases hd : (normFile f).data with
      | none => exact Or.inl ⟨rfl, rfl⟩
      | some d => exact Or.inr ⟨d, rfl, rfl⟩
  have htlen : tail.length = align512 (normFile f).size := by
    rcases htail with ⟨hd, rfl⟩ | ⟨d, hd, rfl⟩
    · simp only [List.length_nil, NormFile.size, hd, Option.map_none,
        Option.getD_none]
      decide
    · have := align512_ge d.length
      simp only [List.length_append, List.length_replicate, NormFile.size, hd,
        Option.map_some, Option.map_some', Option.getD_some]
      omega
  have hlenfacts : buf.length - off =
      512 + align512 (normFile f).size + rest.length := by
    have h1 : (buf.drop off).length = buf.length - off := by simp
    rw [hdrop2] at h1
    simp only [List.length_append,
      tarHeaderPre_length now copts (normFile f) _ hckl, htlen] at h1
    omega
  have hszge := align512_ge (normFile f).size
  have hpos : 0 < align512 (normFile f).size + rest.length := by
    rcases hrest with h | h
    · omega
    · omega
  have hb : off + 512 < buf.length := by omega
  have htd : 0 ≤ Int.tdiv (resMtime now (normFile f) copts) 1000 :=
    Int.tdiv_nonneg hg.mtime_range.1 (by norm_num)
  -- the individual field reads
  have hRname : utf8Decode ((sliceAt buf off 100).takeWhile (fun b => b != 0)) =
      f.name := by
    have h := sliceAt_of_drop buf _ off 0 100 hdrop2
    rw [Nat.add_zero] at h
    rw [h, hdrSlice_name now copts (normFile f) _ _ hckl]
    exact read_headerField _ _ hg.name_good
  have hRmode : utf8Decode ((sliceAt buf (off + 100) 8).takeWhile (fun b => b != 0)) =
      utf8Decode ((headerField (_leftPad (resMode (normFile f) copts) 7) 8).takeWhile
        (fun b => b != 0)) := by
    rw [sliceAt_of_drop buf _ off 100 8 hdrop2,
      hdrSlice_mode now copts (normFile f) _ _ hckl]
  have hRuid : utf8Decode ((sliceAt buf (off + 108) 8).takeWhile (fun b => b != 0)) =
      utf8Decode ((headerField (_leftPad (natDigits 8 (resUid (normFile f) copts).toNat) 7) 8).takeWhile
        (fun b => b != 0)) := by
    rw [sliceAt_of_drop buf _ off 108 8 hdrop2,
      hdrSlice_uid now copts (normFile f) _ _ hckl,
      intToStringRadix_nonneg 8 _ hg.uid_range.1]
  have hRgid : utf8Decode ((sliceAt buf (off + 116) 8).takeWhile (fun b => b != 0)) =
      utf8Decode ((headerField (_leftPad (natDigits 8 (resGid (normFile f) copts).toNat) 7) 8).takeWhile
        (fun b => b != 0)) := by
    rw [sliceAt_of_drop buf _ off 116 8 hdrop2,
      hdrSlice_gid now copts (normFile f) _ _ hckl,
      intToStringRadix_nonneg 8 _ hg.gid_range.1]
  have hRsize : jsParseIntRadix 8 (sliceAt buf (off + 124) 12) =
      some (((normFile f).size : Nat) : Int) := by
    rw [sliceAt_of_drop buf _ off 124 12 hdrop2,
      hdrSlice_size now copts (normFile f) _ _ hckl]
    exact parse_octalField _ hg.size_range
  have hRmtime : jsParseIntRadix 8 (sliceAt buf (off + 136) 12) =
      some (((Int.tdiv (resMtime now (normFile f) copts) 1000).toNat : Nat) : Int) := by
    rw [sliceAt_of_drop buf _ off 136 12 hdrop2,
      hdrSlice_mtime now copts (normFile f) _ _ hckl,
      intToStringRadix_nonneg 8 _ htd]
    exact parse_octalField _ (by have := hg.mtime_range.2; omega)
  have hRty : utf8Decode ((sliceAt buf (off + 156) 1).takeWhile (fun b => b != 0)) =
      (if (normFile f).isDir then js "5" else js "0") := by
    rw [sliceAt_of_drop buf _ off 156 1 hdrop2,
      hdrSlice_type now copts (normFile f) _ _ hckl]
    exact read_headerField _ _ (by cases (normFile f).isDir <;> decide)
  have hRmagic : utf8Decode ((sliceAt buf (off + 257) 6).takeWhile (fun b => b != 0)) =
      js "ustar" := by
    rw [sliceAt_of_drop buf _ off 257 6 hdrop2,
      hdrSlice_magic now copts (normFile f) _ _ hckl]
    exact read_headerField _ _ (by decide)
  have hRuser : utf8Decode ((sliceAt buf (off + 265) 32).takeWhile (fun b => b != 0)) =
      resUser (normFile f) copts := by
    rw [sliceAt_of_drop buf _ off 265 32 hdrop2,
      hdrSlice_user now copts (normFile f) _ _ hckl]
    exact read_headerField _ _ hg.user_good
  have hRgroup : utf8Decode ((sliceAt buf (off + 297) 32).takeWhile (fun b => b != 0)) =
      resGroup (normFile f) copts := by
    rw [sliceAt_of_drop buf _ off 297 32 hdrop2,
      hdrSlice_group now copts (normFile f) _ _ hckl]
    exact read_headerField _ _ hg.group_good
  have hRpfx : utf8Decode ((sliceAt buf (off + 345) 155).takeWhile (fun b => b != 0)) =
      [] := by
    rw [sliceAt_of_drop buf _ off 345 155 hdrop2,
      hdrSlice_pfx now copts (normFile f) _ _ hckl]
    exact read_replicate_zero 155
  have hdataslice : (normFile f).size ≠ 0 →
      sliceAt buf (off + 512) (normFile f).size = (normFile f).data.getD [] := by
    intro h0
    rcases htail with ⟨hd, rfl⟩ | ⟨d, hd, rfl⟩
    · exact absurd (by simp [NormFile.size, hd]) h0
    · have hsz : (normFile f).size = d.length := by simp [NormFile.size, hd]
      rw [hsz, hd]
      rw [sliceAt_of_drop buf _ off 512 d.length hdrop2]
      rw [sliceAt_peel _ _ 512 d.length 512
        (tarHeaderPre_length now copts (normFile f) _ hckl) (by norm_num)]
      rw [show (512 - 512 : Nat) = 0 from rfl]
      rw [List.append_assoc]
      rw [sliceAt_here d _ d.length rfl]
      rfl
  rw [parseLoop_ordStep buf fl off none none acc
    f.name
    (utf8Decode ((headerField (_leftPad (resMode (normFile f) copts) 7) 8).takeWhile
      (fun b => b != 0)))
    (utf8Decode ((headerField (_leftPad (natDigits 8 (resUid (normFile f) copts).toNat) 7) 8).takeWhile
      (fun b => b != 0)))
    (utf8Decode ((headerField (_leftPad (natDigits 8 (resGid (normFile f) copts).toNat) 7) 8).takeWhile
      (fun b => b != 0)))
    (if (normFile f).isDir then js "5" else js "0")
    (js "ustar")
    (resUser (normFile f) copts)
    (resGroup (normFile f) copts)
    []
    (((normFile f).size : Nat) : Int)
    (some (((Int.tdiv (resMtime now (normFile f) copts) 1000).toNat : Nat) : Int))
    (if (normFile f).isDir then js "directory" else js "file")
    hb hRname hg.name_ne hRmode hRuid hRgid hRsize (Int.natCast_nonneg _)
    hRmtime hRty
    (by cases (normFile f).isDir <;> decide)
    (by cases (normFile f).isDir <;> decide)
    hRmagic hRuser hRgroup hRpfx
    (by simp only [Int.toNat_natCast]; omega)]
  simp only [Int.toNat_natCast]
  have hitem : mkOrdItem (none : Option JsRec) (none : Option JsRec) f.name
      (utf8Decode ((headerField (_leftPad (resMode (normFile f) copts) 7) 8).takeWhile
        (fun b => b != 0)))
      (utf8Decode ((headerField (_leftPad (natDigits 8 (resUid (normFile f) copts).toNat) 7) 8).takeWhile
        (fun b => b != 0)))
      (utf8Decode ((headerField (_leftPad (natDigits 8 (resGid (normFile f) copts).toNat) 7) 8).takeWhile
        (fun b => b != 0)))
      (((normFile f).size : Nat) : Int)
      (some (((Int.tdiv (resMtime now (normFile f) copts) 1000).toNat : Nat) : Int))
      (if (normFile f).isDir then js "directory" else js "file")
      (js "ustar") (resUser (normFile f) copts) (resGroup (normFile f) copts) []
      (sliceAt buf (off + 512) (normFile f).size)
      = roundTripItem now copts f := by
    simp only [mkOrdItem, roundTripItem]
    rw [parse_modeField _ hg.mode_chars hg.mode_len]
    rw [parse_uidField _ (show (resUid (normFile f) copts).toNat < 8 ^ 7 by
      have := hg.uid_range; omega)]
    rw [parse_uidField _ (show (resGid (normFile f) copts).toNat < 8 ^ 7 by
      have := hg.gid_range; omega)]
    rw [Int.toNat_of_nonneg htd]
    rw [show resolveLongName none f.name = f.name from rfl]
    simp only [if_true]
    rw [show joinPfx [] f.name = f.name from rfl]
    rw [hg.name_sane]
    simp only [Option.getD_none, List.nil_append, Nat.cast_eq_zero]
    by_cases h0 : (normFile f).size = 0
    · rw [if_pos h0, if_pos h0]
    · rw [if_neg h0, if_neg h0, hdataslice h0]
  rw [hitem]



/-- The parse loop across a list of encoded entries. -/
theorem parseLoop_files (now : Int) (copts : CreateTarOptions)
    (files : List TarFileInput) (buf : Bytes) (off : Nat) (rest : Bytes)
    (acc : List ParsedTarItem) (fl : Nat)
    (hg : ∀ f ∈ files, GoodEntry now copts f)
    (hoffle : off ≤ buf.length)
    (hdrop : buf.drop off =
      (files.map (fun f => entryBlock now copts (normFile f))).flatten ++ rest)
    (hrest : 0 < rest.length ∨
      (∀ f', files.getLast? = some f' → 0 < (normFile f').size))
    (hfl : files.length ≤ fl) :
    parseTarLoop buf {} (fl + 1) (off : Int) none none acc =
      parseTarLoop buf {} (fl - files.length + 1)
        ((off + tarDataSize (files.map normFile) : Nat) : Int) none none
        (acc ++ files.map (roundTripItem now copts)) := by
  induction files generalizing off acc fl with
  | nil => simp [tarDataSize]
  | cons f fs ih =>
    have hgf := hg f (by simp)
    have hblock := entryBlock_length now copts (normFile f)
    have hdropf : buf.drop off = entryBlock now copts (normFile f) ++
        ((fs.map (fun f => entryBlock now copts (normFile f))).flatten ++ rest) := by
      rw [hdrop]
      simp [List.append_assoc]
    obtain ⟨fl2, rfl⟩ : ∃ fl2, fl = fl2 + 1 :=
      ⟨fl - 1, by simp at hfl; omega⟩
    have hstep := parseLoop_entry now copts f buf off _ (fl2 + 1) acc hgf hoffle
      hdropf (by
        rcases hrest with h | h
        · left
          simp only [List.length_append]
          omega
        · cases fs with
          | nil => exact Or.inr (h f rfl)
          | cons g gs =>
            left
            simp only [List.map_cons, List.flatten_cons, List.length_append,
              entryBlock_length]
            omega)
    rw [hstep]
    have hoffle2 : off + 512 + align512 (normFile f).size ≤ buf.length := by
      have h1 : (buf.drop off).length = buf.length - off := by simp
      rw [hdropf] at h1
      simp only [List.length_append, hblock] at h1
      omega
    have hdrop2 : buf.drop (off + 512 + align512 (normFile f).size) =
        (fs.map (fun f => entryBlock now copts (normFile f))).flatten ++ rest := by
      have he : off + 512 + align512 (normFile f).size =
          off + (entryBlock now copts (normFile f)).length := by
        rw [hblock]; omega
      rw [he, ← List.drop_drop, hdropf, List.drop_left]
    rw [ih (off + 512 + align512 (normFile f).size) (acc ++ [roundTripItem now copts f])
      fl2 (fun g hgmem => hg g (by simp [hgmem])) hoffle2 hdrop2
      (by
        rcases hrest with h | h
        · exact Or.inl h
        · right
          intro f' hf'
          apply h
          cases fs with
          | nil => simp at hf'
          | cons g gs =>
            rw [List.getLast?_cons_cons]
            exact hf')
      (by simp at hfl; omega)]
    rw [show off + 512 + align512 (normFile f).size + tarDataSize (fs.map normFile) =
        off + tarDataSize ((f :: fs).map normFile) by
      simp [tarDataSize, List.map_cons]
      omega]
    rw [show (fl2 + 1) - (f :: fs).length = fl2 - fs.length by simp]
    simp only [List.append_assoc, List.singleton_append, List.map_cons]


theorem flatten_blocks_length (now : Int) (copts : CreateTarOptions)
    (files : List TarFileInput) :
    ((files.map (fun f => entryBlock now copts (normFile f))).flatten).length =
      tarDataSize (files.map normFile) := by
  induction files with
  | nil => rfl
  | cons f fs ih =>
    simp only [List.map_cons, List.flatten_cons, List.length_append, ih,
      tarDataSize, List.sum_cons, entryBlock_length]

theorem tarDataSize_mod (l : List NormFile) : tarDataSize l % 512 = 0 := by
  induction l with
  | nil => rfl
  | cons f fs ih =>
    have h := align512_mod f.size
    simp only [tarDataSize, List.map_cons, List.sum_cons] at ih ⊢
    omega

theorem length_le_tarDataSize (l : List NormFile) :
    l.length ≤ tarDataSize l := by
  induction l with
  | nil => simp [tarDataSize]
  | cons f fs ih =>
    simp only [tarDataSize, List.map_cons, List.sum_cons, List.length_cons] at ih ⊢
    omega

theorem tarBufSize_ge (tds : Nat) : tds ≤ tarBufSize tds := by
  unfold tarBufSize
  have h := Nat.div_add_mod tds 10240
  by_cases hm : tds % 10240 = 0
  · rw [if_neg (by omega)]
    omega
  · rw [if_pos (by omega)]
    omega

theorem tarDataSize_ge_mul (l : List NormFile) :
    512 * l.length ≤ tarDataSize l := by
  induction l with
  | nil => simp [tarDataSize]
  | cons f fs ih =>
    simp only [tarDataSize, List.map_cons, List.sum_cons, List.length_cons]
      at ih ⊢
    omega

/-- The general round trip: for well-formed entries, parseTar of createTar
yields exactly the per-entry reconstructions. The loop bound
offset < length - 512 makes this conditional: it holds whenever zero
padding follows the last entry (total entry size not a multiple of 10240)
or the last entry carries a nonempty payload (its header then sits more
than 512 bytes before the end even with no padding). -/
theorem parse_createTar_eq (now : Int) (copts : CreateTarOptions)
    (files : List TarFileInput)
    (hg : ∀ f ∈ files, GoodEntry now copts f)
    (hok : tarDataSize (files.map normFile) % 10240 ≠ 0 ∨
      (∀ f', files.getLast? = some f' → 0 < (normFile f').size)) :
    parseTar (createTar now files copts) =
      .ok (files.map (roundTripItem now copts)) := by
  have hcru : createTar now files copts =
      (files.map (fun f => entryBlock now copts (normFile f))).flatten ++
        List.replicate (tarBufSize (tarDataSize (files.map normFile)) -
          tarDataSize (files.map normFile)) 0 := by
    unfold createTar
    simp only [List.map_map]
    rfl
  by_cases hnil : files = []
  · subst hnil
    have h0 : createTar now [] copts = [] := by
      rw [hcru]
      simp only [List.map_nil, List.flatten_nil, List.nil_append]
      rw [show tarBufSize (tarDataSize ([] : List NormFile)) -
        tarDataSize ([] : List NormFile) = 0 from by decide]
      rfl
    rw [h0]
    unfold parseTar
    exact parseLoop_stop [] {} 0 0 none none [] (by decide)
  have hlen1 : 0 < files.length := List.length_pos.mpr hnil
  unfold parseTar
  rw [hcru]
  have hflat := flatten_blocks_length now copts files
  have hm512 := tarDataSize_mod (files.map normFile)
  have hcnt := length_le_tarDataSize (files.map normFile)
  have hmul := tarDataSize_ge_mul (files.map normFile)
  have hcnt2 : files.length = (files.map normFile).length := by simp
  have hbsge := tarBufSize_ge (tarDataSize (files.map normFile))
  have hmm : tarDataSize (files.map normFile) % 10240 % 512 =
      tarDataSize (files.map normFile) % 512 :=
    Nat.mod_mod_of_dvd _ (by norm_num)
  have hlen : ((files.map (fun f => entryBlock now copts (normFile f))).flatten ++
      List.replicate (tarBufSize (tarDataSize (files.map normFile)) -
        tarDataSize (files.map normFile)) 0).length =
      tarBufSize (tarDataSize (files.map normFile)) := by
    simp only [List.length_append, List.length_replicate, hflat]
    omega
  rw [hlen]
  obtain ⟨fl2, hfl2⟩ : ∃ fl2, tarBufSize (tarDataSize (files.map normFile)) =
      fl2 + files.length := ⟨tarBufSize (tarDataSize (files.map normFile)) -
        files.length, by omega⟩
  have hstep := parseLoop_files now copts files
    ((files.map (fun f => entryBlock now copts (normFile f))).flatten ++
      List.replicate (tarBufSize (tarDataSize (files.map normFile)) -
        tarDataSize (files.map normFile)) 0)
    0
    (List.replicate (tarBufSize (tarDataSize (files.map normFile)) -
      tarDataSize (files.map normFile)) 0)
    [] (tarBufSize (tarDataSize (files.map normFile)))
    hg (by omega) (by rw [List.drop_zero])
    (by
      rcases hok with hm | hl
      · left
        simp only [List.length_replicate]
        unfold tarBufSize
        rw [if_pos hm]
        have h2 := Nat.div_add_mod (tarDataSize (files.map normFile)) 10240
        omega
      · exact Or.inr hl)
    (by omega)
  rw [show (0 : Int) = ((0 : Nat) : Int) from rfl, hstep]
  simp only [List.nil_append, Nat.zero_add]
  by_cases hcase : 512 < tarBufSize (tarDataSize (files.map normFile)) -
      tarDataSize (files.map normFile)
  · obtain ⟨fl3, hfl3⟩ : ∃ fl3, tarBufSize (tarDataSize (files.map normFile)) -
        files.length = fl3 + 1 := ⟨tarBufSize (tarDataSize (files.map normFile)) -
          files.length - 1, by omega⟩
    rw [hfl3]
    apply parseLoop_stopName
    · simp only [hlen]
      omega
    · have hd : ((files.map (fun f => entryBlock now copts (normFile f))).flatten ++
          List.replicate (tarBufSize (tarDataSize (files.map normFile)) -
            tarDataSize (files.map normFile)) 0).drop
          (tarDataSize (files.map normFile)) =
          List.replicate (tarBufSize (tarDataSize (files.map normFile)) -
            tarDataSize (files.map normFile)) 0 := by
        rw [show tarDataSize (files.map normFile) =
          ((files.map (fun f => entryBlock now copts (normFile f))).flatten).length
          from hflat.symm]
        exact List.drop_left _ _
      rw [show sliceAt ((files.map (fun f => entryBlock now copts (normFile f))).flatten ++
          List.replicate (tarBufSize (tarDataSize (files.map normFile)) -
            tarDataSize (files.map normFile)) 0)
          (tarDataSize (files.map normFile)) 100 =
          List.take 100 (List.replicate (tarBufSize (tarDataSize (files.map normFile)) -
            tarDataSize (files.map normFile)) 0) by
        unfold sliceAt
        rw [hd]]
      rw [List.take_replicate, takeWhile_ne_zero_replicate]
      rfl
  · obtain ⟨fl3, hfl3⟩ : ∃ fl3, tarBufSize (tarDataSize (files.map normFile)) -
        files.length = fl3 + 1 := ⟨tarBufSize (tarDataSize (files.map normFile)) -
          files.length - 1, by omega⟩
    rw [hfl3]
    apply parseLoop_stop
    simp only [hlen]
    have : tarBufSize (tarDataSize (files.map normFile)) ≤
        tarDataSize (files.map normFile) + 512 := by omega
    omega

theorem createTar_eq_flatten (now : Int) (copts : CreateTarOptions)
    (files : List TarFileInput) :
    createTar now files copts =
      (files.map (fun f => entryBlock now copts (normFile f))).flatten ++
        List.replicate (tarBufSize (tarDataSize (files.map normFile)) -
          tarDataSize (files.map normFile)) 0 := by
  unfold createTar
  simp only [List.map_map]
  rfl

theorem createTar_length (now : Int) (copts : CreateTarOptions)
    (files : List TarFileInput) :
    (createTar now files copts).length =
      tarBufSize (tarDataSize (files.map normFile)) := by
  rw [createTar_eq_flatten]
  have h1 := flatten_blocks_length now copts files
  have h2 := tarBufSize_ge (tarDataSize (files.map normFile))
  simp only [List.length_append, List.length_replicate, h1]
  omega

/-! ## Claim C1 -/

/-- The fixture entry used for the C1 witness and counterexample. -/
def c1file : TarFileInput :=
  { name := js "a.txt",
    data := some (.str (js "hi")),
    attrs := some
      { mode := some (js "664")
        uid := some 1000
        gid := some 1000
        mtime := some 1700000000000
        user := some []
        group := some [] } }

/-- C1 (corrected): for entries with fully specified, representable
attrs, parseTar of createTar returns one entry per input, in order, with
the same name, size, type and data bytes, provided the total entry size
is not an exact multiple of the 10240-byte flush unit or the final entry
has a nonempty payload; the decoded attrs are the codec images, not the
inputs verbatim: mode comes back zero-padded to seven characters, uid and
gid come back as the decimal reinterpretation of their octal digit
strings, and mtime comes back in seconds. -/
theorem claim_C1 (now : Int) (copts : CreateTarOptions)
    (files : List TarFileInput)
    (hg : ∀ f ∈ files, GoodEntry now copts f)
    (hok : tarDataSize (files.map normFile) % 10240 ≠ 0 ∨
      (∀ f', files.getLast? = some f' → 0 < (normFile f').size)) :
    parseTar (createTar now files copts) =
      .ok (files.map (roundTripItem now copts)) :=
  parse_createTar_eq now copts files hg hok

theorem claim_C1_witness :
    parseTar (createTar 0 [c1file] {}) =
      .ok (List.map (roundTripItem 0 {}) [c1file]) :=
  claim_C1 0 {} [c1file]
    (fun f hf => by
      simp only [List.mem_singleton] at hf
      subst hf
      exact ⟨by decide, by decide, by decide, by decide, by decide, by decide,
        by decide, by decide, by decide, by decide, by decide⟩)
    (Or.inl (by decide))

/-- The single entry c1file parses back to this item. -/
def c1parsed : ParsedTarItem :=
  { meta :=
      { name := js "a.txt"
        type := js "file"
        size := some 2
        attrs :=
          { ext := []
            mode := js "0000664"
            uid := some 1750
            gid := some 1750
            mtime := some 1700000000
            user := some []
            group := some [] } }
    data := some [104, 105] }

/-- A zero-payload entry: its block is a bare 512-byte header. -/
def dfile : TarFileInput := { name := js "d" }

theorem dirs_tds20 :
    tarDataSize (List.map normFile (List.replicate 20 dfile)) = 10240 := by
  rw [List.map_replicate]
  unfold tarDataSize
  rw [List.map_replicate, List.sum_replicate]
  decide

theorem dirs_tds19 :
    tarDataSize (List.map normFile (List.replicate 19 dfile)) = 9728 := by
  rw [List.map_replicate]
  unfold tarDataSize
  rw [List.map_replicate, List.sum_replicate]
  decide

theorem dirs_len20 :
    (createTar 0 (List.replicate 20 dfile) {}).length = 10240 := by
  rw [createTar_length, dirs_tds20]
  decide

theorem dirs_drop0 : (createTar 0 (List.replicate 20 dfile) {}).drop 0 =
    ((List.replicate 19 dfile).map
      (fun f => entryBlock 0 {} (normFile f))).flatten ++
      entryBlock 0 {} (normFile dfile) := by
  rw [List.drop_zero, createTar_eq_flatten, dirs_tds20]
  rw [show tarBufSize 10240 - 10240 = 0 from by decide]
  rw [show List.replicate 0 (0 : Nat) = [] from rfl, List.append_nil]
  rw [List.map_replicate, List.map_replicate]
  rw [show (20 : Nat) = 19 + 1 from rfl]
  rw [List.replicate_succ' 19 (entryBlock 0 {} (normFile dfile))]
  rw [List.flatten_append]
  rw [show ([entryBlock 0 {} (normFile dfile)] : List Bytes).flatten =
    entryBlock 0 {} (normFile dfile) ++ [] from rfl]
  rw [List.append_nil]

/-- Twenty zero-payload entries total exactly 10240 bytes: the last
header then sits exactly 512 bytes before the end, the loop bound skips
it, and only nineteen entries come back. -/
theorem parse_twenty_dirs :
    parseTar (createTar 0 (List.replicate 20 dfile) {}) =
      .ok (List.map (roundTripItem 0 {}) (List.replicate 19 dfile)) := by
  unfold parseTar
  rw [dirs_len20]
  nth_rewrite 2 [show (0 : Int) = ((0 : Nat) : Int) from rfl]
  rw [parseLoop_files 0 {} (List.replicate 19 dfile)
    (createTar 0 (List.replicate 20 dfile) {}) 0
    (entryBlock 0 {} (normFile dfile)) [] 10240
    (fun g hgmem => by
      have h := List.eq_of_mem_replicate hgmem
      subst h
      exact ⟨by decide, by decide, by decide, by decide, by decide, by decide,
        by decide, by decide, by decide, by decide, by decide⟩)
    (by omega)
    dirs_drop0
    (Or.inl (by rw [entryBlock_length]; decide))
    (by rw [List.length_replicate]; omega)]
  rw [List.length_replicate]
  simp only [List.nil_append]
  rw [parseLoop_stop (createTar 0 (List.replicate 20 dfile) {}) {} (10240 - 19)
    ((0 + tarDataSize (List.map normFile (List.replicate 19 dfile)) : Nat) : Int)
    none none
    (List.map (roundTripItem 0 {}) (List.replicate 19 dfile))
    (by
      rw [dirs_len20, dirs_tds19]
      decide)]

/-- The literal claim fails: a uid given as 1000 is parsed back as 1750
(the encoder writes it in octal, the parser reads it in decimal). -/
theorem claim_C1_counterexample :
    (parseTar (createTar 0 [c1file] {}) = .ok [c1parsed] ∧
     c1parsed.meta.attrs.uid = some 1750 ∧
     c1file.attrs.map TarFileAttrs.uid = some (some 1000)) ∧
    (parseTar (createTar 0 (List.replicate 20 dfile) {}) =
       .ok (List.map (roundTripItem 0 {}) (List.replicate 19 dfile)) ∧
     (List.replicate 20 dfile).length = 20 ∧
     (List.map (roundTripItem 0 {}) (List.replicate 19 dfile)).length = 19) := by
  refine ⟨⟨?_, by decide, by decide⟩, parse_twenty_dirs, by simp, by simp⟩
  rw [parse_createTar_eq 0 {} [c1file]
    (fun f hf => by
      simp only [List.mem_singleton] at hf
      subst hf
      exact ⟨by decide, by decide, by decide, by decide, by decide, by decide,
        by decide, by decide, by decide, by decide, by decide⟩)
    (Or.inl (by decide))]
  decide


/-! ## Claim C5 -/

/-- C5: the sanitizer applied by parseTar maps "../../etc/passwd" to
"etc/passwd", "/etc/shadow" to "etc/shadow", "C:/windows/system32" to
"windows/system32", "./../../../etc/passwd" to "./etc/passwd", and leaves
"./safe/path/file.txt" unchanged. -/
theorem claim_C5 :
    _sanitizePath (js "../../etc/passwd") = js "etc/passwd" ∧
    _sanitizePath (js "/etc/shadow") = js "etc/shadow" ∧
    _sanitizePath (js "C:/windows/system32") = js "windows/system32" ∧
    _sanitizePath (js "./../../../etc/passwd") = js "./etc/passwd" ∧
    _sanitizePath (js "./safe/path/file.txt") = js "./safe/path/file.txt" := by
  decide


/-! ## Slices of the test header -/

theorem tstSlice_name (name mode uid gid size mtime ty magic user group
    pfx : JSStr) (rest : Bytes) :
    sliceAt (mkTestHeader name mode uid gid size mtime ty magic user group pfx ++ rest) 0 100 =
      headerField name 100 := by
  rw [mkTestHeader]
  simp only [List.append_assoc]
  exact sliceAt_here (headerField name 100) _ 100 (by simp [headerField_length])

theorem tstSlice_mode (name mode uid gid size mtime ty magic user group
    pfx : JSStr) (rest : Bytes) :
    sliceAt (mkTestHeader name mode uid gid size mtime ty magic user group pfx ++ rest) 100 8 =
      headerField mode 8 := by
  rw [mkTestHeader]
  simp only [List.append_assoc]
  rw [sliceAt_peel (headerField name 100) _ 100 8 100 (by simp [headerField_length]) (by norm_num)]
  rw [show (100 - 100 : Nat) = 0 from rfl]
  exact sliceAt_here (headerField mode 8) _ 8 (by simp [headerField_length])

theorem tstSlice_uid (name mode uid gid size mtime ty magic user group
    pfx : JSStr) (rest : Bytes) :
    sliceAt (mkTestHeader name mode uid gid size mtime ty magic user group pfx ++ rest) 108 8 =
      headerField uid 8 := by
  rw [mkTestHeader]
  simp only [List.append_assoc]
  rw [sliceAt_peel (headerField name 100) _ 108 8 100 (by simp [headerField_length]) (by norm_num)]
  rw [show (108 - 100 : Nat) = 8 from rfl]
  rw [sliceAt_peel (headerField mode 8) _ 8 8 8 (by simp [headerField_length]) (by norm_num)]
  rw [show (8 - 8 : Nat) = 0 from rfl]
  exact sliceAt_here (headerField uid 8) _ 8 (by simp [headerField_length])

theorem tstSlice_gid (name mode uid gid size mtime ty magic user group
    pfx : JSStr) (rest : Bytes) :
    sliceAt (mkTestHeader name mode uid gid size mtime ty magic user group pfx ++ rest) 116 8 =
      headerField gid 8 := by
  rw [mkTestHeader]
  simp only [List.append_assoc]
  rw [sliceAt_peel (headerField name 100) _ 116 8 100 (by simp [headerField_length]) (by norm_num)]
  rw [show (116 - 100 : Nat) = 16 from rfl]
  rw [sliceAt_peel (headerField mode 8) _ 16 8 8 (by simp [headerField_length]) (by norm_num)]
  rw [show (16 - 8 : Nat) = 8 from rfl]
  rw [sliceAt_peel (headerField uid 8) _ 8 8 8 (by simp [headerField_length]) (by norm_num)]
  rw [show (8 - 8 : Nat) = 0 from rfl]
  exact sliceAt_here (headerField gid 8) _ 8 (by simp [headerField_length])

theorem tstSlice_size (name mode uid gid size mtime ty magic user group
    pfx : JSStr) (rest : Bytes) :
    sliceAt (mkTestHeader name mode uid gid size mtime ty magic user group pfx ++ rest) 124 12 =
      headerField size 12 := by
  rw [mkTestHeader]
  simp only [List.append_assoc]
  rw [sliceAt_peel (headerField name 100) _ 124 12 100 (by simp [headerField_length]) (by norm_num)]
  rw [show (124 - 100 : Nat) = 24 from rfl]
  rw [sliceAt_peel (headerField mode 8) _ 24 12 8 (by simp [headerField_length]) (by norm_num)]
  rw [show (24 - 8 : Nat) = 16 from rfl]
  rw [sliceAt_peel (headerField uid 8) _ 16 12 8 (by simp [headerField_length]) (by norm_num)]
  rw [show (16 - 8 : Nat) = 8 from rfl]
  rw [sliceAt_peel (headerField gid 8) _ 8 12 8 (by simp [headerField_length]) (by norm_num)]
  rw [show (8 - 8 : Nat) = 0 from rfl]
  exact sliceAt_here (headerField size 12) _ 12 (by simp [headerField_length])

theorem tstSlice_mtime (name mode uid gid size mtime ty magic user group
    pfx : JSStr) (rest : Bytes) :
    sliceAt (mkTestHeader name mode uid gid size mtime ty magic user group pfx ++ rest) 136 12 =
      headerField mtime 12 := by
  rw [mkTestHeader]
  simp only [List.append_assoc]
  rw [sliceAt_peel (headerField name 100) _ 136 12 100 (by simp [headerField_length]) (by norm_num)]
  rw [show (136 - 100 : Nat) = 36 from rfl]
  rw [sliceAt_peel (headerField mode 8) _ 36 12 8 (by simp [headerField_length]) (by norm_num)]
  rw [show (36 - 8 : Nat) = 28 from rfl]
  rw [sliceAt_peel (headerField uid 8) _ 28 12 8 (by simp [headerField_length]) (by norm_num)]
  rw [show (28 - 8 : Nat) = 20 from rfl]
  rw [sliceAt_peel (headerField gid 8) _ 20 12 8 (by simp [headerField_length]) (by norm_num)]
  rw [show (20 - 8 : Nat) = 12 from rfl]
  rw [sliceAt_peel (headerField size 12) _ 12 12 12 (by simp [headerField_length]) (by norm_num)]
  rw [show (12 - 12 : Nat) = 0 from rfl]
  exact sliceAt_here (headerField mtime 12) _ 12 (by simp [headerField_length])

theorem tstSlice_ty (name mode uid gid size mtime ty magic user group
    pfx : JSStr) (rest : Bytes) :
    sliceAt (mkTestHeader name mode uid gid size mtime ty magic user group pfx ++ rest) 156 1 =
      headerField ty 1 := by
  rw [mkTestHeader]
  simp only [List.append_assoc]
  rw [sliceAt_peel (headerField name 100) _ 156 1 100 (by simp [headerField_length]) (by norm_num)]
  rw [show (156 - 100 : Nat) = 56 from rfl]
  rw [sliceAt_peel (headerField mode 8) _ 56 1 8 (by simp [headerField_length]) (by norm_num)]
  rw [show (56 - 8 : Nat) = 48 from rfl]
  rw [sliceAt_peel (headerField uid 8) _ 48 1 8 (by simp [headerField_length]) (by norm_num)]
  rw [show (48 - 8 : Nat) = 40 from rfl]
  rw [sliceAt_peel (headerField gid 8) _ 40 1 8 (by simp [headerField_length]) (by norm_num)]
  rw [show (40 - 8 : Nat) = 32 from rfl]
  rw [sliceAt_peel (headerField size 12) _ 32 1 12 (by simp [headerField_length]) (by norm_num)]
  rw [show (32 - 12 : Nat) = 20 from rfl]
  rw [sliceAt_peel (headerField mtime 12) _ 20 1 12 (by simp [headerField_length]) (by norm_num)]
  rw [show (20 - 12 : Nat) = 8 from rfl]
  rw [sliceAt_peel (List.replicate 8 0) _ 8 1 8 (by simp) (by norm_num)]
  rw [show (8 - 8 : Nat) = 0 from rfl]
  exact sliceAt_here (headerField ty 1) _ 1 (by simp [headerField_length])

theorem tstSlice_magic (name mode uid gid size mtime ty magic user group
    pfx : JSStr) (rest : Bytes) :
    sliceAt (mkTestHeader name mode uid gid size mtime ty magic user group pfx ++ rest) 257 6 =
      headerField magic 6 := by
  rw [mkTestHeader]
  simp only [List.append_assoc]
  rw [sliceAt_peel (headerField name 100) _ 257 6 100 (by simp [headerField_length]) (by norm_num)]
  rw [show (257 - 100 : Nat) = 157 from rfl]
  rw [sliceAt_peel (headerField mode 8) _ 157 6 8 (by simp [headerField_length]) (by norm_num)]
  rw [show (157 - 8 : Nat) = 149 from rfl]
  rw [sliceAt_peel (headerField uid 8) _ 149 6 8 (by simp [headerField_length]) (by norm_num)]
  rw [show (149 - 8 : Nat) = 141 from rfl]
  rw [sliceAt_peel (headerField gid 8) _ 141 6 8 (by simp [headerField_length]) (by norm_num)]
  rw [show (141 - 8 : Nat) = 133 from rfl]
  rw [sliceAt_peel (headerField size 12) _ 133 6 12 (by simp [headerField_length]) (by norm_num)]
  rw [show (133 - 12 : Nat) = 121 from rfl]
  rw [sliceAt_peel (headerField mtime 12) _ 121 6 12 (by simp [headerField_length]) (by norm_num)]
  rw [show (121 - 12 : Nat) = 109 from rfl]
  rw [sliceAt_peel (List.replicate 8 0) _ 109 6 8 (by simp) (by norm_num)]
  rw [show (109 - 8 : Nat) = 101 from rfl]
  rw [sliceAt_peel (headerField ty 1) _ 101 6 1 (by simp [headerField_length]) (by norm_num)]
  rw [show (101 - 1 : Nat) = 100 from rfl]
  rw [sliceAt_peel (List.replicate 100 0) _ 100 6 100 (by simp) (by norm_num)]
  rw [show (100 - 100 : Nat) = 0 from rfl]
  exact sliceAt_here (headerField magic 6) _ 6 (by simp [headerField_length])

theorem tstSlice_user (name mode uid gid size mtime ty magic user group
    pfx : JSStr) (rest : Bytes) :
    sliceAt (mkTestHeader name mode uid gid size mtime ty magic user group pfx ++ rest) 265 32 =
      headerField user 32 := by
  rw [mkTestHeader]
  simp only [List.append_assoc]
  rw [sliceAt_peel (headerField name 100) _ 265 32 100 (by simp [headerField_length]) (by norm_num)]
  rw [show (265 - 100 : Nat) = 165 from rfl]
  rw [sliceAt_peel (headerField mode 8) _ 165 32 8 (by simp [headerField_length]) (by norm_num)]
  rw [show (165 - 8 : Nat) = 157 from rfl]
  rw [sliceAt_peel (headerField uid 8) _ 157 32 8 (by simp [headerField_length]) (by norm_num)]
  rw [show (157 - 8 : Nat) = 149 from rfl]
  rw [sliceAt_peel (headerField gid 8) _ 149 32 8 (by simp [headerField_length]) (by norm_num)]
  rw [show (149 - 8 : Nat) = 141 from rfl]
  rw [sliceAt_peel (headerField size 12) _ 141 32 12 (by simp [headerField_length]) (by norm_num)]
  rw [show (141 - 12 : Nat) = 129 from rfl]
  rw [sliceAt_peel (headerField mtime 12) _ 129 32 12 (by simp [headerField_length]) (by norm_num)]
  rw [show (129 - 12 : Nat) = 117 from rfl]
  rw [sliceAt_peel (List.replicate 8 0) _ 117 32 8 (by simp) (by norm_num)]
  rw [show (117 - 8 : Nat) = 109 from rfl]
  rw [sliceAt_peel (headerField ty 1) _ 109 32 1 (by simp [headerField_length]) (by norm_num)]
  rw [show (109 - 1 : Nat) = 108 from rfl]
  rw [sliceAt_peel (List.replicate 100 0) _ 108 32 100 (by simp) (by norm_num)]
  rw [show (108 - 100 : Nat) = 8 from rfl]
  rw [sliceAt_peel (headerField magic 6) _ 8 32 6 (by simp [headerField_length]) (by norm_num)]
  rw [show (8 - 6 : Nat) = 2 from rfl]
  rw [sliceAt_peel (List.replicate 2 0) _ 2 32 2 (by simp) (by norm_num)]
  rw [show (2 - 2 : Nat) = 0 from rfl]
  exact sliceAt_here (headerField user 32) _ 32 (by simp [headerField_length])

theorem tstSlice_group (name mode uid gid size mtime ty magic user group
    pfx : JSStr) (rest : Bytes) :
    sliceAt (mkTestHeader name mode uid gid size mtime ty magic user group pfx ++ rest) 297 32 =
      headerField group 32 := by
  rw [mkTestHeader]
  simp only [List.append_assoc]
  rw [sliceAt_peel (headerField name 100) _ 297 32 100 (by simp [headerField_length]) (by norm_num)]
  rw [show (297 - 100 : Nat) = 197 from rfl]
  rw [sliceAt_peel (headerField mode 8) _ 197 32 8 (by simp [headerField_length]) (by norm_num)]
  rw [show (197 - 8 : Nat) = 189 from rfl]
  rw [sliceAt_peel (headerField uid 8) _ 189 32 8 (by simp [headerField_length]) (by norm_num)]
  rw [show (189 - 8 : Nat) = 181 from rfl]
  rw [sliceAt_peel (headerField gid 8) _ 181 32 8 (by simp [headerField_length]) (by norm_num)]
  rw [show (181 - 8 : Nat) = 173 from rfl]
  rw [sliceAt_peel (headerField size 12) _ 173 32 12 (by simp [headerField_length]) (by norm_num)]
  rw [show (173 - 12 : Nat) = 161 from rfl]
  rw [sliceAt_peel (headerField mtime 12) _ 161 32 12 (by simp [headerField_length]) (by norm_num)]
  rw [show (161 - 12 : Nat) = 149 from rfl]
  rw [sliceAt_peel (List.replicate 8 0) _ 149 32 8 (by simp) (by norm_num)]
  rw [show (149 - 8 : Nat) = 141 from rfl]
  rw [sliceAt_peel (headerField ty 1) _ 141 32 1 (by simp [headerField_length]) (by norm_num)]
  rw [show (141 - 1 : Nat) = 140 from rfl]
  rw [sliceAt_peel (List.replicate 100 0) _ 140 32 100 (by simp) (by norm_num)]
  rw [show (140 - 100 : Nat) = 40 from rfl]
  rw [sliceAt_peel (headerField magic 6) _ 40 32 6 (by simp [headerField_length]) (by norm_num)]
  rw [show (40 - 6 : Nat) = 34 from rfl]
  rw [sliceAt_peel (List.replicate 2 0) _ 34 32 2 (by simp) (by norm_num)]
  rw [show (34 - 2 : Nat) = 32 from rfl]
  rw [sliceAt_peel (headerField user 32) _ 32 32 32 (by simp [headerField_length]) (by norm_num)]
  rw [show (32 - 32 : Nat) = 0 from rfl]
  exact sliceAt_here (headerField group 32) _ 32 (by simp [headerField_length])

theorem tstSlice_pfx (name mode uid gid size mtime ty magic user group
    pfx : JSStr) (rest : Bytes) :
    sliceAt (mkTestHeader name mode uid gid size mtime ty magic user group pfx ++ rest) 345 155 =
      headerField pfx 155 := by
  rw [mkTestHeader]
  simp only [List.append_assoc]
  rw [sliceAt_peel (headerField name 100) _ 345 155 100 (by simp [headerField_length]) (by norm_num)]
  rw [show (345 - 100 : Nat) = 245 from rfl]
  rw [sliceAt_peel (headerField mode 8) _ 245 155 8 (by simp [headerField_length]) (by norm_num)]
  rw [show (245 - 8 : Nat) = 237 from rfl]
  rw [sliceAt_peel (headerField uid 8) _ 237 155 8 (by simp [headerField_length]) (by norm_num)]
  rw [show (237 - 8 : Nat) = 229 from rfl]
  rw [sliceAt_peel (headerField gid 8) _ 229 155 8 (by simp [headerField_length]) (by norm_num)]
  rw [show (229 - 8 : Nat) = 221 from rfl]
  rw [sliceAt_peel (headerField size 12) _ 221 155 12 (by simp [headerField_length]) (by norm_num)]
  rw [show (221 - 12 : Nat) = 209 from rfl]
  rw [sliceAt_peel (headerField mtime 12) _ 209 155 12 (by simp [headerField_length]) (by norm_num)]
  rw [show (209 - 12 : Nat) = 197 from rfl]
  rw [sliceAt_peel (List.replicate 8 0) _ 197 155 8 (by simp) (by norm_num)]
  rw [show (197 - 8 : Nat) = 189 from rfl]
  rw [sliceAt_peel (headerField ty 1) _ 189 155 1 (by simp [headerField_length]) (by norm_num)]
  rw [show (189 - 1 : Nat) = 188 from rfl]
  rw [sliceAt_peel (List.replicate 100 0) _ 188 155 100 (by simp) (by norm_num)]
  rw [show (188 - 100 : Nat) = 88 from rfl]
  rw [sliceAt_peel (headerField magic 6) _ 88 155 6 (by simp [headerField_length]) (by norm_num)]
  rw [show (88 - 6 : Nat) = 82 from rfl]
  rw [sliceAt_peel (List.replicate 2 0) _ 82 155 2 (by simp) (by norm_num)]
  rw [show (82 - 2 : Nat) = 80 from rfl]
  rw [sliceAt_peel (headerField user 32) _ 80 155 32 (by simp [headerField_length]) (by norm_num)]
  rw [show (80 - 32 : Nat) = 48 from rfl]
  rw [sliceAt_peel (headerField group 32) _ 48 155 32 (by simp [headerField_length]) (by norm_num)]
  rw [show (48 - 32 : Nat) = 16 from rfl]
  rw [sliceAt_peel (List.replicate 16 0) _ 16 155 16 (by simp) (by norm_num)]
  rw [show (16 - 16 : Nat) = 0 from rfl]
  exact sliceAt_here (headerField pfx 155) _ 155 (by simp [headerField_length])


theorem mkTestHeader_length (name mode uid gid size mtime ty magic user group
    pfx : JSStr) :
    (mkTestHeader name mode uid gid size mtime ty magic user group pfx).length
      = 512 := by
  simp [mkTestHeader, headerField_length]

/-- Parsing a 1024-byte buffer whose first 512 bytes decode as an ordinary
header: one item is produced and the loop stops at the trailing block. -/
theorem parse_single_block (buf : Bytes)
    (name0 mode0 uid0 gid0 ty0 magic0 user0 group0 pfx0 : JSStr)
    (sz : Int) (mt : Option Int) (tyv : JSStr)
    (hlen : buf.length = 1024)
    (hname : utf8Decode ((sliceAt buf 0 100).takeWhile (fun b => b != 0)) = name0)
    (hname0 : name0 ≠ [])
    (hmode : utf8Decode ((sliceAt buf 100 8).takeWhile (fun b => b != 0)) = mode0)
    (huid : utf8Decode ((sliceAt buf 108 8).takeWhile (fun b => b != 0)) = uid0)
    (hgid : utf8Decode ((sliceAt buf 116 8).takeWhile (fun b => b != 0)) = gid0)
    (hsize : jsParseIntRadix 8 (sliceAt buf 124 12) = some sz)
    (hsz : 0 ≤ sz)
    (hmtime : jsParseIntRadix 8 (sliceAt buf 136 12) = mt)
    (hty : utf8Decode ((sliceAt buf 156 1).takeWhile (fun b => b != 0)) = ty0)
    (htyv : (tarItemTypeMap (if ty0 = [] then js "0" else ty0)).getD
      (if ty0 = [] then js "0" else ty0) = tyv)
    (hord : tyv ≠ js "extendedHeader" ∧ tyv ≠ js "globalExtendedHeader" ∧
      tyv ≠ js "gnuLongFileName" ∧ tyv ≠ js "gnuOldLongFileName" ∧
      tyv ≠ js "gnuLongLinkName")
    (hmagic : utf8Decode ((sliceAt buf 257 6).takeWhile (fun b => b != 0)) = magic0)
    (huser : utf8Decode ((sliceAt buf 265 32).takeWhile (fun b => b != 0)) = user0)
    (hgroup : utf8Decode ((sliceAt buf 297 32).takeWhile (fun b => b != 0)) = group0)
    (hpfx : utf8Decode ((sliceAt buf 345 155).takeWhile (fun b => b != 0)) = pfx0)
    (hdata : 512 + sz.toNat ≤ 1024) :
    parseTar buf = .ok [mkOrdItem none none name0 mode0 uid0 gid0 sz mt tyv
      magic0 user0 group0 pfx0 (sliceAt buf 512 sz.toNat)] := by
  unfold parseTar
  rw [hlen]
  rw [show (0 : Int) = ((0 : Nat) : Int) from rfl]
  have hstep := parseLoop_ordStep buf 1024 0 none none []
    name0 mode0 uid0 gid0 ty0 magic0 user0 group0 pfx0 sz mt tyv
    (by omega) hname hname0 hmode huid hgid hsize hsz hmtime hty htyv hord
    hmagic huser hgroup hpfx (by omega)
  rw [hstep]
  simp only [List.nil_append]
  exact parseLoop_stop buf {} 1023 _ none none _ (by rw [hlen]; omega)


theorem mkOrdItem_data_irrel (nE gE : Option JsRec)
    (n m u g ty mg us gr pf : JSStr) (mt : Option Int) (d1 d2 : Bytes) :
    mkOrdItem nE gE n m u g 0 mt ty mg us gr pf d1 =
      mkOrdItem nE gE n m u g 0 mt ty mg us gr pf d2 := by
  simp [mkOrdItem]

/-! ## Claim C10 -/

/-- A 1024-byte archive: one header with a given type flag field, a zero
size field, and an empty trailing block. -/
def c10buf (ty name mode uid gid mtime magic user group pfx : JSStr) : Bytes :=
  mkTestHeader name mode uid gid (js "0") mtime ty magic user group pfx ++
    List.replicate 512 0

/-- C10: a header whose type-flag byte is NUL (the field decodes to the
empty string) parses to an entry of type "file", with exactly the same
result as an explicit ASCII '0' flag. -/
theorem claim_C10 (name mode uid gid mtime magic user group pfx : JSStr)
    (hname : GoodStr name 100) (hname0 : name ≠ []) :
    ∃ it : ParsedTarItem,
      parseTar (c10buf [] name mode uid gid mtime magic user group pfx) =
        .ok [it] ∧
      parseTar (c10buf (js "0") name mode uid gid mtime magic user group pfx) =
        .ok [it] ∧
      it.meta.type = js "file" := by
  refine ⟨mkOrdItem none none name
      (utf8Decode ((headerField mode 8).takeWhile (fun b => b != 0)))
      (utf8Decode ((headerField uid 8).takeWhile (fun b => b != 0)))
      (utf8Decode ((headerField gid 8).takeWhile (fun b => b != 0)))
      (0 : Int) (jsParseIntRadix 8 (headerField mtime 12)) (js "file")
      (utf8Decode ((headerField magic 6).takeWhile (fun b => b != 0)))
      (utf8Decode ((headerField user 32).takeWhile (fun b => b != 0)))
      (utf8Decode ((headerField group 32).takeWhile (fun b => b != 0)))
      (utf8Decode ((headerField pfx 155).takeWhile (fun b => b != 0)))
      (sliceAt (c10buf [] name mode uid gid mtime magic user group pfx) 512
        ((0 : Int).toNat)),
    ?_, ?_, ?_⟩
  · exact parse_single_block _ name _ _ _ [] _ _ _ _ (0 : Int) _ (js "file")
      (by simp [c10buf, mkTestHeader_length])
      (by unfold c10buf; rw [tstSlice_name]; exact read_headerField _ _ hname)
      hname0
      (by unfold c10buf; rw [tstSlice_mode])
      (by unfold c10buf; rw [tstSlice_uid])
      (by unfold c10buf; rw [tstSlice_gid])
      (by unfold c10buf; rw [tstSlice_size]; decide)
      (by decide)
      (by unfold c10buf; rw [tstSlice_mtime])
      (by unfold c10buf; rw [tstSlice_ty]; decide)
      (by decide) (by decide)
      (by unfold c10buf; rw [tstSlice_magic])
      (by unfold c10buf; rw [tstSlice_user])
      (by unfold c10buf; rw [tstSlice_group])
      (by unfold c10buf; rw [tstSlice_pfx])
      (by decide)
  · rw [parse_single_block _ name
      (utf8Decode ((headerField mode 8).takeWhile (fun b => b != 0)))
      (utf8Decode ((headerField uid 8).takeWhile (fun b => b != 0)))
      (utf8Decode ((headerField gid 8).takeWhile (fun b => b != 0)))
      (js "0")
      (utf8Decode ((headerField magic 6).takeWhile (fun b => b != 0)))
      (utf8Decode ((headerField user 32).takeWhile (fun b => b != 0)))
      (utf8Decode ((headerField group 32).takeWhile (fun b => b != 0)))
      (utf8Decode ((headerField pfx 155).takeWhile (fun b => b != 0)))
      (0 : Int) (jsParseIntRadix 8 (headerField mtime 12)) (js "file")
      (by simp [c10buf, mkTestHeader_length])
      (by unfold c10buf; rw [tstSlice_name]; exact read_headerField _ _ hname)
      hname0
      (by unfold c10buf; rw [tstSlice_mode])
      (by unfold c10buf; rw [tstSlice_uid])
      (by unfold c10buf; rw [tstSlice_gid])
      (by unfold c10buf; rw [tstSlice_size]; decide)
      (by decide)
      (by unfold c10buf; rw [tstSlice_mtime])
      (by unfold c10buf; rw [tstSlice_ty]; decide)
      (by decide) (by decide)
      (by unfold c10buf; rw [tstSlice_magic])
      (by unfold c10buf; rw [tstSlice_user])
      (by unfold c10buf; rw [tstSlice_group])
      (by unfold c10buf; rw [tstSlice_pfx])
      (by decide)]
    rw [mkOrdItem_data_irrel none none name
      (utf8Decode ((headerField mode 8).takeWhile (fun b => b != 0)))
      (utf8Decode ((headerField uid 8).takeWhile (fun b => b != 0)))
      (utf8Decode ((headerField gid 8).takeWhile (fun b => b != 0)))
      (js "file")
      (utf8Decode ((headerField magic 6).takeWhile (fun b => b != 0)))
      (utf8Decode ((headerField user 32).takeWhile (fun b => b != 0)))
      (utf8Decode ((headerField group 32).takeWhile (fun b => b != 0)))
      (utf8Decode ((headerField pfx 155).takeWhile (fun b => b != 0)))
      (jsParseIntRadix 8 (headerField mtime 12))
      (sliceAt (c10buf (js "0") name mode uid gid mtime magic user group pfx)
        512 ((0 : Int).toNat))
      (sliceAt (c10buf [] name mode uid gid mtime magic user group pfx)
        512 ((0 : Int).toNat))]
  · rfl

theorem claim_C10_witness :
    GoodStr (js "f") 100 ∧ js "f" ≠ [] ∧
    ∃ it : ParsedTarItem,
      parseTar (c10buf [] (js "f") [] [] [] [] [] [] [] []) = .ok [it] ∧
      parseTar (c10buf (js "0") (js "f") [] [] [] [] [] [] [] []) = .ok [it] ∧
      it.meta.type = js "file" :=
  ⟨by decide, by decide,
    claim_C10 (js "f") [] [] [] [] [] [] [] [] (by decide) (by decide)⟩


/-! ## Claim C9 -/

/-- A 1024-byte archive: one ordinary header with the given magic field
and a populated prefix field, zero size. -/
def c9buf (name mode uid gid mtime magic user group pfx : JSStr) : Bytes :=
  mkTestHeader name mode uid gid (js "0") mtime (js "0") magic user group pfx ++
    List.replicate 512 0

/-- C9: when the magic field decodes to anything other than "ustar", the
parsed entry has attrs.user and attrs.group undefined and the prefix
field is not joined to the name (the name is just the sanitized base
name), whatever the user, group and prefix fields hold. -/
theorem claim_C9 (name mode uid gid mtime magic user group pfx : JSStr)
    (hname : GoodStr name 100) (hname0 : name ≠ [])
    (hmagic : GoodStr magic 6) (hne : magic ≠ js "ustar") :
    ∃ it : ParsedTarItem,
      parseTar (c9buf name mode uid gid mtime magic user group pfx) =
        .ok [it] ∧
      it.meta.attrs.user = none ∧ it.meta.attrs.group = none ∧
      it.meta.name = _sanitizePath name := by
  refine ⟨mkOrdItem none none name
      (utf8Decode ((headerField mode 8).takeWhile (fun b => b != 0)))
      (utf8Decode ((headerField uid 8).takeWhile (fun b => b != 0)))
      (utf8Decode ((headerField gid 8).takeWhile (fun b => b != 0)))
      (0 : Int) (jsParseIntRadix 8 (headerField mtime 12)) (js "file")
      magic
      (utf8Decode ((headerField user 32).takeWhile (fun b => b != 0)))
      (utf8Decode ((headerField group 32).takeWhile (fun b => b != 0)))
      (utf8Decode ((headerField pfx 155).takeWhile (fun b => b != 0)))
      (sliceAt (c9buf name mode uid gid mtime magic user group pfx) 512
        ((0 : Int).toNat)),
    ?_, ?_, ?_, ?_⟩
  · exact parse_single_block _ name _ _ _ (js "0") magic _ _ _ (0 : Int) _
      (js "file")
      (by simp [c9buf, mkTestHeader_length])
      (by unfold c9buf; rw [tstSlice_name]; exact read_headerField _ _ hname)
      hname0
      (by unfold c9buf; rw [tstSlice_mode])
      (by unfold c9buf; rw [tstSlice_uid])
      (by unfold c9buf; rw [tstSlice_gid])
      (by unfold c9buf; rw [tstSlice_size]; decide)
      (by decide)
      (by unfold c9buf; rw [tstSlice_mtime])
      (by unfold c9buf; rw [tstSlice_ty]; decide)
      (by decide) (by decide)
      (by unfold c9buf; rw [tstSlice_magic]; exact read_headerField _ _ hmagic)
      (by unfold c9buf; rw [tstSlice_user])
      (by unfold c9buf; rw [tstSlice_group])
      (by unfold c9buf; rw [tstSlice_pfx])
      (by decide)
  · simp only [mkOrdItem]
    rw [if_neg hne]
  · simp only [mkOrdItem]
    rw [if_neg hne]
  · simp only [mkOrdItem]
    rw [if_neg hne]
    rfl

theorem claim_C9_witness :
    GoodStr (js "f") 100 ∧ js "f" ≠ [] ∧ GoodStr (js "bogus") 6 ∧
    js "bogus" ≠ js "ustar" ∧
    ∃ it : ParsedTarItem,
      parseTar (c9buf (js "f") [] [] [] [] (js "bogus") (js "u") (js "g")
        (js "p")) = .ok [it] ∧
      it.meta.attrs.user = none ∧ it.meta.attrs.group = none ∧
      it.meta.name = _sanitizePath (js "f") :=
  ⟨by decide, by decide, by decide, by decide,
    claim_C9 (js "f") [] [] [] [] (js "bogus") (js "u") (js "g") (js "p")
      (by decide) (by decide) (by decide) (by decide)⟩


/-! ## Claim C8 -/

theorem encodeIntoBytes_extend (s : JSStr) (size : Nat) :
    ∃ t, utf8Encode s = encodeIntoBytes s size ++ t := by
  induction s generalizing size with
  | nil => exact ⟨[], by simp [utf8Encode, encodeIntoBytes]⟩
  | cons c cs ih =>
    have henc : utf8Encode (c :: cs) = utf8EncodeChar c ++ utf8Encode cs := by
      simp [utf8Encode]
    by_cases hfit : (utf8EncodeChar c).length ≤ size
    · obtain ⟨t, ht⟩ := ih (size - (utf8EncodeChar c).length)
      refine ⟨t, ?_⟩
      rw [henc, ht]
      simp only [encodeIntoBytes]
      rw [if_pos hfit]
      simp [List.append_assoc]
    · refine ⟨utf8Encode (c :: cs), ?_⟩
      simp only [encodeIntoBytes]
      rw [if_neg hfit]
      simp

/-- C8: when the UTF-8 encoding of an entry name exceeds 100 bytes,
createTar stores only the longest prefix of whole code-point encodings
that fits the 100-byte name field (zero padded), and emits no extra
record of any kind: the archive consists of exactly the one entry block
(with an ordinary file/directory type flag) plus zero padding. -/
theorem claim_C8 (now : Int) (copts : CreateTarOptions) (f : TarFileInput)
    (hlong : 100 < utf8Len f.name) :
    sliceAt (createTar now [f] copts) 0 100 =
      encodeIntoBytes f.name 100 ++
        List.replicate (100 - (encodeIntoBytes f.name 100).length) 0 ∧
    (∃ t, t ≠ [] ∧ utf8Encode f.name = encodeIntoBytes f.name 100 ++ t) ∧
    (createTar now [f] copts).length =
      tarBufSize (512 + align512 (normFile f).size) ∧
    sliceAt (createTar now [f] copts) 156 1 =
      headerField (if (normFile f).isDir then js "5" else js "0") 1 := by
  have hcru : createTar now [f] copts =
      entryBlock now copts (normFile f) ++
        List.replicate (tarBufSize (512 + align512 (normFile f).size) -
          (512 + align512 (normFile f).size)) 0 := by
    unfold createTar
    simp [tarDataSize]
  obtain ⟨ck, hckl, hEB⟩ :
      ∃ ck : Bytes, ck.length = 8 ∧
        entryBlock now copts (normFile f) =
          tarHeaderPre now copts (normFile f) ck ++
            (match (normFile f).data with
              | none => []
              | some d => d ++ List.replicate (align512 d.length - d.length) 0) :=
    ⟨headerField (natDigits 8
        ((tarHeaderPre now copts (normFile f) (List.replicate 8 32)).sum)) 8,
      headerField_length _ _, by unfold entryBlock; rw [tarHeader_eq]⟩
  refine ⟨?_, ?_, ?_, ?_⟩
  · rw [hcru, hEB, List.append_assoc]
    rw [hdrSlice_name now copts (normFile f) ck _ hckl]
    rfl
  · obtain ⟨t, ht⟩ := encodeIntoBytes_extend f.name 100
    refine ⟨t, ?_, ht⟩
    intro ht0
    subst ht0
    have h1 := encodeIntoBytes_length_le f.name 100
    have h2 : utf8Len f.name = (encodeIntoBytes f.name 100).length := by
      unfold utf8Len
      rw [ht]
      simp
    omega
  · rw [hcru]
    simp only [List.length_append, List.length_replicate, entryBlock_length]
    have := tarBufSize_ge (512 + align512 (normFile f).size)
    omega
  · rw [hcru, hEB, List.append_assoc]
    rw [hdrSlice_type now copts (normFile f) ck _ hckl]

theorem claim_C8_witness :
    100 < utf8Len (List.replicate 101 97) ∧
    (sliceAt (createTar 0 [{ name := List.replicate 101 97 }] {}) 0 100 =
      encodeIntoBytes (List.replicate 101 97) 100 ++
        List.replicate
          (100 - (encodeIntoBytes (List.replicate 101 97) 100).length) 0 ∧
    (∃ t, t ≠ [] ∧ utf8Encode (List.replicate 101 97) =
      encodeIntoBytes (List.replicate 101 97) 100 ++ t) ∧
    (createTar 0 [{ name := List.replicate 101 97 }] {}).length =
      tarBufSize (512 + align512 (normFile { name := List.replicate 101 97 }).size) ∧
    sliceAt (createTar 0 [{ name := List.replicate 101 97 }] {}) 156 1 =
      headerField
        (if (normFile { name := List.replicate 101 97 }).isDir then js "5"
         else js "0") 1) :=
  ⟨by decide, claim_C8 0 {} { name := List.replicate 101 97 } (by decide)⟩


/-! ## Claim C2 -/

/-- C2 (corrected): when an ordinary entry's parsed size field implies a
payload span extending past the end of the buffer, parseTar does not
return gracefully: the payload view construction throws a RangeError. -/
theorem claim_C2 (name mode uid gid szf mtime magic user group pfx : JSStr)
    (hname : GoodStr name 100) (hname0 : name ≠ [])
    (sz : Int)
    (hszparse : jsParseIntRadix 8 (headerField szf 12) = some sz)
    (hsz : 0 ≤ sz)
    (hover : 1024 < 512 + sz.toNat) :
    parseTar (mkTestHeader name mode uid gid szf mtime (js "0") magic user
      group pfx ++ List.replicate 512 0) = .error .range := by
  have hlen : (mkTestHeader name mode uid gid szf mtime (js "0") magic user
      group pfx ++ List.replicate 512 0).length = 1024 := by
    simp [mkTestHeader_length]
  unfold parseTar
  rw [hlen]
  rw [show (0 : Int) = ((0 : Nat) : Int) from rfl]
  exact parseLoop_ordOverflow _ 1024 0 none none [] name (js "0") sz (js "file")
    (by omega)
    (by rw [tstSlice_name]; exact read_headerField _ _ hname)
    hname0
    (by rw [tstSlice_size]; exact hszparse)
    hsz
    (by rw [tstSlice_ty]; decide)
    (by decide) (by decide)
    (by omega)

theorem claim_C2_witness :
    GoodStr (js "f") 100 ∧ js "f" ≠ [] ∧
    jsParseIntRadix 8 (headerField (js "777777") 12) = some 262143 ∧
    (0 : Int) ≤ 262143 ∧ 1024 < 512 + (262143 : Int).toNat ∧
    parseTar (mkTestHeader (js "f") [] [] [] (js "777777") [] (js "0") [] []
      [] [] ++ List.replicate 512 0) = .error .range :=
  ⟨by decide, by decide, by decide, by decide, by decide,
    claim_C2 (js "f") [] [] [] (js "777777") [] [] [] [] [] (by decide)
      (by decide) 262143 (by decide) (by decide) (by decide)⟩


/-- The claim fails at a concrete buffer: a single 1024-byte archive whose
header declares an octal size of 777777 makes parseTar throw a RangeError
instead of returning the (empty) list of entries parsed so far. -/
theorem claim_C2_counterexample :
    parseTar (mkTestHeader (js "g") [] [] [] (js "777777") [] (js "0") [] []
      [] [] ++ List.replicate 512 0) = .error .range ∧
    ∀ l : List ParsedTarItem,
      (Except.error JsErr.range : Except JsErr (List ParsedTarItem)) ≠
        .ok l := by
  refine ⟨?_, fun l h => Except.noConfusion h⟩
  decide


/-! ## Claim C6 -/

/-- The checksum input: the header with its 8 checksum bytes replaced by
ASCII spaces. -/
def blankCk (h : Bytes) : Bytes :=
  h.take 148 ++ List.replicate 8 32 ++ h.drop 156

theorem take_peel (a b : Bytes) (n m : Nat) (ha : a.length = m) (h : m ≤ n) :
    (a ++ b).take n = a ++ b.take (n - m) := by
  subst ha
  conv_lhs => rw [show n = a.length + (n - a.length) by omega]
  rw [List.take_append]

theorem drop_peel (a b : Bytes) (n m : Nat) (ha : a.length = m) (h : m ≤ n) :
    (a ++ b).drop n = b.drop (n - m) := by
  subst ha
  conv_lhs => rw [show n = a.length + (n - a.length) by omega]
  rw [List.drop_append]

theorem blankCk_pre (now : Int) (opts : CreateTarOptions) (f : NormFile)
    (ck : Bytes) (hck : ck.length = 8) :
    blankCk (tarHeaderPre now opts f ck) =
      tarHeaderPre now opts f (List.replicate 8 32) := by
  unfold blankCk tarHeaderPre
  simp only [List.append_assoc]
  rw [take_peel (headerField f.name 100) _ 148 100 (by simp [headerField_length]) (by norm_num)]
  rw [show (148 - 100 : Nat) = 48 from rfl]
  rw [take_peel (headerField (_leftPad (resMode f opts) 7) 8) _ 48 8 (by simp [headerField_length]) (by norm_num)]
  rw [show (48 - 8 : Nat) = 40 from rfl]
  rw [take_peel (headerField (_leftPad (intToStringRadix 8 (resUid f opts)) 7) 8) _ 40 8 (by simp [headerField_length]) (by norm_num)]
  rw [show (40 - 8 : Nat) = 32 from rfl]
  rw [take_peel (headerField (_leftPad (intToStringRadix 8 (resGid f opts)) 7) 8) _ 32 8 (by simp [headerField_length]) (by norm_num)]
  rw [show (32 - 8 : Nat) = 24 from rfl]
  rw [take_peel (headerField (_leftPad (natDigits 8 f.size) 11) 12) _ 24 12 (by simp [headerField_length]) (by norm_num)]
  rw [show (24 - 12 : Nat) = 12 from rfl]
  rw [take_peel (headerField (_leftPad (intToStringRadix 8 (Int.tdiv (resMtime now f opts) 1000)) 11) 12) _ 12 12 (by simp [headerField_length]) (by norm_num)]
  rw [show (12 - 12 : Nat) = 0 from rfl]
  rw [List.take_zero, List.append_nil]
  rw [drop_peel (headerField f.name 100) _ 156 100 (by simp [headerField_length]) (by norm_num)]
  rw [show (156 - 100 : Nat) = 56 from rfl]
  rw [drop_peel (headerField (_leftPad (resMode f opts) 7) 8) _ 56 8 (by simp [headerField_length]) (by norm_num)]
  rw [show (56 - 8 : Nat) = 48 from rfl]
  rw [drop_peel (headerField (_leftPad (intToStringRadix 8 (resUid f opts)) 7) 8) _ 48 8 (by simp [headerField_length]) (by norm_num)]
  rw [show (48 - 8 : Nat) = 40 from rfl]
  rw [drop_peel (headerField (_leftPad (intToStringRadix 8 (resGid f opts)) 7) 8) _ 40 8 (by simp [headerField_length]) (by norm_num)]
  rw [show (40 - 8 : Nat) = 32 from rfl]
  rw [drop_peel (headerField (_leftPad (natDigits 8 f.size) 11) 12) _ 32 12 (by simp [headerField_length]) (by norm_num)]
  rw [show (32 - 12 : Nat) = 20 from rfl]
  rw [drop_peel (headerField (_leftPad (intToStringRadix 8 (Int.tdiv (resMtime now f opts) 1000)) 11) 12) _ 20 12 (by simp [headerField_length]) (by norm_num)]
  rw [show (20 - 12 : Nat) = 8 from rfl]
  rw [drop_peel ck _ 8 8 hck (by norm_num)]
  rw [show (8 - 8 : Nat) = 0 from rfl, List.drop_zero]
  simp only [List.append_assoc]

/-- C6 (corrected): the stored checksum field is the octal digit string
of the byte sum of the header with its checksum bytes blanked to spaces,
written unpadded into the 8-byte field and NUL-filled -- not a zero-padded
6-digit string. -/
theorem claim_C6 (now : Int) (opts : CreateTarOptions) (f : NormFile) :
    sliceAt (tarHeader now opts f) 148 8 =
      headerField (natDigits 8 ((blankCk (tarHeader now opts f)).sum)) 8 := by
  rw [tarHeader_eq]
  rw [blankCk_pre now opts f _ (headerField_length _ _)]
  have h := hdrSlice_ck now opts f
    (headerField (natDigits 8
      ((tarHeaderPre now opts f (List.replicate 8 32)).sum)) 8) []
    (headerField_length _ _)
  simpa using h

/-- The claimed zero-padded 6-digit encoding is refuted at a concrete
header: the field is NUL-padded after the bare digit string. -/
theorem claim_C6_counterexample :
    (sliceAt (tarHeader 0 {} { name := js "a", data := none, attrs := none })
        148 8 =
      headerField
        (natDigits 8
          ((blankCk (tarHeader 0 {}
            { name := js "a", data := none, attrs := none })).sum)) 8) ∧
    (sliceAt (tarHeader 0 {} { name := js "a", data := none, attrs := none })
        148 8).take 6 ≠
      _leftPad
        (natDigits 8
          ((blankCk (tarHeader 0 {}
            { name := js "a", data := none, attrs := none })).sum)) 6 := by
  constructor
  · decide
  · decide


/-! ## Claim C7 -/

/-- A GNU long-name record (type L, 512-byte payload) followed by a USTAR
entry with a populated prefix field and a trailing zero block. -/
def c7buf (ln name mode uid gid mtime user group pfx : JSStr) : Bytes :=
  mkTestHeader (js "x") [] [] [] (js "1000") [] (js "L") [] [] [] [] ++
  headerField ln 512 ++
  mkTestHeader name mode uid gid (js "0") mtime (js "0") (js "ustar") user
    group pfx ++
  List.replicate 512 0

theorem c7buf_length (ln name mode uid gid mtime user group pfx : JSStr) :
    (c7buf ln name mode uid gid mtime user group pfx).length = 2048 := by
  simp [c7buf, mkTestHeader_length, headerField_length]

theorem c7buf_drop (ln name mode uid gid mtime user group pfx : JSStr) :
    (c7buf ln name mode uid gid mtime user group pfx).drop 1024 =
      mkTestHeader name mode uid gid (js "0") mtime (js "0") (js "ustar") user
        group pfx ++ List.replicate 512 0 := by
  unfold c7buf
  rw [show mkTestHeader (js "x") [] [] [] (js "1000") [] (js "L") [] [] [] [] ++
      headerField ln 512 ++
      mkTestHeader name mode uid gid (js "0") mtime (js "0") (js "ustar") user
        group pfx ++
      List.replicate 512 0 =
    (mkTestHeader (js "x") [] [] [] (js "1000") [] (js "L") [] [] [] [] ++
      headerField ln 512) ++
      (mkTestHeader name mode uid gid (js "0") mtime (js "0") (js "ustar") user
        group pfx ++ List.replicate 512 0) by simp [List.append_assoc]]
  rw [drop_peel _ _ 1024 1024
    (by simp [mkTestHeader_length, headerField_length]) (by norm_num)]
  rw [show (1024 - 1024 : Nat) = 0 from rfl, List.drop_zero]

/-- The full symbolic parse of c7buf. -/
theorem parse_c7buf (ln name mode uid gid mtime user group pfx : JSStr)
    (hln : GoodStr ln 512) (hln0 : ln ≠ [])
    (hname : GoodStr name 100) (hname0 : name ≠ [])
    (hpfx : GoodStr pfx 155) :
    parseTar (c7buf ln name mode uid gid mtime user group pfx) =
      .ok [mkOrdItem (some [(js "path", some ln)]) none name
        (utf8Decode ((headerField mode 8).takeWhile (fun b => b != 0)))
        (utf8Decode ((headerField uid 8).takeWhile (fun b => b != 0)))
        (utf8Decode ((headerField gid 8).takeWhile (fun b => b != 0)))
        (0 : Int) (jsParseIntRadix 8 (headerField mtime 12)) (js "file")
        (js "ustar")
        (utf8Decode ((headerField user 32).takeWhile (fun b => b != 0)))
        (utf8Decode ((headerField group 32).takeWhile (fun b => b != 0)))
        pfx
        (sliceAt (c7buf ln name mode uid gid mtime user group pfx) 1536
          ((0 : Int).toNat))] := by
  have hlen := c7buf_length ln name mode uid gid mtime user group pfx
  have hdropOrd := c7buf_drop ln name mode uid gid mtime user group pfx
  unfold parseTar
  rw [hlen]
  rw [show (0 : Int) = ((0 : Nat) : Int) from rfl]
  rw [parseLoop_gnuStep (c7buf ln name mode uid gid mtime user group pfx)
    {} 2048 0 none none [] (js "L") (js "gnuLongFileName") (512 : Int)
    (by omega)
    (by
      show utf8Decode ((sliceAt (c7buf ln name mode uid gid mtime user group
        pfx) 0 100).takeWhile (fun b => b != 0)) ≠ []
      unfold c7buf
      simp only [List.append_assoc]
      rw [tstSlice_name]
      rw [read_headerField _ _ (by decide)]
      decide)
    (by
      show jsParseIntRadix 8 (sliceAt (c7buf ln name mode uid gid mtime user
        group pfx) 124 12) = some 512
      unfold c7buf
      simp only [List.append_assoc]
      rw [tstSlice_size]
      decide)
    (by decide)
    (by
      show utf8Decode ((sliceAt (c7buf ln name mode uid gid mtime user group
        pfx) 156 1).takeWhile (fun b => b != 0)) = js "L"
      unfold c7buf
      simp only [List.append_assoc]
      rw [tstSlice_ty]
      decide)
    (by decide)
    (by decide)
    (by
      show 0 + 512 + (512 : Int).toNat ≤ (c7buf ln name mode uid gid mtime
        user group pfx).length
      omega)]
  have hpay : utf8Decode ((sliceAt (c7buf ln name mode uid gid mtime user
      group pfx) (0 + 512) ((512 : Int).toNat)).takeWhile (fun b => b != 0)) =
      ln := by
    rw [show (0 + 512 : Nat) = 512 from rfl]
    have hsl : sliceAt (c7buf ln name mode uid gid mtime user group pfx) 512
        ((512 : Int).toNat) = headerField ln 512 := by
      unfold c7buf
      simp only [List.append_assoc]
      rw [sliceAt_peel _ _ 512 ((512 : Int).toNat) 512
        (by simp [mkTestHeader_length]) (by norm_num)]
      rw [show (512 - 512 : Nat) = 0 from rfl]
      exact sliceAt_here _ _ _ (by simp [headerField_length])
    rw [hsl]
    exact read_headerField _ _ hln
  rw [hpay]
  rw [show (0 + 512 + align512 ((512 : Int).toNat) : Nat) = 1024 from by decide]
  rw [show (2048 : Nat) = 2047 + 1 from rfl]
  rw [parseLoop_ordStep (c7buf ln name mode uid gid mtime user group pfx)
    2047 1024 (some [(js "path", some ln)]) none [] name
    (utf8Decode ((headerField mode 8).takeWhile (fun b => b != 0)))
    (utf8Decode ((headerField uid 8).takeWhile (fun b => b != 0)))
    (utf8Decode ((headerField gid 8).takeWhile (fun b => b != 0)))
    (js "0") (js "ustar")
    (utf8Decode ((headerField user 32).takeWhile (fun b => b != 0)))
    (utf8Decode ((headerField group 32).takeWhile (fun b => b != 0)))
    pfx
    (0 : Int) (jsParseIntRadix 8 (headerField mtime 12)) (js "file")
    (by omega)
    (by have h := sliceAt_of_drop _ _ 1024 0 100 hdropOrd
        rw [Nat.add_zero] at h
        rw [h, tstSlice_name]
        exact read_headerField _ _ hname)
    hname0
    (by rw [sliceAt_of_drop _ _ 1024 100 8 hdropOrd, tstSlice_mode])
    (by rw [sliceAt_of_drop _ _ 1024 108 8 hdropOrd, tstSlice_uid])
    (by rw [sliceAt_of_drop _ _ 1024 116 8 hdropOrd, tstSlice_gid])
    (by rw [sliceAt_of_drop _ _ 1024 124 12 hdropOrd, tstSlice_size]; decide)
    (by decide)
    (by rw [sliceAt_of_drop _ _ 1024 136 12 hdropOrd, tstSlice_mtime])
    (by rw [sliceAt_of_drop _ _ 1024 156 1 hdropOrd, tstSlice_ty]; decide)
    (by decide)
    (by decide)
    (by rw [sliceAt_of_drop _ _ 1024 257 6 hdropOrd, tstSlice_magic]
        exact read_headerField _ _ (by decide))
    (by rw [sliceAt_of_drop _ _ 1024 265 32 hdropOrd, tstSlice_user])
    (by rw [sliceAt_of_drop _ _ 1024 297 32 hdropOrd, tstSlice_group])
    (by rw [sliceAt_of_drop _ _ 1024 345 155 hdropOrd, tstSlice_pfx]
        exact read_headerField _ _ hpfx)
    (by
      show 1024 + 512 + (0 : Int).toNat ≤ (c7buf ln name mode uid gid mtime
        user group pfx).length
      omega)]
  simp only [List.nil_append]
  exact parseLoop_stop _ {} 2046 _ none none _ (by rw [hlen]; omega)


theorem resolveLongName_path (ln name : JSStr) (hln0 : ln ≠ []) :
    resolveLongName (some [(js "path", some ln)]) name = ln := by
  unfold resolveLongName extTruthy recGet
  simp [hln0]

/-- C7 (corrected): a pending GNU long-name override does replace the
base-header name, but the USTAR prefix field is still applied on top of
it: with magic "ustar" and a nonempty prefix field the resulting name is
the sanitized join of the prefix and the long name (single-separator
slash handling as in the join). -/
theorem claim_C7 (ln name mode uid gid mtime user group pfx : JSStr)
    (hln : GoodStr ln 512) (hln0 : ln ≠ [])
    (hname : GoodStr name 100) (hname0 : name ≠ [])
    (hpfx : GoodStr pfx 155) :
    ∃ it : ParsedTarItem,
      parseTar (c7buf ln name mode uid gid mtime user group pfx) = .ok [it] ∧
      it.meta.name = _sanitizePath (joinPfx pfx ln) := by
  refine ⟨_, parse_c7buf ln name mode uid gid mtime user group pfx hln hln0
    hname hname0 hpfx, ?_⟩
  simp only [mkOrdItem, resolveLongName_path ln name hln0, if_true]

theorem claim_C7_witness :
    GoodStr (js "longname") 512 ∧ js "longname" ≠ [] ∧
    GoodStr (js "x") 100 ∧ js "x" ≠ [] ∧ GoodStr (js "pre") 155 ∧
    ∃ it : ParsedTarItem,
      parseTar (c7buf (js "longname") (js "x") [] [] [] [] [] [] (js "pre")) =
        .ok [it] ∧
      it.meta.name = _sanitizePath (joinPfx (js "pre") (js "longname")) :=
  ⟨by decide, by decide, by decide, by decide, by decide,
    claim_C7 (js "longname") (js "x") [] [] [] [] [] [] (js "pre")
      (by decide) (by decide) (by decide) (by decide) (by decide)⟩


/-- What c7buf with prefix "pre" and long name "longname" parses to. -/
def c7item : ParsedTarItem :=
  { meta :=
      { name := js "pre/longname"
        type := js "file"
        size := some 0
        attrs :=
          { ext := [(js "path", some (js "longname"))]
            mode := []
            uid := none
            gid := none
            mtime := none
            user := some []
            group := some [] } }
    data := none }

/-- The literal claim fails at a concrete archive: with a pending GNU
long name "longname" and USTAR prefix "pre", the parsed name is
"pre/longname", not the bare long name. -/
theorem claim_C7_counterexample :
    parseTar (c7buf (js "longname") (js "q") [] [] [] [] [] [] (js "pre")) =
      .ok [c7item] ∧
    c7item.meta.name = js "pre/longname" ∧
    js "pre/longname" ≠ js "longname" := by
  refine ⟨?_, by decide, by decide⟩
  rw [parse_c7buf (js "longname") (js "q") [] [] [] [] [] [] (js "pre")
    (by decide) (by decide) (by decide) (by decide) (by decide)]
  decide


/-! ## Claim C4 -/

theorem tarBufSize_mod (tds : Nat) : tarBufSize tds % 10240 = 0 := by
  unfold tarBufSize
  by_cases h : tds % 10240 = 0
  · rw [if_neg (by omega)]
    omega
  · rw [if_pos (by omega)]
    omega

/-- C4 (corrected): every createTar output has length an exact multiple of
10240; the final 512 bytes are guaranteed all-zero only when the total
entry size is not itself a multiple of 10240 (otherwise no padding is
appended and the archive ends with the last entry payload). -/
theorem claim_C4 (now : Int) (copts : CreateTarOptions)
    (files : List TarFileInput) :
    (createTar now files copts).length % 10240 = 0 ∧
    (tarDataSize (files.map normFile) % 10240 ≠ 0 →
      (createTar now files copts).drop
        ((createTar now files copts).length - 512) =
        List.replicate 512 0) := by
  have hflat := flatten_blocks_length now copts files
  have hlen := createTar_length now copts files
  constructor
  · rw [hlen]
    exact tarBufSize_mod _
  · intro hmod
    have hm512 := tarDataSize_mod (files.map normFile)
    have hmm : tarDataSize (files.map normFile) % 10240 % 512 =
        tarDataSize (files.map normFile) % 512 :=
      Nat.mod_mod_of_dvd _ (by norm_num)
    have hpad : 512 ≤ tarBufSize (tarDataSize (files.map normFile)) -
        tarDataSize (files.map normFile) := by
      unfold tarBufSize
      rw [if_pos hmod]
      have h1 : tarDataSize (files.map normFile) % 10240 ≤ 10240 - 512 := by
        omega
      have h2 := Nat.div_add_mod (tarDataSize (files.map normFile)) 10240
      omega
    rw [hlen, createTar_eq_flatten]
    rw [drop_peel _ _ (tarBufSize (tarDataSize (files.map normFile)) - 512)
      (tarDataSize (files.map normFile)) hflat (by omega)]
    rw [List.drop_replicate]
    congr 1
    have := tarBufSize_ge (tarDataSize (files.map normFile))
    omega

theorem claim_C4_witness :
    (createTar 0 [{ name := js "a" }] {}).length % 10240 = 0 ∧
    tarDataSize (List.map normFile [{ name := js "a" : TarFileInput }]) %
      10240 ≠ 0 ∧
    (createTar 0 [{ name := js "a" }] {}).drop
      ((createTar 0 [{ name := js "a" }] {}).length - 512) =
      List.replicate 512 0 :=
  ⟨(claim_C4 0 {} [{ name := js "a" }]).1, by decide,
    (claim_C4 0 {} [{ name := js "a" }]).2 (by decide)⟩


theorem entryBlock_some (now : Int) (opts : CreateTarOptions) (f : NormFile)
    (d : Bytes) (hd : f.data = some d) :
    entryBlock now opts f = tarHeader now opts f ++
      (d ++ List.replicate (align512 d.length - d.length) 0) := by
  unfold entryBlock
  rw [hd]

/-- The C4 counterexample input: one file whose 9728-byte payload makes
the total entry size exactly 10240. -/
def c4file : TarFileInput :=
  { name := js "a", data := some (.bytes (List.replicate 9728 1)) }

theorem c4_createTar_eq : createTar 0 [c4file] {} =
    tarHeader 0 {} (normFile c4file) ++ List.replicate 9728 1 := by
  have halign : align512 9728 = 9728 := by decide
  have hsz : (normFile c4file).size = 9728 := by
    have h : (normFile c4file).data = some (List.replicate 9728 1) := rfl
    unfold NormFile.size
    rw [h]
    simp only [Option.map_some, Option.map_some', Option.getD_some]
    exact List.length_replicate 9728 1
  have htds : tarDataSize (List.map normFile [c4file]) = 10240 := by
    unfold tarDataSize
    simp only [List.map_cons, List.map_nil, List.sum_cons, List.sum_nil]
    rw [hsz, halign]
    norm_num
  rw [createTar_eq_flatten]
  rw [htds]
  rw [show tarBufSize 10240 - 10240 = 0 from by decide]
  rw [show List.replicate 0 (0 : Nat) = [] from rfl, List.append_nil]
  rw [show List.map (fun f => entryBlock 0 {} (normFile f)) [c4file] =
    [entryBlock 0 {} (normFile c4file)] from rfl]
  rw [show ([entryBlock 0 {} (normFile c4file)]).flatten =
    entryBlock 0 {} (normFile c4file) ++ [] from rfl]
  rw [List.append_nil]
  rw [entryBlock_some 0 {} (normFile c4file) (List.replicate 9728 1) rfl]
  have hl : (List.replicate 9728 (1 : Nat)).length = 9728 :=
    List.length_replicate 9728 1
  rw [hl, halign]
  rw [show (9728 - 9728 : Nat) = 0 from rfl]
  rw [show List.replicate 0 (0 : Nat) = [] from rfl, List.append_nil]

/-- The all-zero-tail half of the claim fails at a concrete input: a
single 9728-byte payload of 1-bytes gives a 10240-byte archive whose
final 512 bytes are all 1. -/
theorem claim_C4_counterexample :
    (createTar 0 [c4file] {}).length % 10240 = 0 ∧
    (createTar 0 [c4file] {}).drop ((createTar 0 [c4file] {}).length - 512) =
      List.replicate 512 1 ∧
    List.replicate 512 (1 : Nat) ≠ List.replicate 512 0 := by
  have hlen2 : (tarHeader 0 {} (normFile c4file) ++
      List.replicate 9728 1).length = 10240 := by
    simp only [List.length_append, tarHeader_length, List.length_replicate]
  refine ⟨?_, ?_, by decide⟩
  · rw [c4_createTar_eq, hlen2]
  · rw [c4_createTar_eq, hlen2]
    rw [show (10240 - 512 : Nat) = 9728 from rfl]
    rw [drop_peel (tarHeader 0 {} (normFile c4file)) _ 9728 512
      (tarHeader_length 0 {} _) (by norm_num)]
    rw [show (9728 - 512 : Nat) = 9216 from rfl, List.drop_replicate,
      show (9728 - 9216 : Nat) = 512 from rfl]


/-! ## Claim C3 -/

/-- PAX payload of the global (g) record: mtime 11, comment gc. -/
def c3gPayload : JSStr := js "1 mtime=11\n1 comment=gc"

/-- PAX payload of the entry-scoped (x) record: mtime 22, comment xc. -/
def c3xPayload : JSStr := js "1 mtime=22\n1 comment=xc"

/-- A g record, an x record, an ordinary entry whose base header carries
octal mtime 77 (= 63), and a trailing zero block. -/
def c3buf : Bytes :=
  mkTestHeader (js "g") [] [] [] (js "27") [] (js "g") [] [] [] [] ++
  headerField c3gPayload 512 ++
  mkTestHeader (js "x") [] [] [] (js "27") [] (js "x") [] [] [] [] ++
  headerField c3xPayload 512 ++
  mkTestHeader (js "f") [] [] [] (js "0") (js "77") (js "0") [] [] [] [] ++
  List.replicate 512 0

/-- What c3buf parses to. -/
def c3item : ParsedTarItem :=
  { meta :=
      { name := js "f"
        type := js "file"
        size := some 0
        attrs :=
          { ext := [(js "mtime", some (js "11")),
              (js "comment", some (js "gc")),
              (js "mtime", some (js "22")),
              (js "comment", some (js "xc"))]
            mode := []
            uid := none
            gid := none
            mtime := some 63
            user := none
            group := none } }
    data := none }

theorem c3buf_length : c3buf.length = 3072 := by
  simp [c3buf, mkTestHeader_length, headerField_length]

theorem c3buf_drop1 : c3buf.drop 1024 =
    mkTestHeader (js "x") [] [] [] (js "27") [] (js "x") [] [] [] [] ++
    (headerField c3xPayload 512 ++
    (mkTestHeader (js "f") [] [] [] (js "0") (js "77") (js "0") [] [] [] [] ++
    List.replicate 512 0)) := by
  unfold c3buf
  rw [show mkTestHeader (js "g") [] [] [] (js "27") [] (js "g") [] [] [] [] ++
      headerField c3gPayload 512 ++
      mkTestHeader (js "x") [] [] [] (js "27") [] (js "x") [] [] [] [] ++
      headerField c3xPayload 512 ++
      mkTestHeader (js "f") [] [] [] (js "0") (js "77") (js "0") [] [] [] [] ++
      List.replicate 512 0 =
    (mkTestHeader (js "g") [] [] [] (js "27") [] (js "g") [] [] [] [] ++
      headerField c3gPayload 512) ++
      (mkTestHeader (js "x") [] [] [] (js "27") [] (js "x") [] [] [] [] ++
      (headerField c3xPayload 512 ++
      (mkTestHeader (js "f") [] [] [] (js "0") (js "77") (js "0") [] [] [] [] ++
      List.replicate 512 0))) by simp [List.append_assoc]]
  rw [drop_peel _ _ 1024 1024
    (by simp [mkTestHeader_length, headerField_length]) (by norm_num)]
  rw [show (1024 - 1024 : Nat) = 0 from rfl, List.drop_zero]

theorem c3buf_drop2 : c3buf.drop 2048 =
    mkTestHeader (js "f") [] [] [] (js "0") (js "77") (js "0") [] [] [] [] ++
    List.replicate 512 0 := by
  unfold c3buf
  rw [show mkTestHeader (js "g") [] [] [] (js "27") [] (js "g") [] [] [] [] ++
      headerField c3gPayload 512 ++
      mkTestHeader (js "x") [] [] [] (js "27") [] (js "x") [] [] [] [] ++
      headerField c3xPayload 512 ++
      mkTestHeader (js "f") [] [] [] (js "0") (js "77") (js "0") [] [] [] [] ++
      List.replicate 512 0 =
    ((mkTestHeader (js "g") [] [] [] (js "27") [] (js "g") [] [] [] [] ++
      headerField c3gPayload 512) ++
      (mkTestHeader (js "x") [] [] [] (js "27") [] (js "x") [] [] [] [] ++
      headerField c3xPayload 512)) ++
      (mkTestHeader (js "f") [] [] [] (js "0") (js "77") (js "0") [] [] [] [] ++
      List.replicate 512 0) by simp [List.append_assoc]]
  rw [drop_peel _ _ 2048 2048
    (by simp [mkTestHeader_length, headerField_length]) (by norm_num)]
  rw [show (2048 - 2048 : Nat) = 0 from rfl, List.drop_zero]


theorem c3_gpay : sliceAt c3buf (0 + 512) ((23 : Int).toNat) =
    utf8Encode c3gPayload := by
  rw [show (0 + 512 : Nat) = 512 from rfl]
  unfold c3buf
  simp only [List.append_assoc]
  rw [sliceAt_peel _ _ 512 ((23 : Int).toNat) 512
    (by simp [mkTestHeader_length]) (by norm_num)]
  rw [show (512 - 512 : Nat) = 0 from rfl]
  rw [show headerField c3gPayload 512 =
    utf8Encode c3gPayload ++ List.replicate 489 0 from by decide]
  rw [List.append_assoc]
  exact sliceAt_here _ _ _ (by decide)

theorem c3_xpay : sliceAt c3buf (1024 + 512) ((23 : Int).toNat) =
    utf8Encode c3xPayload := by
  rw [sliceAt_of_drop c3buf _ 1024 512 ((23 : Int).toNat) c3buf_drop1]
  rw [sliceAt_peel _ _ 512 ((23 : Int).toNat) 512
    (by simp [mkTestHeader_length]) (by norm_num)]
  rw [show (512 - 512 : Nat) = 0 from rfl]
  rw [show headerField c3xPayload 512 =
    utf8Encode c3xPayload ++ List.replicate 489 0 from by decide]
  rw [List.append_assoc]
  exact sliceAt_here _ _ _ (by decide)

theorem c3_grec : _parseExtendedHeaders (utf8Encode c3gPayload) =
    [(js "mtime", some (js "11")), (js "comment", some (js "gc"))] := by
  decide

theorem c3_xrec : _parseExtendedHeaders (utf8Encode c3xPayload) =
    [(js "mtime", some (js "22")), (js "comment", some (js "xc"))] := by
  decide

/-- The full parse of c3buf: one entry whose ext record log holds the
global pairs then the entry pairs, and whose mtime is the base value. -/
theorem parse_c3buf : parseTar c3buf = .ok [c3item] := by
  have hlen := c3buf_length
  unfold parseTar
  rw [hlen]
  rw [show (0 : Int) = ((0 : Nat) : Int) from rfl]
  rw [parseLoop_extStep c3buf {} 3072 0 none none []
    (js "g") (js "globalExtendedHeader") (23 : Int)
    (by omega)
    (by show utf8Decode ((sliceAt c3buf 0 100).takeWhile (fun b => b != 0)) ≠ []
        unfold c3buf
        simp only [List.append_assoc]
        rw [tstSlice_name]
        decide)
    (by show jsParseIntRadix 8 (sliceAt c3buf 124 12) = some 23
        unfold c3buf
        simp only [List.append_assoc]
        rw [tstSlice_size]
        decide)
    (by decide)
    (by show utf8Decode ((sliceAt c3buf 156 1).takeWhile (fun b => b != 0)) =
          js "g"
        unfold c3buf
        simp only [List.append_assoc]
        rw [tstSlice_ty]
        decide)
    (by decide)
    (Or.inr rfl)
    (by show 0 + 512 + (23 : Int).toNat ≤ c3buf.length
        omega)]
  rw [if_neg (show ¬ (js "globalExtendedHeader" = js "extendedHeader") from
    by decide)]
  rw [if_neg (show ¬ (js "globalExtendedHeader" = js "extendedHeader") from
    by decide)]
  simp only [Option.getD_none, List.nil_append]
  rw [c3_gpay, c3_grec]
  rw [show (0 + 512 + align512 ((23 : Int).toNat) : Nat) = 1024 from by decide]
  rw [show (3072 : Nat) = 3071 + 1 from rfl]
  rw [parseLoop_extStep c3buf {} 3071 1024 none
    (some [(js "mtime", some (js "11")), (js "comment", some (js "gc"))]) []
    (js "x") (js "extendedHeader") (23 : Int)
    (by omega)
    (by have h := sliceAt_of_drop c3buf _ 1024 0 100 c3buf_drop1
        rw [Nat.add_zero] at h
        rw [h, tstSlice_name]
        decide)
    (by rw [sliceAt_of_drop c3buf _ 1024 124 12 c3buf_drop1, tstSlice_size]
        decide)
    (by decide)
    (by rw [sliceAt_of_drop c3buf _ 1024 156 1 c3buf_drop1, tstSlice_ty]
        decide)
    (by decide)
    (Or.inl rfl)
    (by show 1024 + 512 + (23 : Int).toNat ≤ c3buf.length
        omega)]
  rw [if_pos (rfl : js "extendedHeader" = js "extendedHeader")]
  rw [if_pos (rfl : js "extendedHeader" = js "extendedHeader")]
  rw [c3_xpay, c3_xrec]
  rw [show (1024 + 512 + align512 ((23 : Int).toNat) : Nat) = 2048 from
    by decide]
  rw [show (3071 : Nat) = 3070 + 1 from rfl]
  rw [parseLoop_ordStep c3buf 3070 2048
    (some [(js "mtime", some (js "22")), (js "comment", some (js "xc"))])
    (some [(js "mtime", some (js "11")), (js "comment", some (js "gc"))])
    [] (js "f") [] [] [] (js "0") [] [] [] []
    (0 : Int) (some 63) (js "file")
    (by omega)
    (by have h := sliceAt_of_drop c3buf _ 2048 0 100 c3buf_drop2
        rw [Nat.add_zero] at h
        rw [h, tstSlice_name]
        decide)
    (by decide)
    (by rw [sliceAt_of_drop c3buf _ 2048 100 8 c3buf_drop2, tstSlice_mode]
        decide)
    (by rw [sliceAt_of_drop c3buf _ 2048 108 8 c3buf_drop2, tstSlice_uid]
        decide)
    (by rw [sliceAt_of_drop c3buf _ 2048 116 8 c3buf_drop2, tstSlice_gid]
        decide)
    (by rw [sliceAt_of_drop c3buf _ 2048 124 12 c3buf_drop2, tstSlice_size]
        decide)
    (by decide)
    (by rw [sliceAt_of_drop c3buf _ 2048 136 12 c3buf_drop2, tstSlice_mtime]
        decide)
    (by rw [sliceAt_of_drop c3buf _ 2048 156 1 c3buf_drop2, tstSlice_ty]
        decide)
    (by decide)
    (by decide)
    (by rw [sliceAt_of_drop c3buf _ 2048 257 6 c3buf_drop2, tstSlice_magic]
        decide)
    (by rw [sliceAt_of_drop c3buf _ 2048 265 32 c3buf_drop2, tstSlice_user]
        decide)
    (by rw [sliceAt_of_drop c3buf _ 2048 297 32 c3buf_drop2, tstSlice_group]
        decide)
    (by rw [sliceAt_of_drop c3buf _ 2048 345 155 c3buf_drop2, tstSlice_pfx]
        decide)
    (by show 2048 + 512 + (0 : Int).toNat ≤ c3buf.length
        omega)]
  simp only [List.nil_append]
  rw [parseLoop_stop c3buf {} 3069
    ((2048 + 512 + align512 ((0 : Int).toNat) : Nat) : Int) none
    (some [(js "mtime", some (js "11")), (js "comment", some (js "gc"))])
    _ (by rw [hlen]; decide)]
  decide


/-- C3 (corrected): with a global (g) record then an entry (x) record
both setting mtime, and the base header carrying its own mtime, the
decoded mtime is the base-header value (the explicit header fields are
spread last and override both PAX layers); the entry-scoped value
overrides the global one only for keys the base header does not write,
such as comment. -/
theorem claim_C3 :
    ∃ it : ParsedTarItem,
      parseTar c3buf = .ok [it] ∧
      attrGet it.meta.attrs (js "mtime") = .num (some 63) ∧
      attrGet it.meta.attrs (js "comment") = .str (js "xc") ∧
      recGet it.meta.attrs.ext (js "mtime") = some (some (js "22")) :=
  ⟨c3item, parse_c3buf, by decide, by decide, by decide⟩

/-- The literal claim fails at c3buf: the PAX layers set mtime to "11"
(global) and "22" (entry), yet the decoded mtime is the base-header value
63, not 22 in any form. -/
theorem claim_C3_counterexample :
    parseTar c3buf = .ok [c3item] ∧
    attrGet c3item.meta.attrs (js "mtime") = .num (some 63) ∧
    (JsVal.num (some 63) ≠ JsVal.num (some 22)) ∧
    (JsVal.num (some 63) ≠ JsVal.str (js "22")) :=
  ⟨parse_c3buf, by decide, by decide, by decide⟩

end Nanotar
